import Mathlib

/-!
# ocm-cli: the DNS-zone provisioning workflow

A shallow embedding of the `gcp create dns-zone` / `gcp delete dns-zone`
commands (`cmd/ocm/gcp`), of the DNS part of the GCP client (`pkg/gcp/client.go`)
and of the naming helpers (`pkg/gcp/helpers.go`).

Go strings are Lean strings.  Go errors are values of `Error`; a function that
returns `error` returns `Option Error` here (`none` is `nil`).  The control
plane and the cloud provider are external systems: the commands reach them
through a `Backend`, and every call made is recorded, with its outcome, in the
run's list of events.
-/

namespace Ocm

/-! ## Strings -/

/-- Non-overlapping left-to-right replacement of a non-empty `old` by `new`:
the first argument counts the characters of a match that are still to be
skipped. -/
def replaceAllAux (old new : List Char) : Nat → List Char → List Char
  | _, [] => []
  | k + 1, _ :: cs => replaceAllAux old new k cs
  | 0, c :: cs =>
    if old.isPrefixOf (c :: cs) then new ++ replaceAllAux old new (old.length - 1) cs
    else c :: replaceAllAux old new 0 cs

/-- Go's `strings.ReplaceAll(s, old, new)`.  With an empty `old` the
replacement is inserted before every character and at the end. -/
def ReplaceAll (s old new : String) : String :=
  if old.data = [] then ⟨new.data ++ s.data.flatMap (fun c => c :: new.data)⟩
  else ⟨replaceAllAux old.data new.data 0 s.data⟩

/-- Substring test (Go's `strings.Contains`), on the characters. -/
def Contains (s sub : String) : Prop := sub.data <:+: s.data

instance (s sub : String) : Decidable (Contains s sub) := by
  unfold Contains; infer_instance

/-! ## Naming helpers (`pkg/gcp/helpers.go`) -/

/-- `FmtNetworkResourceId`: the network resource locator. -/
def FmtNetworkResourceId (projectId networkId : String) : String :=
  "https://compute.googleapis.com/compute/v1/projects/" ++ projectId ++
    "/global/networks/" ++ networkId

/-- `FmtDnsName`: `<domain-prefix>.<base-domain>.` -/
def FmtDnsName (domainPrefix baseDomain : String) : String :=
  let dnsName := domainPrefix ++ "." ++ baseDomain
  dnsName ++ "."

/-- `FmtDnsZoneName`: `<domain-prefix>.<base-domain>` with "." replaced by "-". -/
def FmtDnsZoneName (domainPrefix baseDomain : String) : String :=
  let dnsName := domainPrefix ++ "." ++ baseDomain
  ReplaceAll dnsName "." "-"

/-! ## Errors (`github.com/pkg/errors`) -/

/-- Go error values.  `ext` is an error value handed back by an external
library (the control-plane SDK, the Google API client): a status code and a
text.  `new` is `errors.New` / `fmt.Errorf`.  `wrap` is what `errors.Wrap` and
`errors.Wrapf` build around a cause. -/
inductive Error where
  | ext (status : Nat) (text : String)
  | new (text : String)
  | wrap (cause : Error) (message : String)
  deriving DecidableEq, Repr

namespace Error

/-- The `Error()` text: a wrapper prints its message, a colon and its cause. -/
def Error : Ocm.Error → String
  | ext _ t => t
  | new t => t
  | wrap c m => m ++ ": " ++ c.Error

/-- The error a wrapper was built around (the `Cause()` method of the value
`errors.Wrap` returns), if it is a wrapper. -/
def wrapped : Ocm.Error → Option Ocm.Error
  | wrap c _ => some c
  | _ => none

/-- The function `errors.Cause`: the innermost error of a chain of wrappers. -/
def Cause : Ocm.Error → Ocm.Error
  | wrap c _ => c.Cause
  | e => e

/-- The messages added by the wrappers of a chain, outermost first. -/
def messages : Ocm.Error → List String
  | wrap c m => m :: c.messages
  | _ => []

end Error

/-- `errors.Wrap(err, message)` for a non-nil `err`. -/
def Wrap (err : Error) (message : String) : Error := .wrap err message

/-- `errors.Wrapf(err, format, args...)` for a non-nil `err`; the formatted
message is passed already formatted. -/
def Wrapf (err : Error) (message : String) : Error := .wrap err message

/-! ## Data model -/

/-- The GCP payload of a DNS domain record (`cmv1.GcpDnsDomain`). -/
structure GcpDnsDomain where
  DomainPrefix : String
  ProjectId : String
  NetworkId : String
  deriving DecidableEq, Repr

/-- The control-plane record (`cmv1.DNSDomain`); `ID` is empty when unset. -/
structure DNSDomain where
  ID : String
  CloudProvider : String
  ClusterArch : String
  Gcp : GcpDnsDomain
  deriving DecidableEq, Repr

/-- The cloud resource (`dns.ManagedZone`); `Networks` holds the network URLs
of the private visibility configuration. -/
structure ManagedZone where
  Name : String
  Description : String
  DnsName : String
  Visibility : String
  Networks : List String
  deriving DecidableEq, Repr

/-- Flag storage of the create command (`Args`). -/
structure Args where
  Interactive : Bool
  DomainPrefix : String
  ProjectId : String
  NetworkId : String
  NetworkProjectId : String
  deriving DecidableEq, Repr

/-- Declarations of the repository that the workflow uses and that are not
among the source files: the two constants of the record builder and the two
error helpers of the GCP client. -/
structure Pkg where
  ProviderGCP : String
  ClusterArchClassic : String
  isNotFound : Error → Bool
  fmtGoogleApiError : Error → Error

/-! ## External calls -/

/-- The calls a command makes on the outside world. -/
inductive Call where
  | newConnection
  | connectionClose
  | newGcpClient
  | dnsDomainsAdd (body : DNSDomain)
  | dnsDomainGet (id : String)
  | dnsDomainDelete (id : String)
  | managedZonesCreate (project : String) (zone : ManagedZone)
  | managedZonesDelete (project : String) (zone : String)
  | managedZonesList (project : String) (dnsName : String)
  | logPrintf (line : String)
  | stdoutWrite (rows : List (String × String))
  deriving DecidableEq, Repr

/-- A call together with the error it was answered with, if any. -/
structure Event where
  call : Call
  err : Option Error
  deriving DecidableEq, Repr

/-- The outside world as the commands see it: every operation takes the state
of the outside world and answers with a result and the next state. -/
structure Backend (σ : Type) where
  newConnection : σ → Option Error × σ
  newGcpClient : σ → Option Error × σ
  dnsDomainsAdd : DNSDomain → σ → Except Error DNSDomain × σ
  dnsDomainGet : String → σ → Except Error DNSDomain × σ
  dnsDomainDelete : String → σ → Option Error × σ
  managedZonesCreate : String → ManagedZone → σ → Except Error ManagedZone × σ
  managedZonesDelete : String → String → σ → Option Error × σ
  managedZonesList : String → String → σ → Except Error (List ManagedZone) × σ
  stdoutWrite : List (String × String) → σ → Option Error × σ

/-- State of a run: the outside world and the events so far, oldest first. -/
structure Run (σ : Type) where
  world : σ
  events : List Event
  deriving DecidableEq, Repr

/-- The error of a fallible answer, if it is one. -/
def errOf {α : Type} : Except Error α → Option Error
  | .error e => some e
  | .ok _ => none

/-- Record a call answered with a value or an error. -/
def issue {σ α : Type} (c : Call) (r : Except Error α × σ) (evs : List Event) :
    Except Error α × Run σ :=
  (r.1, ⟨r.2, evs ++ [⟨c, errOf r.1⟩]⟩)

/-- Record a call answered with an error or nothing. -/
def issue0 {σ : Type} (c : Call) (r : Option Error × σ) (evs : List Event) :
    Option Error × Run σ :=
  (r.1, ⟨r.2, evs ++ [⟨c, r.1⟩]⟩)

/-- Record a call that has no answer (`connection.Close()`, `log.Printf`). -/
def note {σ : Type} (c : Call) (s : Run σ) : Run σ :=
  ⟨s.world, s.events ++ [⟨c, none⟩]⟩

/-! ## The DNS part of the GCP client (`pkg/gcp/client.go`) -/

section Commands

variable {σ : Type}

/-- `gcpClient.CreateDnsZone`: submits the zone of a record. -/
def CreateDnsZone (P : Pkg) (B : Backend σ) (dnsDomain : DNSDomain) (hostProjectId : String)
    (s : Run σ) : Except Error ManagedZone × Run σ :=
  let project := dnsDomain.Gcp.ProjectId
  let body : ManagedZone :=
    { Name := FmtDnsZoneName dnsDomain.Gcp.DomainPrefix dnsDomain.ID
      Description := "Cloud DNS Zone created by OCM"
      DnsName := FmtDnsName dnsDomain.Gcp.DomainPrefix dnsDomain.ID
      Visibility := "private"
      Networks := [FmtNetworkResourceId hostProjectId dnsDomain.Gcp.NetworkId] }
  match issue (.managedZonesCreate project body) (B.managedZonesCreate project body s.world)
      s.events with
  | (.error err, s1) => (.error (P.fmtGoogleApiError err), s1)
  | (.ok zone, s1) => (.ok zone, s1)

/-- `gcpClient.DeleteDnsZone`: deletes the zone of a record; a zone that is
not found is no error. -/
def DeleteDnsZone (P : Pkg) (B : Backend σ) (dnsDomain : DNSDomain) (s : Run σ) :
    Option Error × Run σ :=
  let dnsZoneName := FmtDnsZoneName dnsDomain.Gcp.DomainPrefix dnsDomain.ID
  match issue0 (.managedZonesDelete dnsDomain.Gcp.ProjectId dnsZoneName)
      (B.managedZonesDelete dnsDomain.Gcp.ProjectId dnsZoneName s.world) s.events with
  | (some err, s1) =>
    if P.isNotFound err then (none, s1)
    else (some (P.fmtGoogleApiError err), s1)
  | (none, s1) => (none, s1)

/-- `gcpClient.GetDnsZone`: the first zone of the record's project with the
record's DNS name. -/
def GetDnsZone (P : Pkg) (B : Backend σ) (dnsDomain : DNSDomain) (s : Run σ) :
    Except Error ManagedZone × Run σ :=
  let dnsName := FmtDnsName dnsDomain.Gcp.DomainPrefix dnsDomain.ID
  match issue (.managedZonesList dnsDomain.Gcp.ProjectId dnsName)
      (B.managedZonesList dnsDomain.Gcp.ProjectId dnsName s.world) s.events with
  | (.error err, s1) => (.error (P.fmtGoogleApiError err), s1)
  | (.ok zones, s1) =>
    match zones with
    | [] => (.error (.new "DNS zone not found"), s1)
    | zone :: _ => (.ok zone, s1)

/-! ## The commands (`cmd/ocm/gcp`) -/

/-- `createDnsDomain`: builds the record (without identifier) and adds it to
the control plane.  The builder's `Build` cannot fail for these setters. -/
def createDnsDomain (P : Pkg) (B : Backend σ) (domainPrefix projectId networkId : String)
    (s : Run σ) : Except Error DNSDomain × Run σ :=
  let dnsDomainInput : DNSDomain :=
    { ID := ""
      CloudProvider := P.ProviderGCP
      ClusterArch := P.ClusterArchClassic
      Gcp := { DomainPrefix := domainPrefix, ProjectId := projectId, NetworkId := networkId } }
  match issue (.dnsDomainsAdd dnsDomainInput) (B.dnsDomainsAdd dnsDomainInput s.world)
      s.events with
  | (.error err, s1) => (.error (Wrap err "failed to create dns-domain"), s1)
  | (.ok body, s1) => (.ok body, s1)

/-- `getDnsDomain`: fetches a record from the control plane. -/
def getDnsDomain (B : Backend σ) (dnsDomainId : String) (s : Run σ) :
    Except Error DNSDomain × Run σ :=
  match issue (.dnsDomainGet dnsDomainId) (B.dnsDomainGet dnsDomainId s.world) s.events with
  | (.error err, s1) => (.error (Wrap err "failed to get dns-zone"), s1)
  | (.ok body, s1) => (.ok body, s1)

/-- `deleteDnsDomain`: deletes a record from the control plane. -/
def deleteDnsDomain (B : Backend σ) (dnsDomainId : String) (s : Run σ) :
    Option Error × Run σ :=
  match issue0 (.dnsDomainDelete dnsDomainId) (B.dnsDomainDelete dnsDomainId s.world)
      s.events with
  | (some err, s1) => (some (Wrap err "failed to delete dns-domain"), s1)
  | (none, s1) => (none, s1)

/-- The rows `describeDnsZoneCmd` prints for a record. -/
def describeRows (dnsZone : DNSDomain) : List (String × String) :=
  [ ("ID|BASE DOMAIN:", dnsZone.ID),
    ("Domain Prefix:", dnsZone.Gcp.DomainPrefix),
    ("Project:", dnsZone.Gcp.ProjectId),
    ("Network:", dnsZone.Gcp.NetworkId),
    ("Zone Name:", FmtDnsZoneName dnsZone.Gcp.DomainPrefix dnsZone.ID),
    ("DNS Name:", FmtDnsName dnsZone.Gcp.DomainPrefix dnsZone.ID) ]

/-- `describeDnsZoneCmd`: fetches the record named by its one argument and
prints it.  The connection is closed on return (`defer`). -/
def describeDnsZoneCmd (B : Backend σ) (argv : List String) (s : Run σ) :
    Option Error × Run σ :=
  match argv with
  | [arg] =>
    match issue0 .newConnection (B.newConnection s.world) s.events with
    | (some err, s1) => (some (Wrapf err "Failed to create OCM connection"), s1)
    | (none, s1) =>
      let r : Option Error × Run σ :=
        match getDnsDomain B arg s1 with
        | (.error err, s2) => (some (Wrapf err "failed to get dns-domain"), s2)
        | (.ok dnsZone, s2) =>
          issue0 (.stdoutWrite (describeRows dnsZone))
            (B.stdoutWrite (describeRows dnsZone) s2.world) s2.events
      (r.1, note .connectionClose r.2)
  | _ =>
    (some (.new ("expected one command line parameter containing the " ++
      "ID or Base Domain of the DNS zone")), s)

/-- `createDnsDomainCmd`: the create operation.  The connection is closed on
return (`defer`). -/
def createDnsDomainCmd (P : Pkg) (B : Backend σ) (args : Args) (s : Run σ) :
    Option Error × Run σ :=
  match issue0 .newConnection (B.newConnection s.world) s.events with
  | (some err, s1) => (some (Wrapf err "failed to create OCM connection"), s1)
  | (none, s1) =>
    let r : Option Error × Run σ :=
      match issue0 .newGcpClient (B.newGcpClient s1.world) s1.events with
      | (some err, s2) => (some (Wrapf err "failed to initiate GCP client"), s2)
      | (none, s2) =>
        -- Create the DNS domain object in OCM
        match createDnsDomain P B args.DomainPrefix args.ProjectId args.NetworkId s2 with
        | (.error err, s3) => (some (Wrapf err "failed to create dns-domain"), s3)
        | (.ok dnsDomain, s3) =>
          -- Create the DNS zone in GCP
          match CreateDnsZone P B dnsDomain args.NetworkProjectId s3 with
          | (.error err, s4) =>
            match deleteDnsDomain B dnsDomain.ID s4 with
            | (some cleanupErr, s5) =>
              (some (Wrapf err
                ("failed to create dns-zone and failed to rollback dns-domain '" ++
                  dnsDomain.ID ++ "': " ++ cleanupErr.Error)), s5)
            | (none, s5) => (some (Wrapf err "failed to create dns-zone"), s5)
          | (.ok _, s4) =>
            -- Describe the DNS zone
            match describeDnsZoneCmd B [dnsDomain.ID] s4 with
            | (some err, s5) => (some (Wrap err "dns-zone created but failed to describe"), s5)
            | (none, s5) => (none, s5)
    (r.1, note .connectionClose r.2)

/-- `deleteDnsZoneCmd`: the delete operation.  The connection is closed on
return (`defer`). -/
def deleteDnsZoneCmd (P : Pkg) (B : Backend σ) (argv : List String) (s : Run σ) :
    Option Error × Run σ :=
  match argv with
  | [arg] =>
    match issue0 .newConnection (B.newConnection s.world) s.events with
    | (some err, s1) => (some (Wrapf err "Failed to create OCM connection"), s1)
    | (none, s1) =>
      let r : Option Error × Run σ :=
        match issue0 .newGcpClient (B.newGcpClient s1.world) s1.events with
        | (some err, s2) => (some (Wrapf err "failed to initiate GCP client"), s2)
        | (none, s2) =>
          -- Get the DNS zone from OCM
          match getDnsDomain B arg s2 with
          | (.error err, s3) => (some (Wrapf err "failed to get dns-domain"), s3)
          | (.ok dnsDomain, s3) =>
            -- Delete the DNS zone from GCP (no-op if not found)
            match DeleteDnsZone P B dnsDomain s3 with
            | (some err, s4) => (some (Wrapf err "failed to delete dns-zone"), s4)
            | (none, s4) =>
              let s5 := note (.logPrintf ("gcp dns-zone '" ++
                FmtDnsZoneName dnsDomain.Gcp.DomainPrefix dnsDomain.ID ++
                "' deleted successfully.")) s4
              -- Delete the DNS domain from OCM
              match deleteDnsDomain B dnsDomain.ID s5 with
              | (some err, s6) => (some (Wrapf err "failed to delete dns-domain"), s6)
              | (none, s6) =>
                (none, note (.logPrintf ("dns-domain '" ++ dnsDomain.ID ++
                  "' deleted successfully.")) s6)
      (r.1, note .connectionClose r.2)
  | _ =>
    (some (.new ("expected one command line parameter containing the " ++
      "ID or Base Domain of the DNS zone")), s)

end Commands

/-! ## A reference model of the two external systems

The control plane and the cloud provider are not part of the repository.  The
model below follows the interface the specification gives for them: the
control plane assigns the identifier of a record it creates, answers "not
found" for an absent record on read and on delete; the cloud provider answers
"not found" for an absent zone on delete.  Any call can in addition be made to
fail: `faults` lists, for the calls to come, the error to answer with (`none`
lets the call through); a call that fails leaves the systems as they were. -/

/-- State of the control plane and of the cloud provider. -/
structure World where
  records : List DNSDomain
  zones : List (String × ManagedZone)
  ids : List String
  faults : List (Option Error)
  stdout : List (List (String × String))
  deriving DecidableEq, Repr

namespace World

/-- The error of the control plane for an absent record. -/
def recordNotFound (id : String) : Error :=
  .ext 404 ("DNS domain with id '" ++ id ++ "' not found")

/-- The error of the cloud provider for an absent zone. -/
def zoneNotFound (zone : String) : Error :=
  .ext 404 ("The 'parameters.managedZone' resource named '" ++ zone ++ "' does not exist.")

/-- The error of the cloud provider for a zone that exists already. -/
def zoneExists (zone : String) : Error :=
  .ext 409 ("The 'entity.managedZone' resource named '" ++ zone ++ "' already exists")

/-- The error of the control plane when it cannot assign an identifier. -/
def noIdentifier : Error := .ext 500 "cannot assign an identifier"

/-- Consume the entry of `faults` that belongs to the call being made. -/
def nextFault (w : World) : Option Error × World :=
  match w.faults with
  | [] => (none, w)
  | f :: fs => (f, { w with faults := fs })

/-- A call with no effect on the two systems. -/
def plain (w : World) : Option Error × World := w.nextFault

/-- Control plane: create a record under the next identifier. -/
def dnsDomainsAdd (body : DNSDomain) (w : World) : Except Error DNSDomain × World :=
  match w.nextFault with
  | (some e, w1) => (.error e, w1)
  | (none, w1) =>
    match w1.ids with
    | [] => (.error noIdentifier, w1)
    | id :: rest =>
      let d : DNSDomain := { body with ID := id }
      (.ok d, { w1 with records := w1.records ++ [d], ids := rest })

/-- Control plane: read the record with an identifier. -/
def dnsDomainGet (id : String) (w : World) : Except Error DNSDomain × World :=
  match w.nextFault with
  | (some e, w1) => (.error e, w1)
  | (none, w1) =>
    match w1.records.find? (fun r => r.ID = id) with
    | none => (.error (recordNotFound id), w1)
    | some d => (.ok d, w1)

/-- Control plane: delete the record with an identifier; an absent record is
an error. -/
def dnsDomainDelete (id : String) (w : World) : Option Error × World :=
  match w.nextFault with
  | (some e, w1) => (some e, w1)
  | (none, w1) =>
    if w1.records.any (fun r => r.ID = id) then
      (none, { w1 with records := w1.records.filter (fun r => ¬ r.ID = id) })
    else (some (recordNotFound id), w1)

/-- Cloud: create a zone in a project. -/
def managedZonesCreate (project : String) (zone : ManagedZone) (w : World) :
    Except Error ManagedZone × World :=
  match w.nextFault with
  | (some e, w1) => (.error e, w1)
  | (none, w1) =>
    if w1.zones.any (fun z => z.1 = project ∧ z.2.Name = zone.Name) then
      (.error (zoneExists zone.Name), w1)
    else (.ok zone, { w1 with zones := w1.zones ++ [(project, zone)] })

/-- Cloud: delete a zone of a project by name. -/
def managedZonesDelete (project name : String) (w : World) : Option Error × World :=
  match w.nextFault with
  | (some e, w1) => (some e, w1)
  | (none, w1) =>
    if w1.zones.any (fun z => z.1 = project ∧ z.2.Name = name) then
      (none, { w1 with zones := w1.zones.filter (fun z => ¬ (z.1 = project ∧ z.2.Name = name)) })
    else (some (zoneNotFound name), w1)

/-- Cloud: the zones of a project with a DNS name. -/
def managedZonesList (project dnsName : String) (w : World) :
    Except Error (List ManagedZone) × World :=
  match w.nextFault with
  | (some e, w1) => (.error e, w1)
  | (none, w1) =>
    (.ok ((w1.zones.filter (fun z => z.1 = project ∧ z.2.DnsName = dnsName)).map Prod.snd), w1)

/-- Standard output: print a table. -/
def stdoutWrite (rows : List (String × String)) (w : World) : Option Error × World :=
  match w.nextFault with
  | (some e, w1) => (some e, w1)
  | (none, w1) => (none, { w1 with stdout := w1.stdout ++ [rows] })

/-- The reference model as a backend. -/
def backend : Backend World where
  newConnection := plain
  newGcpClient := plain
  dnsDomainsAdd := dnsDomainsAdd
  dnsDomainGet := dnsDomainGet
  dnsDomainDelete := dnsDomainDelete
  managedZonesCreate := managedZonesCreate
  managedZonesDelete := managedZonesDelete
  managedZonesList := managedZonesList
  stdoutWrite := stdoutWrite

end World

/-- The events a run added: those of `s'` that come after the ones of `s`. -/
def eventsSince {σ : Type} (s s' : Run σ) : List Event := s'.events.drop s.events.length

/-! ## Sample values -/

/-- Sample package declarations: an error is "not found" when its status is
404; Google API errors are passed on as they are. -/
def samplePkg : Pkg where
  ProviderGCP := "gcp"
  ClusterArchClassic := "classic"
  isNotFound := fun e => match e with
    | .ext 404 _ => true
    | _ => false
  fmtGoogleApiError := fun e => e

/-- Sample arguments of the create command. -/
def sampleArgs : Args where
  Interactive := false
  DomainPrefix := "my-domain"
  ProjectId := "my-project"
  NetworkId := "my-network"
  NetworkProjectId := "my-network-project"

/-- The record the control plane creates in the samples. -/
def sampleRecord : DNSDomain :=
  ⟨"abc123", "gcp", "classic", ⟨"my-domain", "my-project", "my-network"⟩⟩

/-- A world that holds the sample record and its zone, with the given faults
for the calls to come. -/
def provisionedWorld (faults : List (Option Error)) : Run World :=
  ⟨{ records := [sampleRecord]
     zones := [("my-project",
       { Name := "my-domain-abc123"
         Description := "Cloud DNS Zone created by OCM"
         DnsName := "my-domain.abc123."
         Visibility := "private"
         Networks := ["https://compute.googleapis.com/compute/v1/projects/" ++
           "my-network-project/global/networks/my-network"] })]
     ids := []
     faults := faults
     stdout := [] }, []⟩

/-- An empty world in which the control plane will assign `abc123`, with the
given faults for the calls to come. -/
def sampleWorld (faults : List (Option Error)) : Run World :=
  ⟨{ records := [], zones := [], ids := ["abc123"], faults := faults, stdout := [] }, []⟩

/-! ## Auxiliary definitions -/

/-- The record `createDnsDomain` submits. -/
def recordInput (P : Pkg) (domainPrefix projectId networkId : String) : DNSDomain :=
  { ID := ""
    CloudProvider := P.ProviderGCP
    ClusterArch := P.ClusterArchClassic
    Gcp := { DomainPrefix := domainPrefix, ProjectId := projectId, NetworkId := networkId } }

/-- The zone `CreateDnsZone` submits for a record. -/
def zoneOf (dnsDomain : DNSDomain) (hostProjectId : String) : ManagedZone :=
  { Name := FmtDnsZoneName dnsDomain.Gcp.DomainPrefix dnsDomain.ID
    Description := "Cloud DNS Zone created by OCM"
    DnsName := FmtDnsName dnsDomain.Gcp.DomainPrefix dnsDomain.ID
    Visibility := "private"
    Networks := [FmtNetworkResourceId hostProjectId dnsDomain.Gcp.NetworkId] }

/-- Calls that change neither the records nor the zones. -/
def Call.readOnly : Call → Bool
  | .newConnection => true
  | .connectionClose => true
  | .newGcpClient => true
  | .dnsDomainGet _ => true
  | .managedZonesList _ _ => true
  | .logPrintf _ => true
  | .stdoutWrite _ => true
  | _ => false

/-- The message of the error that reports a failed rollback. -/
def rollbackMessage (id : String) (cleanupErr : Error) : String :=
  "failed to create dns-zone and failed to rollback dns-domain '" ++ id ++ "': " ++
    cleanupErr.Error

/-- A world in which the cloud refuses the zone and the control plane then
refuses the delete of the record. -/
def rollbackFailedWorld : Run World :=
  sampleWorld [none, none, none, some (.ext 503 "unavailable"), some (.ext 500 "boom")]

/-- A world in which the cloud refuses the zone and the rollback goes through. -/
def rollbackWorld : Run World :=
  sampleWorld [none, none, none, some (.ext 503 "unavailable")]

/-- A world in which the cloud project already holds a zone with the name the
record to come will have; nothing is made to fail. -/
def zoneTakenWorld : Run World :=
  ⟨{ records := []
     zones := [("my-project",
       { Name := "my-domain-abc123"
         Description := "left behind"
         DnsName := "my-domain.abc123."
         Visibility := "private"
         Networks := [] })]
     ids := ["abc123"]
     faults := []
     stdout := [] }, []⟩

/-- A world in which the control plane refuses to create the record. -/
def createRefusedWorld : Run World :=
  sampleWorld [none, none, some (.ext 400 "bad request")]

/-- A world in which both creations go through and the read of the describe
step is refused. -/
def describeFailsWorld : Run World :=
  sampleWorld [none, none, none, none, none, some (.ext 500 "boom")]

/-- The line `deleteDnsZoneCmd` logs after the cloud step. -/
def zoneDeletedLine (d : DNSDomain) : String :=
  "gcp dns-zone '" ++ FmtDnsZoneName d.Gcp.DomainPrefix d.ID ++ "' deleted successfully."

/-- The line `deleteDnsZoneCmd` logs after the control-plane step. -/
def domainDeletedLine (d : DNSDomain) : String :=
  "dns-domain '" ++ d.ID ++ "' deleted successfully."

/-- Calls that look a record up in the control plane. -/
def Call.isLookup : Call → Bool
  | .dnsDomainGet _ => true
  | _ => false

/-- A world holding the sample record and its zone in which the record delete
of the first delete run is refused. -/
def recordDeleteRefusedWorld : Run World :=
  provisionedWorld [none, none, none, none, some (.ext 500 "boom")]

/-! ## More on strings -/

/-- Go's `len(s)`: the number of bytes of the UTF-8 encoding. -/
def len (s : String) : Nat := (s.data.map (fun c => c.utf8Size)).sum

/-! ## Machine integers -/

/-- The value of an integer as a 64-bit two's complement number (Go's `int`,
`int64` and `time.Duration` on a 64-bit platform). -/
def wrap64 (x : Int) : Int := (x + 9223372036854775808) % 18446744073709551616 - 9223372036854775808

/-! ## Random numbers (`crypto/rand`, `pkg/utils/helper.go`) -/

/-- How a call of `rand.Int` ends. -/
inductive RandInt where
  | value (n : Int)
  | err (e : Error)
  | panic (msg : String)
  deriving DecidableEq, Repr

/-- The standard library's `rand.Int(rand.Reader, max)`: a value in
`[0, max)`; it panics if `max <= 0`; for `max = 1` the only value is 0 and
nothing is read; otherwise it reads until the number read is below `max` and
returns the reader's error if reading fails.  `raw` is what the reading gives:
an error, or a number, of which the remainder stands for the draw accepted. -/
def randInt (raw : Except Error Nat) (max : Int) : RandInt :=
  if max ≤ 0 then .panic "crypto/rand: argument to Int is <= 0"
  else if max = 1 then .value 0
  else
    match raw with
    | .error e => .err e
    | .ok r => .value ((r : Int) % max)

/-- `randIntN`, commented "Returns a random int between (0, N]. Panics on
failure."  A panic is an `Except.error` carrying the message. -/
def randIntN (raw : Except Error Nat) (maxN : Int) : Except String Int :=
  match randInt raw (wrap64 maxN) with
  | .panic msg => .error msg
  | .err err => .error ("Failed to generate random number: " ++ err.Error)
  | .value outN => .ok (wrap64 outN)

/-! ## Versions (`pkg/cluster/versions.go`) -/

/-- Splitting at a non-empty separator: the first argument counts the
characters of a separator that are still to be skipped, the second is the
part read so far. -/
def splitAux (sep : List Char) : Nat → List Char → List Char → List (List Char)
  | _, cur, [] => [cur]
  | k + 1, cur, _ :: cs => splitAux sep k cur cs
  | 0, cur, c :: cs =>
    if sep.isPrefixOf (c :: cs) then cur :: splitAux sep (sep.length - 1) [] cs
    else splitAux sep 0 (cur ++ [c]) cs

/-- Go's `strings.Split(s, sep)`.  With an empty separator the string is
split after each character. -/
def Split (s sep : String) : List String :=
  if sep.data = [] then s.data.map (fun c => String.mk [c])
  else (splitAux sep.data 0 [] s.data).map String.mk

/-- The constant `prefix` of the package. -/
def versionPrefix : String := "openshift-v"

/-- `DropOpenshiftVPrefix`: `strings.TrimPrefix(v, prefix)`. -/
def DropOpenshiftVPrefix (v : String) : String :=
  if versionPrefix.data.isPrefixOf v.data then ⟨v.data.drop versionPrefix.data.length⟩ else v

/-- A version of the collection (`cmv1.Version`). -/
structure Version where
  ID : String
  Enabled : Bool
  Default : Bool
  deriving DecidableEq, Repr

/-- A page of the versions collection: its items and the size it reports. -/
structure VersionsPage where
  Items : List Version
  Size : Int
  deriving DecidableEq, Repr

/-- A list request: the search filter, the page and the page size. -/
structure ListRequest where
  Search : String
  Page : Int
  Size : Int
  deriving DecidableEq, Repr

/-- The versions collection of the client (`client.Versions()`): it answers a
list request in a state of the service; and the order `sort.Slice` leaves the
versions in with the comparison of `GetEnabledVersions`. -/
structure VersionsClient (σ : Type) where
  list : ListRequest → σ → Except Error VersionsPage × σ
  sortSlice : List String → List String

/-- State of a run of `GetEnabledVersions`: the service and the requests sent
so far, oldest first. -/
structure VersionsRun (σ : Type) where
  world : σ
  requests : List ListRequest

/-- The page loop of `GetEnabledVersions`; the first argument bounds the
number of pages read, `none` is returned when it is used up. -/
def versionsPages {σ : Type} (client : VersionsClient σ) (filter : String) (size : Int) :
    Nat → Int → List String → String → VersionsRun σ →
      Option (Except Error (List String × String)) × VersionsRun σ
  | 0, _, _, _, s => (none, s)
  | fuel + 1, page, versions, defaultVersion, s =>
    match client.list ⟨filter, page, size⟩ s.world with
    | (.error err, w) => (some (.error err), ⟨w, s.requests ++ [⟨filter, page, size⟩]⟩)
    | (.ok response, w) =>
      let acc := response.Items.foldl (fun acc version =>
        let short := DropOpenshiftVPrefix version.ID
        (if version.Enabled then acc.1 ++ [short] else acc.1,
         if version.Default then short else acc.2)) (versions, defaultVersion)
      if response.Size < size then
        (some (.ok acc), ⟨w, s.requests ++ [⟨filter, page, size⟩]⟩)
      else
        versionsPages client filter size fuel (page + 1) acc.1 acc.2
          ⟨w, s.requests ++ [⟨filter, page, size⟩]⟩

/-- `GetEnabledVersions`; the first argument bounds the number of pages read. -/
def GetEnabledVersions {σ : Type} (fuel : Nat) (client : VersionsClient σ)
    (channel channelGroup gcpMarketplaceEnabled additionalFilters : String)
    (s : VersionsRun σ) :
    Option (Except Error (List String × String)) × VersionsRun σ :=
  let page : Int := 1
  let size : Int := 100
  let filter := "enabled = 'true'"
  let filter :=
    if gcpMarketplaceEnabled ≠ "" then
      filter ++ " AND gcp_marketplace_enabled = '" ++ gcpMarketplaceEnabled ++ "'"
    else filter
  -- Handle channel and channelGroup parameters
  let effectiveChannelGroup : String :=
    if channel ≠ "" then
      -- Prefer channel over channelGroup (channel is the new field)
      let parts := Split channel "-"
      match parts with
      | part :: _ => part
      | [] => ""
    else if channelGroup ≠ "" then
      -- Fall back to channelGroup if channel not provided
      channelGroup
    else ""
  let filter :=
    if effectiveChannelGroup ≠ "" then
      filter ++ " AND channel_group = '" ++ effectiveChannelGroup ++ "'"
    else filter
  let filter :=
    if additionalFilters ≠ "" then filter ++ " " ++ additionalFilters else filter
  match versionsPages client filter size fuel page [] "" s with
  | (some (.ok (versions, defaultVersion)), s1) =>
    (some (.ok (client.sortSlice versions, defaultVersion)), s1)
  | (r, s1) => (r, s1)

/-- The text of a channel before its first '-'. -/
def channelGroupOf (channel : String) : String := ⟨channel.data.takeWhile (fun c => c ≠ '-')⟩

/-- The part of the filter before the channel group: the enabled flag and,
if asked for, the GCP marketplace flag. -/
def filterHead (gcpMarketplaceEnabled : String) : String :=
  if gcpMarketplaceEnabled ≠ "" then
    "enabled = 'true'" ++ " AND gcp_marketplace_enabled = '" ++ gcpMarketplaceEnabled ++ "'"
  else "enabled = 'true'"

/-- The part of the filter after the channel group: the additional filters. -/
def filterTail (additionalFilters : String) : String :=
  if additionalFilters ≠ "" then " " ++ additionalFilters else ""

/-- The clause that restricts the channel group. -/
def channelGroupClause (group : String) : String := " AND channel_group = '" ++ group ++ "'"

/-- A versions service with one page of two versions. -/
def sampleVersions : VersionsClient Unit where
  list := fun _ w =>
    (.ok ⟨[⟨"openshift-v4.19.1", true, true⟩, ⟨"openshift-v4.19.0", true, false⟩], 2⟩, w)
  sortSlice := fun l => l

/-- The search filter `GetEnabledVersions` builds before it reads the pages. -/
def searchFilter (channel channelGroup gcpMarketplaceEnabled additionalFilters : String) :
    String :=
  let filter := "enabled = 'true'"
  let filter :=
    if gcpMarketplaceEnabled ≠ "" then
      filter ++ " AND gcp_marketplace_enabled = '" ++ gcpMarketplaceEnabled ++ "'"
    else filter
  let effectiveChannelGroup : String :=
    if channel ≠ "" then
      let parts := Split channel "-"
      match parts with
      | part :: _ => part
      | [] => ""
    else if channelGroup ≠ "" then
      channelGroup
    else ""
  let filter :=
    if effectiveChannelGroup ≠ "" then
      filter ++ " AND channel_group = '" ++ effectiveChannelGroup ++ "'"
    else filter
  if additionalFilters ≠ "" then filter ++ " " ++ additionalFilters else filter

/-! ## The retrier (`pkg/utils/helper.go`)

Time is counted in nanoseconds from the moment the timeout timer is made.  A
timer made at time `t` with duration `d` has fired at time `u` when
`t + max d 0 ≤ u`.  An invocation of the operation takes the time it reports;
nothing else takes time. -/

/-- An error value as the retrier handles it.  Go compares the error values
made by `fmt.Errorf` and `errors.New` by identity, not by text: a value is
either the one held by the package variable `TimeoutError` or another value,
whatever its text. -/
inductive ErrorValue where
  | timeoutError
  | made (err : Error)
  deriving DecidableEq, Repr

/-- The text `Error()` gives for an error value. -/
def ErrorValue.text : ErrorValue → String
  | .timeoutError => "Timeout occurred"
  | .made err => err.Error

/-- `TimeoutError = fmt.Errorf("Timeout occurred")`: the one value the package
variable holds. -/
def TimeoutError : ErrorValue := .timeoutError

/-- `time.Second`, in nanoseconds. -/
def Second : Int := 1000000000

/-- `time.Millisecond`, in nanoseconds. -/
def Millisecond : Int := 1000000

/-- What an invocation of the operation `f` gives: the retry flag, the error
and the time the invocation took. -/
structure Attempt where
  retry : Bool
  callErr : Option ErrorValue
  took : Nat
  deriving DecidableEq, Repr

/-- A backoff timer: the value of `backoffSeconds` and the jitter it was made
from, the duration given to `time.NewTimer` and the time it was made at. -/
structure Sleep where
  backoffSeconds : Int
  jitter : Int
  duration : Int
  start : Int
  deriving DecidableEq, Repr

/-- One turn of the loop: when `f` was invoked, what it gave, the line sent to
the logger and the backoff timer made, if any. -/
structure Round where
  start : Int
  attempt : Attempt
  logged : Option String
  sleep : Option Sleep
  deriving DecidableEq, Repr

/-- What the retrier runs against: the operation `f`, invoked at a time in a
state of its own; what the random reader supplies for each draw; and, for each
backoff sleep, whether `select` takes the timeout case when both timers fire
at the same instant. -/
structure Retrier (σ : Type) where
  f : Int → σ → Attempt × σ
  reader : Nat → Except Error Nat
  tie : Nat → Bool

/-- How a call of the retrier ends. -/
inductive Exit where
  | returned (err : Option ErrorValue)
  | panicked (msg : String)
  deriving DecidableEq, Repr

/-- The line `log.Printf` writes when a logger is given. -/
def retryLine (log : Bool) (backoffSeconds : Int) : Option String :=
  if log then some ("Trying again in " ++ toString backoffSeconds ++ " seconds...") else none

/-- The loop of `RetryWithBackoffandTimeout`, from a turn on: the arguments
are a bound on the number of turns (`none` is returned when it is used up),
the number of random draws made so far, `backoffSeconds`, the time and the
state of the operation.  The result is the exit, the time of the exit and the
turns made. -/
def retryLoop {σ : Type} (env : Retrier σ) (deadline : Int) (log : Bool) :
    Nat → Nat → Int → Int → σ → Option (Exit × Int × List Round)
  | 0, _, _, _, _ => none
  | fuel + 1, draws, backoffSeconds, now, op =>
    -- retry, callErr := f()
    let r := env.f now op
    let callEnd := now + r.1.took
    if r.1.retry = false then
      some (.returned r.1.callErr, callEnd, [⟨now, r.1, none, none⟩])
    else if deadline ≤ callEnd then
      -- case <-timeoutTimer.C
      some (.returned (some TimeoutError), callEnd, [⟨now, r.1, none, none⟩])
    else
      let line := retryLine log backoffSeconds
      -- A jitter is introduced to avoid the "thundering herd" problem.
      match randIntN (env.reader draws) 250 with
      | .error msg => some (.panicked msg, callEnd, [⟨now, r.1, line, none⟩])
      | .ok n =>
        let jitter := wrap64 (wrap64 n * Millisecond)
        let duration := wrap64 (jitter + wrap64 (wrap64 backoffSeconds * Second))
        let backoffEnd := callEnd + max duration 0
        let round : Round := ⟨now, r.1, line, some ⟨backoffSeconds, n, duration, callEnd⟩⟩
        if deadline < backoffEnd ∨ (deadline = backoffEnd ∧ env.tie draws = true) then
          -- case <-timeoutTimer.C
          some (.returned (some TimeoutError), deadline, [round])
        else
          -- case <-backoffTimer.C
          match retryLoop env deadline log fuel (draws + 1) (wrap64 (backoffSeconds * 2))
              backoffEnd r.2 with
          | none => none
          | some (exit, fin, rounds) => some (exit, fin, round :: rounds)

/-- The time at which the timeout timer of `RetryWithBackoffandTimeout` fires. -/
def retryDeadline (timeoutSeconds : Int) : Int :=
  max (wrap64 (wrap64 timeoutSeconds * Second)) 0

/-- `RetryWithBackoffandTimeout`; the first argument bounds the number of
turns of the loop, `log` tells whether a logger is given, `op` is the state
the operation starts in. -/
def RetryWithBackoffandTimeout {σ : Type} (fuel : Nat) (env : Retrier σ)
    (timeoutSeconds : Int) (log : Bool) (op : σ) : Option (Exit × Int × List Round) :=
  let backoffSeconds : Int := 1
  retryLoop env (retryDeadline timeoutSeconds) log fuel 0 backoffSeconds 0 op

/-- The runs of the loop with exact backoffs: `Ran env deadline log n now op
exit fin rounds` says that the loop, entered at time `now` after `n` sleeps
with the operation in state `op`, makes the turns `rounds` and ends with
`exit` at time `fin`, the sleep of turn `n + i` being `2 ^ (n + i)` seconds
plus the jitter. -/
inductive Ran {σ : Type} (env : Retrier σ) (deadline : Int) (log : Bool) :
    Nat → Int → σ → Exit → Int → List Round → Prop where
  | stop (n : Nat) (now : Int) (op : σ) (h : (env.f now op).1.retry = false) :
      Ran env deadline log n now op (.returned (env.f now op).1.callErr)
        (now + (env.f now op).1.took) [⟨now, (env.f now op).1, none, none⟩]
  | elapsed (n : Nat) (now : Int) (op : σ) (h : (env.f now op).1.retry = true)
      (hd : deadline ≤ now + (env.f now op).1.took) :
      Ran env deadline log n now op (.returned (some TimeoutError))
        (now + (env.f now op).1.took) [⟨now, (env.f now op).1, none, none⟩]
  | panic (n : Nat) (now : Int) (op : σ) (msg : String)
      (h : (env.f now op).1.retry = true)
      (hd : now + (env.f now op).1.took < deadline)
      (hr : randIntN (env.reader n) 250 = .error msg) :
      Ran env deadline log n now op (.panicked msg)
        (now + (env.f now op).1.took)
        [⟨now, (env.f now op).1, retryLine log (2 ^ n), none⟩]
  | cross (n : Nat) (now : Int) (op : σ) (j : Int)
      (h : (env.f now op).1.retry = true)
      (hd : now + (env.f now op).1.took < deadline)
      (hr : randIntN (env.reader n) 250 = .ok j)
      (hc : deadline < now + (env.f now op).1.took + (2 ^ n * Second + j * Millisecond) ∨
        (deadline = now + (env.f now op).1.took + (2 ^ n * Second + j * Millisecond) ∧
          env.tie n = true)) :
      Ran env deadline log n now op (.returned (some TimeoutError)) deadline
        [⟨now, (env.f now op).1, retryLine log (2 ^ n),
          some ⟨2 ^ n, j, 2 ^ n * Second + j * Millisecond, now + (env.f now op).1.took⟩⟩]
  | next (n : Nat) (now : Int) (op : σ) (j : Int) (exit : Exit) (fin : Int)
      (rounds : List Round)
      (h : (env.f now op).1.retry = true)
      (hd : now + (env.f now op).1.took < deadline)
      (hr : randIntN (env.reader n) 250 = .ok j)
      (hc : ¬ (deadline < now + (env.f now op).1.took + (2 ^ n * Second + j * Millisecond) ∨
        (deadline = now + (env.f now op).1.took + (2 ^ n * Second + j * Millisecond) ∧
          env.tie n = true)))
      (hrest : Ran env deadline log (n + 1)
        (now + (env.f now op).1.took + (2 ^ n * Second + j * Millisecond))
        (env.f now op).2 exit fin rounds) :
      Ran env deadline log n now op exit fin
        (⟨now, (env.f now op).1, retryLine log (2 ^ n),
          some ⟨2 ^ n, j, 2 ^ n * Second + j * Millisecond, now + (env.f now op).1.took⟩⟩ ::
          rounds)

/-- An operation that asks for a retry every time and takes ten seconds. -/
def slowRetrier : Retrier Unit where
  f := fun _ s => (⟨true, none, 10000000000⟩, s)
  reader := fun _ => .ok 0
  tie := fun _ => true

/-- An operation that asks for a retry twice, taking no time, and then
reports an error. -/
def thirdTimeRetrier : Retrier Nat where
  f := fun _ k =>
    (if k < 2 then ⟨true, none, 0⟩ else ⟨false, some (.made (.new "gone")), 0⟩, k + 1)
  reader := fun _ => .ok 100
  tie := fun _ => true

/-- An operation that reports the retrier's own timeout error without asking
for a retry. -/
def timeoutReporter : Retrier Unit where
  f := fun _ s => (⟨false, some TimeoutError, 0⟩, s)
  reader := fun _ => .ok 0
  tie := fun _ => true

/-- An operation that always asks for a retry and takes no time. -/
def alwaysRetrier : Retrier Unit where
  f := fun _ s => (⟨true, some (.made (.new "not yet")), 0⟩, s)
  reader := fun _ => .ok 0
  tie := fun _ => true

/-- An operation that reports, without asking for a retry, an error of its
own making that has the text of `TimeoutError`. -/
def sameTextRetrier : Retrier Unit where
  f := fun _ s => (⟨false, some (.made (.new "Timeout occurred")), 0⟩, s)
  reader := fun _ => .ok 0
  tie := fun _ => true

/-- The turns `rounds` are the successive invocations of the operation, from
time `now` and state `op` on: each turn starts when the loop comes round, its
attempt is what `f` gives then, its backoff timer (if it has one) is made when
the invocation ends, a turn is followed by another only through a sleep, and
the next turn starts when that timer fires, in the state the invocation left. -/
def Invoked {σ : Type} (env : Retrier σ) : Int → σ → List Round → Prop
  | _, _, [] => True
  | now, op, r :: rest =>
    r.start = now ∧ r.attempt = (env.f now op).1 ∧
    match r.sleep with
    | none => rest = []
    | some sl =>
      sl.start = now + (env.f now op).1.took ∧
        Invoked env (sl.start + max sl.duration 0) (env.f now op).2 rest

/-- What the loop does in one turn, the `k`-th from 0: `r` is the turn, `next`
the turn that follows, if any, `exit` and `fin` the result of the call and the
time it is given at.  An invocation that does not ask for a retry ends the
call with its error; one that asks for a retry when the deadline has passed
ends it with `TimeoutError`; otherwise the line is logged, the jitter is drawn
(a failure of the reader ends the call with a panic), the timer of
`2 ^ k` seconds plus the jitter is made, and either the deadline comes first
and ends the call with `TimeoutError`, or the timer fires and `f` is invoked
again. -/
def TurnSpec {σ : Type} (env : Retrier σ) (deadline : Int) (log : Bool) (exit : Exit)
    (fin : Int) (k : Nat) (r : Round) (next : Option Round) : Prop :=
  (r.attempt.retry = false →
    next = none ∧ exit = .returned r.attempt.callErr ∧
      fin = r.start + (r.attempt.took : Int) ∧ r.sleep = none ∧ r.logged = none) ∧
  (r.attempt.retry = true → deadline ≤ r.start + (r.attempt.took : Int) →
    next = none ∧ exit = .returned (some TimeoutError) ∧
      fin = r.start + (r.attempt.took : Int) ∧ r.sleep = none ∧ r.logged = none) ∧
  (r.attempt.retry = true → r.start + (r.attempt.took : Int) < deadline →
    r.logged = retryLine log (2 ^ k) ∧
    (∀ msg, randIntN (env.reader k) 250 = .error msg →
      next = none ∧ exit = .panicked msg ∧
        fin = r.start + (r.attempt.took : Int) ∧ r.sleep = none) ∧
    (∀ j, randIntN (env.reader k) 250 = .ok j →
      0 ≤ j ∧ j < 250 ∧
      r.sleep = some ⟨2 ^ k, j, 2 ^ k * Second + j * Millisecond,
        r.start + (r.attempt.took : Int)⟩ ∧
      ((deadline < r.start + (r.attempt.took : Int) + (2 ^ k * Second + j * Millisecond) ∨
          (deadline = r.start + (r.attempt.took : Int) + (2 ^ k * Second + j * Millisecond) ∧
            env.tie k = true)) →
        next = none ∧ exit = .returned (some TimeoutError) ∧ fin = deadline) ∧
      (¬ (deadline < r.start + (r.attempt.took : Int) + (2 ^ k * Second + j * Millisecond) ∨
          (deadline = r.start + (r.attempt.took : Int) + (2 ^ k * Second + j * Millisecond) ∧
            env.tie k = true)) →
        ∃ r', next = some r' ∧
          r'.start = r.start + (r.attempt.took : Int) + (2 ^ k * Second + j * Millisecond))))

/-! ## Duplicate detection (`pkg/utils/helper.go`)

Go strings are compared as values; a `nil` slice and an empty slice are both
the empty list. -/

/-- A Go `map[string]bool` as its lookup function: a key that was never
assigned reads as the zero value `false`. -/
abbrev StringSet := String → Bool

/-- `make(map[string]bool)`. -/
def makeStringSet : StringSet := fun _ => false

/-- `m[key] = value`. -/
def StringSet.set (m : StringSet) (key : String) (value : Bool) : StringSet :=
  fun k => if k = key then value else m k

/-- The `for _, v := range valSlice` loop of `HasDuplicates`, from the state
`visited` over the elements still to come. -/
def hasDuplicatesLoop (visited : StringSet) : List String → String × Bool
  | [] => ("", false)
  | v :: rest =>
    if visited v then (v, true)
    else hasDuplicatesLoop (visited.set v true) rest

/-- `HasDuplicates` of `pkg/utils/helper.go`. -/
def HasDuplicates (valSlice : List String) : String × Bool :=
  hasDuplicatesLoop makeStringSet valSlice

/-! ## Basic facts -/

theorem contains_refl (s : String) : Contains s s := List.infix_refl _

theorem contains_trans {s t u : String} (h₁ : Contains s t) (h₂ : Contains t u) :
    Contains s u := List.IsInfix.trans h₂ h₁

theorem contains_append_left (s t : String) : Contains (s ++ t) s := by
  unfold Contains
  rw [String.data_append]
  exact List.infix_append' [] s.data t.data

theorem contains_append_right (s t : String) : Contains (s ++ t) t := by
  unfold Contains
  rw [String.data_append]
  exact (List.suffix_append s.data t.data).isInfix

theorem contains_of_left {s u : String} (t : String) (h : Contains s u) :
    Contains (s ++ t) u := contains_trans (contains_append_left s t) h

theorem contains_of_right {t u : String} (s : String) (h : Contains t u) :
    Contains (s ++ t) u := contains_trans (contains_append_right s t) h

theorem eventsSince_append {σ : Type} (s s' : Run σ) (l : List Event)
    (h : s'.events = s.events ++ l) : eventsSince s s' = l := by
  simp [eventsSince, h]

section Steps

variable {σ : Type}

theorem createDnsDomain_ok (P : Pkg) (B : Backend σ) (a b c : String) (s s' : Run σ)
    (d : DNSDomain) (h : createDnsDomain P B a b c s = (.ok d, s')) :
    B.dnsDomainsAdd (recordInput P a b c) s.world = (.ok d, s'.world) ∧
      s'.events = s.events ++ [⟨.dnsDomainsAdd (recordInput P a b c), none⟩] := by
  unfold createDnsDomain issue at h
  simp only [] at h
  generalize hr : B.dnsDomainsAdd _ s.world = r at h
  obtain ⟨r1, r2⟩ := r
  cases r1 with
  | error e => simp at h
  | ok v =>
    simp only [Prod.mk.injEq, Except.ok.injEq] at h
    obtain ⟨rfl, rfl⟩ := h
    exact ⟨by simpa [recordInput] using hr, by simp [errOf, recordInput]⟩

theorem createDnsDomain_error (P : Pkg) (B : Backend σ) (a b c : String) (s s' : Run σ)
    (e : Error) (h : createDnsDomain P B a b c s = (.error e, s')) :
    ∃ raw, B.dnsDomainsAdd (recordInput P a b c) s.world = (.error raw, s'.world) ∧
      e = Wrap raw "failed to create dns-domain" ∧
      s'.events = s.events ++ [⟨.dnsDomainsAdd (recordInput P a b c), some raw⟩] := by
  unfold createDnsDomain issue at h
  simp only [] at h
  generalize hr : B.dnsDomainsAdd _ s.world = r at h
  obtain ⟨r1, r2⟩ := r
  cases r1 with
  | ok v => simp at h
  | error e0 =>
    simp only [Prod.mk.injEq, Except.error.injEq] at h
    obtain ⟨rfl, rfl⟩ := h
    exact ⟨e0, by simpa [recordInput] using hr, rfl, by simp [errOf, recordInput]⟩

theorem CreateDnsZone_error (P : Pkg) (B : Backend σ) (d : DNSDomain) (host : String)
    (s s' : Run σ) (e : Error) (h : CreateDnsZone P B d host s = (.error e, s')) :
    ∃ raw, B.managedZonesCreate d.Gcp.ProjectId (zoneOf d host) s.world = (.error raw, s'.world) ∧
      e = P.fmtGoogleApiError raw ∧
      s'.events = s.events ++ [⟨.managedZonesCreate d.Gcp.ProjectId (zoneOf d host), some raw⟩] := by
  unfold CreateDnsZone issue at h
  simp only [] at h
  generalize hr : B.managedZonesCreate _ _ s.world = r at h
  obtain ⟨r1, r2⟩ := r
  cases r1 with
  | ok v => simp at h
  | error e0 =>
    simp only [Prod.mk.injEq, Except.error.injEq] at h
    obtain ⟨rfl, rfl⟩ := h
    exact ⟨e0, by simpa [zoneOf] using hr, rfl, by simp [errOf, zoneOf]⟩

theorem CreateDnsZone_ok (P : Pkg) (B : Backend σ) (d : DNSDomain) (host : String)
    (s s' : Run σ) (z : ManagedZone) (h : CreateDnsZone P B d host s = (.ok z, s')) :
    B.managedZonesCreate d.Gcp.ProjectId (zoneOf d host) s.world = (.ok z, s'.world) ∧
      s'.events = s.events ++ [⟨.managedZonesCreate d.Gcp.ProjectId (zoneOf d host), none⟩] := by
  unfold CreateDnsZone issue at h
  simp only [] at h
  generalize hr : B.managedZonesCreate _ _ s.world = r at h
  obtain ⟨r1, r2⟩ := r
  cases r1 with
  | error e => simp at h
  | ok v =>
    simp only [Prod.mk.injEq, Except.ok.injEq] at h
    obtain ⟨rfl, rfl⟩ := h
    exact ⟨by simpa [zoneOf] using hr, by simp [errOf, zoneOf]⟩

theorem deleteDnsDomain_some (B : Backend σ) (id : String) (s s' : Run σ) (e : Error)
    (h : deleteDnsDomain B id s = (some e, s')) :
    ∃ raw, B.dnsDomainDelete id s.world = (some raw, s'.world) ∧
      e = Wrap raw "failed to delete dns-domain" ∧
      s'.events = s.events ++ [⟨.dnsDomainDelete id, some raw⟩] := by
  unfold deleteDnsDomain issue0 at h
  generalize hr : B.dnsDomainDelete id s.world = r at h
  obtain ⟨r1, r2⟩ := r
  cases r1 with
  | none => simp at h
  | some e0 =>
    simp only [Prod.mk.injEq, Option.some.injEq] at h
    obtain ⟨rfl, rfl⟩ := h
    exact ⟨e0, rfl, rfl, rfl⟩

theorem deleteDnsDomain_none (B : Backend σ) (id : String) (s s' : Run σ)
    (h : deleteDnsDomain B id s = (none, s')) :
    B.dnsDomainDelete id s.world = (none, s'.world) ∧
      s'.events = s.events ++ [⟨.dnsDomainDelete id, none⟩] := by
  unfold deleteDnsDomain issue0 at h
  generalize hr : B.dnsDomainDelete id s.world = r at h
  obtain ⟨r1, r2⟩ := r
  cases r1 with
  | some e0 => simp at h
  | none =>
    simp only [Prod.mk.injEq, true_and] at h
    subst h
    exact ⟨rfl, rfl⟩

theorem getDnsDomain_fst (B : Backend σ) (id : String) (s : Run σ) :
    (getDnsDomain B id s).1 =
      match (B.dnsDomainGet id s.world).1 with
      | .error err => .error (Wrap err "failed to get dns-zone")
      | .ok body => .ok body := by
  unfold getDnsDomain issue
  generalize B.dnsDomainGet id s.world = r
  obtain ⟨r1, r2⟩ := r
  cases r1 <;> rfl

theorem issue0_none (c : Call) (r : Option Error × σ) (evs : List Event) (s' : Run σ)
    (h : issue0 c r evs = (none, s')) :
    r = (none, s'.world) ∧ s'.events = evs ++ [⟨c, none⟩] := by
  unfold issue0 at h
  simp only [Prod.mk.injEq] at h
  obtain ⟨h1, h2⟩ := h
  subst h2
  exact ⟨Prod.ext h1 rfl, by simp [h1]⟩

theorem CreateDnsZone_events (P : Pkg) (B : Backend σ) (d : DNSDomain) (host : String)
    (s : Run σ) :
    (CreateDnsZone P B d host s).2.events = s.events ++
      [⟨.managedZonesCreate d.Gcp.ProjectId (zoneOf d host),
        errOf (B.managedZonesCreate d.Gcp.ProjectId (zoneOf d host) s.world).1⟩] := by
  unfold CreateDnsZone issue zoneOf
  simp only []
  generalize B.managedZonesCreate _ _ s.world = r
  obtain ⟨r1, r2⟩ := r
  cases r1 <;> rfl

theorem deleteDnsDomain_events (B : Backend σ) (id : String) (s : Run σ) :
    (deleteDnsDomain B id s).2.events = s.events ++
      [⟨.dnsDomainDelete id, (B.dnsDomainDelete id s.world).1⟩] := by
  unfold deleteDnsDomain issue0
  generalize B.dnsDomainDelete id s.world = r
  obtain ⟨r1, r2⟩ := r
  cases r1 <;> rfl

theorem getDnsDomain_events (B : Backend σ) (id : String) (s : Run σ) :
    (getDnsDomain B id s).2.events = s.events ++
      [⟨.dnsDomainGet id, errOf (B.dnsDomainGet id s.world).1⟩] := by
  unfold getDnsDomain issue
  generalize B.dnsDomainGet id s.world = r
  obtain ⟨r1, r2⟩ := r
  cases r1 <;> rfl

theorem describeDnsZoneCmd_events (B : Backend σ) (argv : List String) (s : Run σ) :
    ∃ l, (describeDnsZoneCmd B argv s).2.events = s.events ++ l ∧
      ∀ ev ∈ l, ev.call.readOnly = true := by
  unfold describeDnsZoneCmd
  split
  · rename_i arg
    unfold issue0
    generalize B.newConnection s.world = r
    obtain ⟨r1, r2⟩ := r
    cases r1 with
    | some e => exact ⟨[⟨.newConnection, some e⟩], rfl, by simp [Call.readOnly]⟩
    | none =>
      simp only []
      generalize hg : getDnsDomain B arg _ = g
      have hev := getDnsDomain_events B arg ⟨r2, s.events ++ [⟨.newConnection, none⟩]⟩
      rw [hg] at hev
      obtain ⟨g1, g2⟩ := g
      simp only [] at hev
      cases g1 with
      | error e =>
        refine ⟨[⟨.newConnection, none⟩,
          ⟨.dnsDomainGet arg, errOf (B.dnsDomainGet arg r2).1⟩, ⟨.connectionClose, none⟩], ?_, ?_⟩
        · simp [note, hev]
        · simp [Call.readOnly]
      | ok d =>
        refine ⟨[⟨.newConnection, none⟩,
          ⟨.dnsDomainGet arg, errOf (B.dnsDomainGet arg r2).1⟩,
          ⟨.stdoutWrite (describeRows d), (B.stdoutWrite (describeRows d) g2.world).1⟩,
          ⟨.connectionClose, none⟩], ?_, ?_⟩
        · simp [note, hev]
        · simp [Call.readOnly]
  · exact ⟨[], by simp, by simp⟩

theorem describeDnsZoneCmd_none_iff (B : Backend σ) (id : String) (s : Run σ) :
    (describeDnsZoneCmd B [id] s).1 = none ↔
      ∃ w1 d w2 w3, B.newConnection s.world = (none, w1) ∧ B.dnsDomainGet id w1 = (.ok d, w2) ∧
        B.stdoutWrite (describeRows d) w2 = (none, w3) := by
  unfold describeDnsZoneCmd getDnsDomain issue issue0
  simp only []
  rcases h1 : B.newConnection s.world with ⟨_ | e1, w1⟩
  · simp only []
    rcases h2 : B.dnsDomainGet id w1 with ⟨e2 | d, w2⟩
    · simp [h2]
    · simp only []
      rcases h3 : B.stdoutWrite (describeRows d) w2 with ⟨_ | e3, w3⟩
      · refine iff_of_true (by simp) ⟨w1, d, w2, w3, rfl, h2, h3⟩
      · simp [h2, h3]
  · simp

end Steps

/-! ## Facts about the reference model -/

namespace World

theorem nextFault_records (w : World) : w.nextFault.2.records = w.records := by
  unfold nextFault; cases w.faults <;> rfl

theorem nextFault_zones (w : World) : w.nextFault.2.zones = w.zones := by
  unfold nextFault; cases w.faults <;> rfl

theorem nextFault_faults (w : World) : w.nextFault.2.faults = w.faults.tail := by
  unfold nextFault
  cases h : w.faults with
  | nil => simp [h]
  | cons f fs => rfl

theorem nextFault_nil (w : World) (h : w.faults = []) : w.nextFault = (none, w) := by
  unfold nextFault; rw [h]

theorem plain_keeps (w w' : World) (r : Option Error) (h : plain w = (r, w')) :
    w'.records = w.records ∧ w'.zones = w.zones ∧ w'.faults = w.faults.tail := by
  unfold plain at h
  have h2 : w' = w.nextFault.2 := by rw [h]
  subst h2
  exact ⟨nextFault_records w, nextFault_zones w, nextFault_faults w⟩

theorem dnsDomainsAdd_ok (body d : DNSDomain) (w w' : World)
    (h : dnsDomainsAdd body w = (.ok d, w')) :
    w'.records = w.records ++ [d] ∧ w'.zones = w.zones ∧ w'.faults = w.faults.tail := by
  unfold dnsDomainsAdd at h
  have h1 := nextFault_records w
  have h2 := nextFault_zones w
  have h3 := nextFault_faults w
  generalize w.nextFault = r at h h1 h2 h3
  obtain ⟨f, w1⟩ := r
  cases f with
  | some e => simp at h
  | none =>
    simp only [] at h h1 h2 h3
    cases hi : w1.ids with
    | nil => simp [hi] at h
    | cons id rest =>
      simp only [hi, Prod.mk.injEq, Except.ok.injEq] at h
      obtain ⟨rfl, rfl⟩ := h
      simp [h1, h2, h3]

theorem managedZonesCreate_error (project : String) (z : ManagedZone) (e : Error) (w w' : World)
    (h : managedZonesCreate project z w = (.error e, w')) :
    w'.records = w.records ∧ w'.zones = w.zones ∧ w'.faults = w.faults.tail := by
  unfold managedZonesCreate at h
  have h1 := nextFault_records w
  have h2 := nextFault_zones w
  have h3 := nextFault_faults w
  generalize w.nextFault = r at h h1 h2 h3
  obtain ⟨f, w1⟩ := r
  cases f with
  | some e =>
    simp only [Prod.mk.injEq] at h
    obtain ⟨-, rfl⟩ := h
    exact ⟨h1, h2, h3⟩
  | none =>
    simp only [] at h h1 h2 h3
    split at h
    · simp only [Prod.mk.injEq] at h
      obtain ⟨-, rfl⟩ := h
      exact ⟨h1, h2, h3⟩
    · simp at h

theorem dnsDomainDelete_some (id : String) (e : Error) (w w' : World)
    (h : dnsDomainDelete id w = (some e, w')) :
    w'.records = w.records ∧ w'.zones = w.zones ∧ w'.faults = w.faults.tail := by
  unfold dnsDomainDelete at h
  have h1 := nextFault_records w
  have h2 := nextFault_zones w
  have h3 := nextFault_faults w
  generalize w.nextFault = r at h h1 h2 h3
  obtain ⟨f, w1⟩ := r
  cases f with
  | some e =>
    simp only [Prod.mk.injEq] at h
    obtain ⟨-, rfl⟩ := h
    exact ⟨h1, h2, h3⟩
  | none =>
    simp only [] at h h1 h2 h3
    split at h
    · simp at h
    · simp only [Prod.mk.injEq] at h
      obtain ⟨-, rfl⟩ := h
      exact ⟨h1, h2, h3⟩

theorem dnsDomainDelete_none (id : String) (w w' : World)
    (h : dnsDomainDelete id w = (none, w')) :
    w'.records = w.records.filter (fun r => ¬ r.ID = id) ∧ w'.zones = w.zones ∧
      w'.faults = w.faults.tail := by
  unfold dnsDomainDelete at h
  have h1 := nextFault_records w
  have h2 := nextFault_zones w
  have h3 := nextFault_faults w
  generalize w.nextFault = r at h h1 h2 h3
  obtain ⟨f, w1⟩ := r
  cases f with
  | some e => simp at h
  | none =>
    simp only [] at h h1 h2 h3
    split at h
    · simp only [Prod.mk.injEq, true_and] at h
      subst h
      simp [h1, h2, h3]
    · simp at h

theorem managedZonesCreate_ok (project : String) (z z' : ManagedZone) (w w' : World)
    (h : managedZonesCreate project z w = (.ok z', w')) :
    z' = z ∧ w'.zones = w.zones ++ [(project, z)] ∧ w'.records = w.records ∧
      w'.faults = w.faults.tail := by
  unfold managedZonesCreate at h
  have h1 := nextFault_records w
  have h2 := nextFault_zones w
  have h3 := nextFault_faults w
  generalize w.nextFault = r at h h1 h2 h3
  obtain ⟨f, w1⟩ := r
  cases f with
  | some e => simp at h
  | none =>
    simp only [] at h h1 h2 h3
    split at h
    · simp at h
    · simp only [Prod.mk.injEq, Except.ok.injEq] at h
      obtain ⟨rfl, rfl⟩ := h
      simp [h1, h2, h3]

/-- A zone delete that is let through removes a zone that is there. -/
theorem managedZonesDelete_present (project name : String) (w : World) (hf : w.faults = [])
    (h : ∃ z ∈ w.zones, z.1 = project ∧ z.2.Name = name) :
    managedZonesDelete project name w =
      (none,
        { w with zones := (w.zones.filter (fun z => ¬ (z.1 = project ∧ z.2.Name = name))) }) := by
  unfold managedZonesDelete
  rw [nextFault_nil w hf]
  have : w.zones.any (fun z => decide (z.1 = project ∧ z.2.Name = name)) = true := by
    rw [List.any_eq_true]
    obtain ⟨z, hz, h1, h2⟩ := h
    exact ⟨z, hz, by simp [h1, h2]⟩
  simp only []
  rw [this]
  simp

/-- A zone delete that is let through answers "not found" when the zone is
not there. -/
theorem managedZonesDelete_absent (project name : String) (w : World) (hf : w.faults = [])
    (h : ∀ z ∈ w.zones, ¬ (z.1 = project ∧ z.2.Name = name)) :
    managedZonesDelete project name w = (some (zoneNotFound name), w) := by
  unfold managedZonesDelete
  rw [nextFault_nil w hf]
  have : w.zones.any (fun z => decide (z.1 = project ∧ z.2.Name = name)) = false := by
    rw [List.any_eq_false]
    intro z hz
    simpa using h z hz
  simp only []
  rw [this]
  simp

theorem plain_nil (w : World) (hf : w.faults = []) : plain w = (none, w) :=
  nextFault_nil w hf

theorem dnsDomainGet_ok (id : String) (d : DNSDomain) (w w' : World)
    (h : dnsDomainGet id w = (.ok d, w')) :
    w'.records = w.records ∧ w'.zones = w.zones ∧ w'.faults = w.faults.tail ∧
      w.records.find? (fun r => r.ID = id) = some d := by
  unfold dnsDomainGet at h
  have h1 := nextFault_records w
  have h2 := nextFault_zones w
  have h3 := nextFault_faults w
  generalize w.nextFault = r at h h1 h2 h3
  obtain ⟨f, w1⟩ := r
  cases f with
  | some e => simp at h
  | none =>
    simp only [] at h h1 h2 h3
    cases hfind : w1.records.find? (fun r => decide (r.ID = id)) with
    | none => simp [hfind] at h
    | some d' =>
      simp only [hfind, Prod.mk.injEq, Except.ok.injEq] at h
      obtain ⟨rfl, rfl⟩ := h
      rw [h1] at hfind
      exact ⟨h1, h2, h3, hfind⟩

theorem dnsDomainGet_found (id : String) (d : DNSDomain) (w : World) (hf : w.faults = [])
    (h : w.records.find? (fun r => r.ID = id) = some d) :
    dnsDomainGet id w = (.ok d, w) := by
  unfold dnsDomainGet
  rw [nextFault_nil w hf]
  simp only []
  rw [h]

theorem managedZonesDelete_none (project name : String) (w w' : World)
    (h : managedZonesDelete project name w = (none, w')) :
    w'.records = w.records ∧ w'.faults = w.faults.tail ∧
      w'.zones = w.zones.filter (fun z => ¬ (z.1 = project ∧ z.2.Name = name)) := by
  unfold managedZonesDelete at h
  have h1 := nextFault_records w
  have h2 := nextFault_zones w
  have h3 := nextFault_faults w
  generalize w.nextFault = r at h h1 h2 h3
  obtain ⟨f, w1⟩ := r
  cases f with
  | some e => simp at h
  | none =>
    simp only [] at h h1 h2 h3
    split at h
    · simp only [Prod.mk.injEq, true_and] at h
      subst h
      simp [h1, h2, h3]
    · simp at h

theorem managedZonesDelete_some (project name : String) (e : Error) (w w' : World)
    (h : managedZonesDelete project name w = (some e, w')) :
    w'.records = w.records ∧ w'.faults = w.faults.tail ∧ w'.zones = w.zones := by
  unfold managedZonesDelete at h
  have h1 := nextFault_records w
  have h2 := nextFault_zones w
  have h3 := nextFault_faults w
  generalize w.nextFault = r at h h1 h2 h3
  obtain ⟨f, w1⟩ := r
  cases f with
  | some e =>
    simp only [Prod.mk.injEq] at h
    obtain ⟨-, rfl⟩ := h
    exact ⟨h1, h3, h2⟩
  | none =>
    simp only [] at h h1 h2 h3
    split at h
    · simp at h
    · simp only [Prod.mk.injEq] at h
      obtain ⟨-, rfl⟩ := h
      exact ⟨h1, h3, h2⟩

/-- A record delete that is let through removes a record that is there. -/
theorem dnsDomainDelete_present (id : String) (w : World) (hf : w.faults = [])
    (h : ∃ r ∈ w.records, r.ID = id) :
    dnsDomainDelete id w =
      (none, { w with records := (w.records.filter (fun r => ¬ r.ID = id)) }) := by
  unfold dnsDomainDelete
  rw [nextFault_nil w hf]
  have : w.records.any (fun r => decide (r.ID = id)) = true := by
    rw [List.any_eq_true]
    obtain ⟨r, hr, h1⟩ := h
    exact ⟨r, hr, by simp [h1]⟩
  simp only []
  rw [this]
  simp

/-- A read that is let through finds no record under an identifier that no
record carries. -/
theorem dnsDomainGet_absent (id : String) (w : World) (hf : w.faults = [])
    (h : ∀ r ∈ w.records, r.ID ≠ id) :
    dnsDomainGet id w = (.error (recordNotFound id), w) := by
  unfold dnsDomainGet
  rw [nextFault_nil w hf]
  have : w.records.find? (fun r => decide (r.ID = id)) = none := by
    rw [List.find?_eq_none]
    intro r hr
    simpa using h r hr
  simp [this]

/-- A read never answers with a record under an identifier that no record
carries. -/
theorem dnsDomainGet_absent_ne (id : String) (w : World) (h : ∀ r ∈ w.records, r.ID ≠ id)
    (d : DNSDomain) : (dnsDomainGet id w).1 ≠ .ok d := by
  unfold dnsDomainGet
  have h1 := nextFault_records w
  generalize w.nextFault = r at h1
  obtain ⟨f, w1⟩ := r
  cases f with
  | some e => simp
  | none =>
    simp only [] at h1 ⊢
    have : w1.records.find? (fun r => decide (r.ID = id)) = none := by
      rw [List.find?_eq_none, h1]
      intro r hr
      simpa using h r hr
    simp [this]

end World

/-! ## The create operation -/

/-- C1: in the create operation, when the control-plane create succeeds with a
record `d`, the cloud zone creation fails with `e` and the compensating delete
of `d.ID` fails with `e2`, the returned error wraps `e` (same root cause), its
text contains the identifier, the text of `e2` (and of the control plane's own
error inside it) and the text of `e`; the run makes exactly one delete call and
nothing after it but closing the connection, and the record is still held by
the control plane. -/
theorem createDnsDomainCmd_rollback_failed (P : Pkg) (args : Args)
    (s s1 s2 s3 s4 s5 : Run World) (d : DNSDomain) (e e2 : Error)
    (hconn : issue0 .newConnection (World.backend.newConnection s.world) s.events = (none, s1))
    (hgcp : issue0 .newGcpClient (World.backend.newGcpClient s1.world) s1.events = (none, s2))
    (hadd : createDnsDomain P World.backend args.DomainPrefix args.ProjectId args.NetworkId s2
      = (.ok d, s3))
    (hzone : CreateDnsZone P World.backend d args.NetworkProjectId s3 = (.error e, s4))
    (hdel : deleteDnsDomain World.backend d.ID s4 = (some e2, s5)) :
    ∃ err raw0 raw2,
      createDnsDomainCmd P World.backend args s = (some err, note .connectionClose s5) ∧
      err = Wrapf e (rollbackMessage d.ID e2) ∧
      err.wrapped = some e ∧ err.Cause = e.Cause ∧
      Contains err.Error d.ID ∧ Contains err.Error e2.Error ∧ Contains err.Error e.Error ∧
      e2 = Wrap raw2 "failed to delete dns-domain" ∧ Contains err.Error raw2.Error ∧
      eventsSince s (note .connectionClose s5) =
        [⟨.newConnection, none⟩, ⟨.newGcpClient, none⟩,
         ⟨.dnsDomainsAdd (recordInput P args.DomainPrefix args.ProjectId args.NetworkId), none⟩,
         ⟨.managedZonesCreate d.Gcp.ProjectId (zoneOf d args.NetworkProjectId), some raw0⟩,
         ⟨.dnsDomainDelete d.ID, some raw2⟩, ⟨.connectionClose, none⟩] ∧
      d ∈ (note Call.connectionClose s5).world.records := by
  obtain ⟨hadd1, hadd2⟩ := createDnsDomain_ok _ _ _ _ _ _ _ _ hadd
  obtain ⟨raw0, hz1, hz2, hz3⟩ := CreateDnsZone_error _ _ _ _ _ _ _ hzone
  obtain ⟨raw2, hd1, hd2, hd3⟩ := deleteDnsDomain_some _ _ _ _ _ hdel
  have hc : createDnsDomainCmd P World.backend args s
      = (some (Wrapf e (rollbackMessage d.ID e2)), note .connectionClose s5) := by
    unfold createDnsDomainCmd
    simp only [hconn, hgcp, hadd, hzone, hdel, rollbackMessage]
  have he1 : s1.events = s.events ++ [⟨.newConnection, none⟩] := by
    unfold issue0 at hconn
    simp only [Prod.mk.injEq] at hconn
    obtain ⟨h1, h2⟩ := hconn
    rw [← h2, h1]
  have he2 : s2.events = s1.events ++ [⟨.newGcpClient, none⟩] := by
    unfold issue0 at hgcp
    simp only [Prod.mk.injEq] at hgcp
    obtain ⟨h1, h2⟩ := hgcp
    rw [← h2, h1]
  have hmsg : (Wrapf e (rollbackMessage d.ID e2)).Error
      = "failed to create dns-zone and failed to rollback dns-domain '" ++ d.ID ++ "': " ++
        e2.Error ++ ": " ++ e.Error := rfl
  refine ⟨_, raw0, raw2, hc, rfl, rfl, rfl, ?_, ?_, ?_, hd2, ?_, ?_, ?_⟩
  · rw [hmsg]
    exact contains_of_left _ (contains_of_left _ (contains_of_left _ (contains_of_left _
      (contains_append_right _ _))))
  · rw [hmsg]
    exact contains_of_left _ (contains_of_left _ (contains_append_right _ _))
  · rw [hmsg]
    exact contains_append_right _ _
  · rw [hmsg, hd2]
    exact contains_of_left _ (contains_of_left _ (contains_of_right _
      (contains_append_right _ _)))
  · apply eventsSince_append
    simp [note, hd3, hz3, hadd2, he2, he1]
  · have hw1 := World.dnsDomainsAdd_ok _ _ _ _ hadd1
    have hw2 := World.managedZonesCreate_error _ _ _ _ _ hz1
    have hw3 := World.dnsDomainDelete_some _ _ _ _ hd1
    simp [note, hw3.1, hw2.1, hw1.1]

/-- The run on `rollbackFailedWorld` reports both failures and names the
orphaned record. -/
theorem createDnsDomainCmd_rollback_failed_witness :
    (createDnsDomainCmd samplePkg World.backend sampleArgs rollbackFailedWorld).1 =
        some (Wrapf (.ext 503 "unavailable")
          (rollbackMessage "abc123" (Wrap (.ext 500 "boom") "failed to delete dns-domain"))) ∧
      ((createDnsDomainCmd samplePkg World.backend sampleArgs rollbackFailedWorld).1.map
        Error.Error) = some ("failed to create dns-zone and failed to rollback dns-domain " ++
          "'abc123': failed to delete dns-domain: boom: unavailable") := by
  obtain ⟨err, raw0, raw2, hc, herr, -⟩ :=
    createDnsDomainCmd_rollback_failed samplePkg sampleArgs rollbackFailedWorld _ _ _ _ _ _ _ _
      rfl rfl rfl rfl rfl
  rw [hc, herr]
  exact ⟨rfl, by decide⟩

/-- C2, as stated, fails: when the cloud project already holds a zone with the
name of the record's zone, the zone creation fails because the name is taken,
the compensating delete removes the record, the command reports the cloud
failure alone, and afterwards the record is gone but a zone of that name
exists. -/
theorem createDnsDomainCmd_zone_kept_counterexample :
    (createDnsDomainCmd samplePkg World.backend sampleArgs zoneTakenWorld).1 =
        some (Wrapf (World.zoneExists "my-domain-abc123") "failed to create dns-zone") ∧
      eventsSince zoneTakenWorld
          (createDnsDomainCmd samplePkg World.backend sampleArgs zoneTakenWorld).2 =
        [⟨.newConnection, none⟩, ⟨.newGcpClient, none⟩,
         ⟨.dnsDomainsAdd (recordInput samplePkg "my-domain" "my-project" "my-network"), none⟩,
         ⟨.managedZonesCreate "my-project" (zoneOf sampleRecord "my-network-project"),
           some (World.zoneExists "my-domain-abc123")⟩,
         ⟨.dnsDomainDelete "abc123", none⟩, ⟨.connectionClose, none⟩] ∧
      (createDnsDomainCmd samplePkg World.backend sampleArgs zoneTakenWorld).2.world.records
        = [] ∧
      (createDnsDomainCmd samplePkg World.backend sampleArgs zoneTakenWorld).2.world.zones.any
        (fun z => z.1 = "my-project" ∧ z.2.Name = FmtDnsZoneName "my-domain" "abc123") = true := by
  decide

/-- C2, amended: in the create operation, when the control-plane create
succeeds with a record `d`, the cloud zone creation fails with `e` and the
compensating delete succeeds, the returned error is `e` wrapped with the fixed
message "failed to create dns-zone" and nothing else; the run deletes `d.ID`
exactly once and makes no cloud call but the failed creation; after it the
control plane holds no record with that identifier (a read of it never answers
with a record, and answers "not found" when let through) and the zones of the
cloud are those from before the run: a zone with the name of the record's zone
exists in the record's project afterwards exactly when one existed before, so
neither the record nor the zone exists only when no such zone was there. -/
theorem createDnsDomainCmd_rollback_ok (P : Pkg) (args : Args)
    (s s1 s2 s3 s4 s5 : Run World) (d : DNSDomain) (e : Error)
    (hconn : issue0 .newConnection (World.backend.newConnection s.world) s.events = (none, s1))
    (hgcp : issue0 .newGcpClient (World.backend.newGcpClient s1.world) s1.events = (none, s2))
    (hadd : createDnsDomain P World.backend args.DomainPrefix args.ProjectId args.NetworkId s2
      = (.ok d, s3))
    (hzone : CreateDnsZone P World.backend d args.NetworkProjectId s3 = (.error e, s4))
    (hdel : deleteDnsDomain World.backend d.ID s4 = (none, s5)) :
    ∃ raw0,
      createDnsDomainCmd P World.backend args s =
        (some (Wrapf e "failed to create dns-zone"), note .connectionClose s5) ∧
      (Wrapf e "failed to create dns-zone").wrapped = some e ∧
      (Wrapf e "failed to create dns-zone").Cause = e.Cause ∧
      (Wrapf e "failed to create dns-zone").Error = "failed to create dns-zone: " ++ e.Error ∧
      (Wrapf e "failed to create dns-zone").messages = "failed to create dns-zone" :: e.messages ∧
      eventsSince s (note .connectionClose s5) =
        [⟨.newConnection, none⟩, ⟨.newGcpClient, none⟩,
         ⟨.dnsDomainsAdd (recordInput P args.DomainPrefix args.ProjectId args.NetworkId), none⟩,
         ⟨.managedZonesCreate d.Gcp.ProjectId (zoneOf d args.NetworkProjectId), some raw0⟩,
         ⟨.dnsDomainDelete d.ID, none⟩, ⟨.connectionClose, none⟩] ∧
      (∀ r ∈ (note Call.connectionClose s5).world.records, r.ID ≠ d.ID) ∧
      (note Call.connectionClose s5).world.zones = s.world.zones ∧
      (∀ d', (getDnsDomain World.backend d.ID (note .connectionClose s5)).1 ≠ .ok d') ∧
      ((note Call.connectionClose s5).world.faults = [] →
        (getDnsDomain World.backend d.ID (note .connectionClose s5)).1 =
          .error (Wrap (World.recordNotFound d.ID) "failed to get dns-zone")) ∧
      ((∃ z ∈ (note Call.connectionClose s5).world.zones, z.1 = d.Gcp.ProjectId ∧
          z.2.Name = FmtDnsZoneName d.Gcp.DomainPrefix d.ID) ↔
        ∃ z ∈ s.world.zones, z.1 = d.Gcp.ProjectId ∧
          z.2.Name = FmtDnsZoneName d.Gcp.DomainPrefix d.ID) ∧
      ((∀ z ∈ s.world.zones, ¬ (z.1 = d.Gcp.ProjectId ∧
          z.2.Name = FmtDnsZoneName d.Gcp.DomainPrefix d.ID)) →
        (∀ r ∈ (note Call.connectionClose s5).world.records, r.ID ≠ d.ID) ∧
        ∀ z ∈ (note Call.connectionClose s5).world.zones, ¬ (z.1 = d.Gcp.ProjectId ∧
          z.2.Name = FmtDnsZoneName d.Gcp.DomainPrefix d.ID)) := by
  obtain ⟨hadd1, hadd2⟩ := createDnsDomain_ok _ _ _ _ _ _ _ _ hadd
  obtain ⟨raw0, hz1, hz2, hz3⟩ := CreateDnsZone_error _ _ _ _ _ _ _ hzone
  obtain ⟨hd1, hd3⟩ := deleteDnsDomain_none _ _ _ _ hdel
  obtain ⟨hc1, he1⟩ := issue0_none _ _ _ _ hconn
  obtain ⟨hc2, he2⟩ := issue0_none _ _ _ _ hgcp
  have hc : createDnsDomainCmd P World.backend args s
      = (some (Wrapf e "failed to create dns-zone"), note .connectionClose s5) := by
    unfold createDnsDomainCmd
    simp only [hconn, hgcp, hadd, hzone, hdel]
  have hw1 := World.dnsDomainsAdd_ok _ _ _ _ hadd1
  have hw2 := World.managedZonesCreate_error _ _ _ _ _ hz1
  have hw3 := World.dnsDomainDelete_none _ _ _ hd1
  have hk1 := World.plain_keeps _ _ _ hc1
  have hk2 := World.plain_keeps _ _ _ hc2
  have hrec : ∀ r ∈ (note Call.connectionClose s5).world.records, r.ID ≠ d.ID := by
    intro r hr
    simp only [note, hw3.1, List.mem_filter] at hr
    simpa using hr.2
  have hzones : (note Call.connectionClose s5).world.zones = s.world.zones := by
    simp [note, hw3.2.1, hw2.2.1, hw1.2.1, hk2.2.1, hk1.2.1]
  refine ⟨raw0, hc, rfl, rfl, rfl, rfl, ?_, hrec, hzones, ?_, ?_, by rw [hzones],
    fun hno => ⟨hrec, by rw [hzones]; exact hno⟩⟩
  · apply eventsSince_append
    simp [note, hd3, hz3, hadd2, he2, he1]
  · intro d'
    rw [getDnsDomain_fst]
    have := World.dnsDomainGet_absent_ne d.ID _ hrec d'
    generalize hg : (World.backend.dnsDomainGet d.ID (note Call.connectionClose s5).world).1 = g
    have hg' : g ≠ .ok d' := by rw [← hg]; exact this
    cases g with
    | error x => simp
    | ok b => simpa using hg'
  · intro hf
    rw [getDnsDomain_fst]
    have := World.dnsDomainGet_absent d.ID _ hf hrec
    show (match (World.dnsDomainGet d.ID (note Call.connectionClose s5).world).1 with
      | .error err => Except.error (Wrap err "failed to get dns-zone")
      | .ok body => Except.ok body) = _
    rw [this]

/-- The run on `rollbackWorld` reports the cloud failure alone and leaves no
record behind. -/
theorem createDnsDomainCmd_rollback_ok_witness :
    createDnsDomainCmd samplePkg World.backend sampleArgs rollbackWorld =
        (some (Wrapf (.ext 503 "unavailable") "failed to create dns-zone"),
          ⟨{ records := [], zones := [], ids := [], faults := [], stdout := [] },
           [⟨.newConnection, none⟩, ⟨.newGcpClient, none⟩,
            ⟨.dnsDomainsAdd (recordInput samplePkg "my-domain" "my-project" "my-network"), none⟩,
            ⟨.managedZonesCreate "my-project"
              (zoneOf ⟨"abc123", "gcp", "classic", ⟨"my-domain", "my-project", "my-network"⟩⟩
                "my-network-project"), some (.ext 503 "unavailable")⟩,
            ⟨.dnsDomainDelete "abc123", none⟩, ⟨.connectionClose, none⟩]⟩) := by
  obtain ⟨raw0, hc, -⟩ :=
    createDnsDomainCmd_rollback_ok samplePkg sampleArgs rollbackWorld _ _ _ _ _ _ _
      rfl rfl rfl rfl rfl
  rw [hc]
  decide

/-- C3: in the create operation, when the control-plane create of the record
fails with `e`, the command returns `e` under two wrappers that only add a
message (so its root cause is that of `e` and no other error is in it), and
the run consists of opening the connection, creating the GCP client, the
failed create and closing the connection: no cloud zone creation and no
record delete is issued. -/
theorem createDnsDomainCmd_create_failed {σ : Type} (P : Pkg) (B : Backend σ) (args : Args)
    (s : Run σ) (w1 w2 w3 : σ) (e : Error)
    (hconn : B.newConnection s.world = (none, w1))
    (hgcp : B.newGcpClient w1 = (none, w2))
    (hadd : B.dnsDomainsAdd (recordInput P args.DomainPrefix args.ProjectId args.NetworkId) w2
      = (.error e, w3)) :
    createDnsDomainCmd P B args s =
        (some (Wrapf (Wrap e "failed to create dns-domain") "failed to create dns-domain"),
          ⟨w3, s.events ++ [⟨.newConnection, none⟩, ⟨.newGcpClient, none⟩,
            ⟨.dnsDomainsAdd (recordInput P args.DomainPrefix args.ProjectId args.NetworkId),
              some e⟩, ⟨.connectionClose, none⟩]⟩) ∧
      (Wrapf (Wrap e "failed to create dns-domain") "failed to create dns-domain").Cause
        = e.Cause ∧
      (Wrapf (Wrap e "failed to create dns-domain") "failed to create dns-domain").messages
        = "failed to create dns-domain" :: "failed to create dns-domain" :: e.messages ∧
      (∀ ev ∈ eventsSince s (createDnsDomainCmd P B args s).2,
        (∀ p z, ev.call ≠ .managedZonesCreate p z) ∧ (∀ id, ev.call ≠ .dnsDomainDelete id)) := by
  have hc : createDnsDomainCmd P B args s =
      (some (Wrapf (Wrap e "failed to create dns-domain") "failed to create dns-domain"),
        ⟨w3, s.events ++ [⟨.newConnection, none⟩, ⟨.newGcpClient, none⟩,
          ⟨.dnsDomainsAdd (recordInput P args.DomainPrefix args.ProjectId args.NetworkId),
            some e⟩, ⟨.connectionClose, none⟩]⟩) := by
    unfold recordInput at hadd
    simp [createDnsDomainCmd, createDnsDomain, issue, issue0, note, errOf, hconn, hgcp, hadd,
      recordInput]
  refine ⟨hc, rfl, rfl, ?_⟩
  rw [hc]
  intro ev hev
  simp only [eventsSince, List.drop_left, List.mem_cons, List.mem_singleton, List.not_mem_nil,
    or_false] at hev
  rcases hev with rfl | rfl | rfl | rfl <;> simp

/-- The run on `createRefusedWorld` stops at the refused create. -/
theorem createDnsDomainCmd_create_failed_witness :
    createDnsDomainCmd samplePkg World.backend sampleArgs createRefusedWorld =
      (some (Wrapf (Wrap (.ext 400 "bad request") "failed to create dns-domain")
          "failed to create dns-domain"),
        ⟨{ records := [], zones := [], ids := ["abc123"], faults := [], stdout := [] },
         [⟨.newConnection, none⟩, ⟨.newGcpClient, none⟩,
          ⟨.dnsDomainsAdd (recordInput samplePkg "my-domain" "my-project" "my-network"),
            some (.ext 400 "bad request")⟩, ⟨.connectionClose, none⟩]⟩) :=
  (createDnsDomainCmd_create_failed samplePkg World.backend sampleArgs createRefusedWorld
    _ _ _ _ rfl rfl rfl).1

/-- The create operation from the point where the control plane has answered
with the record `d`. -/
theorem createDnsDomainCmd_added {σ : Type} (P : Pkg) (B : Backend σ) (args : Args)
    (s : Run σ) (w1 w2 w3 : σ) (d : DNSDomain)
    (hconn : B.newConnection s.world = (none, w1))
    (hgcp : B.newGcpClient w1 = (none, w2))
    (hadd : B.dnsDomainsAdd (recordInput P args.DomainPrefix args.ProjectId args.NetworkId) w2
      = (.ok d, w3)) :
    createDnsDomainCmd P B args s =
      (match CreateDnsZone P B d args.NetworkProjectId
          ⟨w3, s.events ++ [⟨.newConnection, none⟩] ++ [⟨.newGcpClient, none⟩] ++
            [⟨.dnsDomainsAdd (recordInput P args.DomainPrefix args.ProjectId args.NetworkId),
              none⟩]⟩ with
        | (.error err, s4) =>
          match deleteDnsDomain B d.ID s4 with
          | (some cleanupErr, s5) =>
            (some (Wrapf err (rollbackMessage d.ID cleanupErr)), note .connectionClose s5)
          | (none, s5) => (some (Wrapf err "failed to create dns-zone"), note .connectionClose s5)
        | (.ok _, s4) =>
          match describeDnsZoneCmd B [d.ID] s4 with
          | (some err, s5) =>
            (some (Wrap err "dns-zone created but failed to describe"), note .connectionClose s5)
          | (none, s5) => (none, note .connectionClose s5)) := by
  unfold recordInput at hadd
  simp only [createDnsDomainCmd, createDnsDomain, issue, issue0, hconn, hgcp, hadd, errOf,
    recordInput, rollbackMessage]
  generalize CreateDnsZone P B d args.NetworkProjectId _ = r
  obtain ⟨r1, s4⟩ := r
  cases r1 with
  | error err =>
    simp only []
    generalize deleteDnsDomain B d.ID s4 = r'
    obtain ⟨_ | c, s5⟩ := r' <;> rfl
  | ok z =>
    simp only []
    generalize describeDnsZoneCmd B [d.ID] s4 = r'
    obtain ⟨_ | c, s5⟩ := r' <;> rfl

/-- C4: in every run of create in which the control plane answers the create
with a record `d`, the body sent to the control plane carries no identifier,
and the next call is the creation of a zone in `d`'s project whose `Name` is
`FmtDnsZoneName` and whose `DnsName` is `FmtDnsName` of `d`'s domain prefix
and of the identifier the control plane assigned; no other zone is submitted
in the run.  With prefix "my-domain" and assigned identifier "abc123" the
names are "my-domain-abc123" and "my-domain.abc123.". -/
theorem createDnsDomainCmd_zone_names {σ : Type} (P : Pkg) (B : Backend σ) (args : Args)
    (s : Run σ) (w1 w2 w3 : σ) (d : DNSDomain)
    (hconn : B.newConnection s.world = (none, w1))
    (hgcp : B.newGcpClient w1 = (none, w2))
    (hadd : B.dnsDomainsAdd (recordInput P args.DomainPrefix args.ProjectId args.NetworkId) w2
      = (.ok d, w3)) :
    ∃ z out rest,
      eventsSince s (createDnsDomainCmd P B args s).2 =
        [⟨.newConnection, none⟩, ⟨.newGcpClient, none⟩,
         ⟨.dnsDomainsAdd (recordInput P args.DomainPrefix args.ProjectId args.NetworkId), none⟩,
         ⟨.managedZonesCreate d.Gcp.ProjectId z, out⟩] ++ rest ∧
      out = errOf (B.managedZonesCreate d.Gcp.ProjectId z w3).1 ∧
      z.Name = FmtDnsZoneName d.Gcp.DomainPrefix d.ID ∧
      z.DnsName = FmtDnsName d.Gcp.DomainPrefix d.ID ∧
      (recordInput P args.DomainPrefix args.ProjectId args.NetworkId).ID = "" ∧
      (∀ ev ∈ rest, ∀ p z', ev.call ≠ .managedZonesCreate p z') ∧
      (d.Gcp.DomainPrefix = "my-domain" → d.ID = "abc123" →
        z.Name = "my-domain-abc123" ∧ z.DnsName = "my-domain.abc123.") := by
  refine ⟨zoneOf d args.NetworkProjectId,
    errOf (B.managedZonesCreate d.Gcp.ProjectId (zoneOf d args.NetworkProjectId) w3).1, ?_⟩
  rw [createDnsDomainCmd_added P B args s w1 w2 w3 d hconn hgcp hadd]
  generalize hs3 : (⟨w3, s.events ++ [⟨.newConnection, none⟩] ++ [⟨.newGcpClient, none⟩] ++
    [⟨.dnsDomainsAdd (recordInput P args.DomainPrefix args.ProjectId args.NetworkId),
      none⟩]⟩ : Run σ) = s3
  have hz := CreateDnsZone_events P B d args.NetworkProjectId s3
  have hw3 : s3.world = w3 := by rw [← hs3]
  have he3 : s3.events = s.events ++ [⟨.newConnection, none⟩, ⟨.newGcpClient, none⟩,
    ⟨.dnsDomainsAdd (recordInput P args.DomainPrefix args.ProjectId args.NetworkId),
      none⟩] := by rw [← hs3]; simp
  rw [hw3] at hz
  have hnames : ∀ z : ManagedZone, z = zoneOf d args.NetworkProjectId →
      (d.Gcp.DomainPrefix = "my-domain" → d.ID = "abc123" →
        z.Name = "my-domain-abc123" ∧ z.DnsName = "my-domain.abc123.") := by
    intro z hz h1 h2
    subst hz
    simp only [zoneOf, h1, h2]
    decide
  generalize CreateDnsZone P B d args.NetworkProjectId s3 = r at hz
  obtain ⟨r1, s4⟩ := r
  simp only [] at hz
  cases r1 with
  | error err =>
    simp only []
    have hd := deleteDnsDomain_events B d.ID s4
    generalize deleteDnsDomain B d.ID s4 = r' at hd
    obtain ⟨r1', s5⟩ := r'
    simp only [] at hd
    refine ⟨[⟨.dnsDomainDelete d.ID, (B.dnsDomainDelete d.ID s4.world).1⟩,
      ⟨.connectionClose, none⟩], ?_, trivial, rfl, rfl, rfl, ?_, hnames _ rfl⟩
    · apply eventsSince_append
      cases r1' <;> simp [note, hd, hz, he3]
    · simp
  | ok z =>
    simp only []
    obtain ⟨l, hl, hro⟩ := describeDnsZoneCmd_events B [d.ID] s4
    generalize describeDnsZoneCmd B [d.ID] s4 = r' at hl
    obtain ⟨r1', s5⟩ := r'
    simp only [] at hl
    refine ⟨l ++ [⟨.connectionClose, none⟩], ?_, trivial, rfl, rfl, rfl, ?_, hnames _ rfl⟩
    · apply eventsSince_append
      cases r1' <;> simp [note, hl, hz, he3]
    · intro ev hev p z' hcall
      simp only [List.mem_append, List.mem_singleton] at hev
      rcases hev with hev | rfl
      · have := hro ev hev
        rw [hcall] at this
        simp [Call.readOnly] at this
      · simp at hcall

/-- On the sample world the zone submitted is "my-domain-abc123" with DNS name
"my-domain.abc123.". -/
theorem createDnsDomainCmd_zone_names_witness :
    ∃ z out rest,
      eventsSince (sampleWorld []) (createDnsDomainCmd samplePkg World.backend sampleArgs
          (sampleWorld [])).2 =
        [⟨.newConnection, none⟩, ⟨.newGcpClient, none⟩,
         ⟨.dnsDomainsAdd (recordInput samplePkg "my-domain" "my-project" "my-network"), none⟩,
         ⟨.managedZonesCreate "my-project" z, out⟩] ++ rest ∧
      z.Name = "my-domain-abc123" ∧ z.DnsName = "my-domain.abc123." := by
  obtain ⟨z, out, rest, h1, -, -, -, -, -, h2⟩ :=
    createDnsDomainCmd_zone_names samplePkg World.backend sampleArgs (sampleWorld [])
      _ _ _ _ rfl rfl rfl
  exact ⟨z, out, rest, h1, h2 rfl rfl⟩

/-- C5, as stated, fails: on `describeFailsWorld` the control-plane create and
the cloud zone create both succeed and the command returns an error. -/
theorem createDnsDomainCmd_done_counterexample :
    (⟨.dnsDomainsAdd (recordInput samplePkg "my-domain" "my-project" "my-network"), none⟩
        ∈ (createDnsDomainCmd samplePkg World.backend sampleArgs describeFailsWorld).2.events) ∧
      (⟨.managedZonesCreate "my-project"
          (zoneOf ⟨"abc123", "gcp", "classic", ⟨"my-domain", "my-project", "my-network"⟩⟩
            "my-network-project"), none⟩
        ∈ (createDnsDomainCmd samplePkg World.backend sampleArgs describeFailsWorld).2.events) ∧
      (createDnsDomainCmd samplePkg World.backend sampleArgs describeFailsWorld).1 =
        some (Wrap (Wrapf (Wrap (.ext 500 "boom") "failed to get dns-zone")
          "failed to get dns-domain") "dns-zone created but failed to describe") := by
  decide

/-- C5, amended: in the create operation, when the control-plane create
answers with a record `d` and the cloud zone create succeeds, the command goes
on to the describe step for `d.ID` and makes no call that changes a record or
a zone after the zone creation (no rollback); its result is that of the
describe step, an error of it being wrapped with "dns-zone created but failed
to describe"; it returns no error exactly when the describe step opens its
connection, reads a record under `d.ID` and prints the rows of that record. -/
theorem createDnsDomainCmd_created {σ : Type} (P : Pkg) (B : Backend σ) (args : Args)
    (s : Run σ) (w1 w2 w3 w4 : σ) (d : DNSDomain) (z : ManagedZone)
    (hconn : B.newConnection s.world = (none, w1))
    (hgcp : B.newGcpClient w1 = (none, w2))
    (hadd : B.dnsDomainsAdd (recordInput P args.DomainPrefix args.ProjectId args.NetworkId) w2
      = (.ok d, w3))
    (hzone : B.managedZonesCreate d.Gcp.ProjectId (zoneOf d args.NetworkProjectId) w3
      = (.ok z, w4)) :
    ∃ s4 : Run σ,
      s4.world = w4 ∧
      s4.events = s.events ++ [⟨.newConnection, none⟩, ⟨.newGcpClient, none⟩,
         ⟨.dnsDomainsAdd (recordInput P args.DomainPrefix args.ProjectId args.NetworkId), none⟩,
         ⟨.managedZonesCreate d.Gcp.ProjectId (zoneOf d args.NetworkProjectId), none⟩] ∧
      createDnsDomainCmd P B args s =
        ((describeDnsZoneCmd B [d.ID] s4).1.map
            (fun err => Wrap err "dns-zone created but failed to describe"),
          note .connectionClose (describeDnsZoneCmd B [d.ID] s4).2) ∧
      (∀ ev ∈ eventsSince s4 (createDnsDomainCmd P B args s).2, ev.call.readOnly = true) ∧
      ((createDnsDomainCmd P B args s).1 = none ↔
        ∃ w5 d' w6 w7, B.newConnection w4 = (none, w5) ∧ B.dnsDomainGet d.ID w5 = (.ok d', w6) ∧
          B.stdoutWrite (describeRows d') w6 = (none, w7)) := by
  have hz : CreateDnsZone P B d args.NetworkProjectId
      ⟨w3, s.events ++ [⟨.newConnection, none⟩] ++ [⟨.newGcpClient, none⟩] ++
        [⟨.dnsDomainsAdd (recordInput P args.DomainPrefix args.ProjectId args.NetworkId),
          none⟩]⟩ =
      (.ok z, ⟨w4, s.events ++ [⟨.newConnection, none⟩, ⟨.newGcpClient, none⟩,
         ⟨.dnsDomainsAdd (recordInput P args.DomainPrefix args.ProjectId args.NetworkId), none⟩,
         ⟨.managedZonesCreate d.Gcp.ProjectId (zoneOf d args.NetworkProjectId), none⟩]⟩) := by
    unfold zoneOf at hzone
    simp [CreateDnsZone, issue, hzone, errOf, zoneOf]
  refine ⟨⟨w4, s.events ++ [⟨.newConnection, none⟩, ⟨.newGcpClient, none⟩,
    ⟨.dnsDomainsAdd (recordInput P args.DomainPrefix args.ProjectId args.NetworkId), none⟩,
    ⟨.managedZonesCreate d.Gcp.ProjectId (zoneOf d args.NetworkProjectId), none⟩]⟩, rfl, rfl, ?_⟩
  rw [createDnsDomainCmd_added P B args s w1 w2 w3 d hconn hgcp hadd, hz]
  simp only []
  generalize hs4 : (⟨w4, s.events ++ [⟨.newConnection, none⟩, ⟨.newGcpClient, none⟩,
    ⟨.dnsDomainsAdd (recordInput P args.DomainPrefix args.ProjectId args.NetworkId), none⟩,
    ⟨.managedZonesCreate d.Gcp.ProjectId (zoneOf d args.NetworkProjectId), none⟩]⟩ : Run σ) = s4
  have hw4 : s4.world = w4 := by rw [← hs4]
  obtain ⟨l, hl, hro⟩ := describeDnsZoneCmd_events B [d.ID] s4
  have hiff := describeDnsZoneCmd_none_iff B d.ID s4
  rw [hw4] at hiff
  generalize describeDnsZoneCmd B [d.ID] s4 = r at hl hiff
  obtain ⟨r1, s5⟩ := r
  simp only [] at hl hiff
  have hev : eventsSince s4 (note Call.connectionClose s5) = l ++ [⟨.connectionClose, none⟩] := by
    apply eventsSince_append
    simp [note, hl]
  have hro' : ∀ ev ∈ l ++ [(⟨.connectionClose, none⟩ : Event)], ev.call.readOnly = true := by
    intro ev hev
    simp only [List.mem_append, List.mem_singleton] at hev
    rcases hev with hev | rfl
    · exact hro ev hev
    · rfl
  cases r1 with
  | none =>
    refine ⟨rfl, ?_, ?_⟩
    · simp only [hev]
      exact hro'
    · simpa using hiff
  | some err =>
    refine ⟨rfl, ?_, ?_⟩
    · simp only [hev]
      exact hro'
    · simpa using hiff

/-- On the sample world with no fault the create command returns no error and
prints the record under its assigned identifier. -/
theorem createDnsDomainCmd_created_witness :
    (createDnsDomainCmd samplePkg World.backend sampleArgs (sampleWorld [])).1 = none ∧
      (createDnsDomainCmd samplePkg World.backend sampleArgs (sampleWorld [])).2.world.stdout =
        [[("ID|BASE DOMAIN:", "abc123"), ("Domain Prefix:", "my-domain"),
          ("Project:", "my-project"), ("Network:", "my-network"),
          ("Zone Name:", "my-domain-abc123"), ("DNS Name:", "my-domain.abc123.")]] := by
  obtain ⟨s4, -, -, -, -, h⟩ :=
    createDnsDomainCmd_created samplePkg World.backend sampleArgs (sampleWorld [])
      _ _ _ _ _ _ rfl rfl rfl rfl
  exact ⟨h.2 ⟨_, _, _, _, rfl, rfl, rfl⟩, by decide⟩

/-! ## The delete operation -/

/-- `DeleteDnsZone` in terms of the answer of the cloud. -/
theorem DeleteDnsZone_eq {σ : Type} (P : Pkg) (B : Backend σ) (d : DNSDomain) (s : Run σ) :
    DeleteDnsZone P B d s =
      ((match (B.managedZonesDelete d.Gcp.ProjectId
            (FmtDnsZoneName d.Gcp.DomainPrefix d.ID) s.world).1 with
        | none => none
        | some e => if P.isNotFound e then none else some (P.fmtGoogleApiError e)),
       ⟨(B.managedZonesDelete d.Gcp.ProjectId
            (FmtDnsZoneName d.Gcp.DomainPrefix d.ID) s.world).2,
        s.events ++ [⟨.managedZonesDelete d.Gcp.ProjectId
            (FmtDnsZoneName d.Gcp.DomainPrefix d.ID),
          (B.managedZonesDelete d.Gcp.ProjectId
            (FmtDnsZoneName d.Gcp.DomainPrefix d.ID) s.world).1⟩]⟩) := by
  unfold DeleteDnsZone issue0
  simp only []
  generalize B.managedZonesDelete _ _ s.world = r
  obtain ⟨_ | e, w⟩ := r
  · rfl
  · simp only []
    split <;> rfl

/-- `deleteDnsDomain` in terms of the answer of the control plane. -/
theorem deleteDnsDomain_eq {σ : Type} (B : Backend σ) (id : String) (s : Run σ) :
    deleteDnsDomain B id s =
      ((B.dnsDomainDelete id s.world).1.map (fun err => Wrap err "failed to delete dns-domain"),
       ⟨(B.dnsDomainDelete id s.world).2,
        s.events ++ [⟨.dnsDomainDelete id, (B.dnsDomainDelete id s.world).1⟩]⟩) := by
  unfold deleteDnsDomain issue0
  generalize B.dnsDomainDelete id s.world = r
  obtain ⟨_ | e, w⟩ := r <;> rfl

/-- The delete operation from the point where the control plane has answered
the lookup with the record `d`. -/
theorem deleteDnsZoneCmd_fetched {σ : Type} (P : Pkg) (B : Backend σ) (arg : String)
    (s : Run σ) (w1 w2 w3 : σ) (d : DNSDomain)
    (hconn : B.newConnection s.world = (none, w1))
    (hgcp : B.newGcpClient w1 = (none, w2))
    (hget : B.dnsDomainGet arg w2 = (.ok d, w3)) :
    deleteDnsZoneCmd P B [arg] s =
      (match DeleteDnsZone P B d
          ⟨w3, s.events ++ [⟨.newConnection, none⟩] ++ [⟨.newGcpClient, none⟩] ++
            [⟨.dnsDomainGet arg, none⟩]⟩ with
        | (some err, s4) =>
          (some (Wrapf err "failed to delete dns-zone"), note .connectionClose s4)
        | (none, s4) =>
          match deleteDnsDomain B d.ID (note (.logPrintf (zoneDeletedLine d)) s4) with
          | (some err, s6) =>
            (some (Wrapf err "failed to delete dns-domain"), note .connectionClose s6)
          | (none, s6) =>
            (none, note .connectionClose (note (.logPrintf (domainDeletedLine d)) s6))) := by
  simp only [deleteDnsZoneCmd, getDnsDomain, issue, issue0, hconn, hgcp, hget, errOf,
    zoneDeletedLine, domainDeletedLine]
  generalize DeleteDnsZone P B d _ = r
  obtain ⟨_ | e, s4⟩ := r
  · simp only []
    generalize deleteDnsDomain B d.ID _ = r'
    obtain ⟨_ | e', s6⟩ := r' <;> rfl
  · rfl

/-- The shapes of a run of the delete operation: either it stops before the
cloud step, having made read-only calls only, or it fetches a record `d` and
asks the cloud to delete the zone of `d`; then either the cloud answers with
an error that is not "not found" and the run ends there, or the run logs,
asks the control plane to delete `d.ID` and ends. -/
theorem deleteDnsZoneCmd_cases {σ : Type} (P : Pkg) (B : Backend σ) (argv : List String)
    (s : Run σ) :
    (∀ ev ∈ eventsSince s (deleteDnsZoneCmd P B argv s).2, ev.call.readOnly = true) ∨
    (∃ arg d outz tail, argv = [arg] ∧
      eventsSince s (deleteDnsZoneCmd P B argv s).2 =
        [⟨.newConnection, none⟩, ⟨.newGcpClient, none⟩, ⟨.dnsDomainGet arg, none⟩,
         ⟨.managedZonesDelete d.Gcp.ProjectId (FmtDnsZoneName d.Gcp.DomainPrefix d.ID), outz⟩]
          ++ tail ∧
      ((∃ e, outz = some e ∧ P.isNotFound e = false ∧ tail = [⟨.connectionClose, none⟩] ∧
          (deleteDnsZoneCmd P B argv s).1 =
            some (Wrapf (P.fmtGoogleApiError e) "failed to delete dns-zone")) ∨
       ((outz = none ∨ ∃ e, outz = some e ∧ P.isNotFound e = true) ∧
          ∃ out, tail = ⟨.logPrintf (zoneDeletedLine d), none⟩ :: ⟨.dnsDomainDelete d.ID, out⟩ ::
              (if out = none then [⟨.logPrintf (domainDeletedLine d), none⟩,
                ⟨.connectionClose, none⟩] else [⟨.connectionClose, none⟩]) ∧
            (deleteDnsZoneCmd P B argv s).1 =
              out.map (fun e => Wrapf (Wrap e "failed to delete dns-domain")
                "failed to delete dns-domain")))) := by
  rcases argv with _ | ⟨arg, _ | ⟨b, t⟩⟩
  · left; simp [deleteDnsZoneCmd, eventsSince]
  · rcases hconn : B.newConnection s.world with ⟨_ | e1, w1⟩
    swap
    · left
      simp [deleteDnsZoneCmd, issue0, hconn, eventsSince, Call.readOnly]
    rcases hgcp : B.newGcpClient w1 with ⟨_ | e2, w2⟩
    swap
    · left
      simp [deleteDnsZoneCmd, issue0, hconn, hgcp, eventsSince, note, Call.readOnly]
    rcases hget : B.dnsDomainGet arg w2 with ⟨e3 | d, w3⟩
    · left
      simp [deleteDnsZoneCmd, getDnsDomain, issue, issue0, hconn, hgcp, hget, eventsSince, note,
        errOf, Call.readOnly]
    right
    refine ⟨arg, d, (B.managedZonesDelete d.Gcp.ProjectId
      (FmtDnsZoneName d.Gcp.DomainPrefix d.ID) w3).1, ?_⟩
    rw [deleteDnsZoneCmd_fetched P B arg s w1 w2 w3 d hconn hgcp hget, DeleteDnsZone_eq]
    rcases hz : B.managedZonesDelete d.Gcp.ProjectId
      (FmtDnsZoneName d.Gcp.DomainPrefix d.ID) w3 with ⟨_ | e4, w4⟩
    · rcases hd : B.dnsDomainDelete d.ID w4 with ⟨_ | e5, w5⟩
      · refine ⟨[⟨.logPrintf (zoneDeletedLine d), none⟩, ⟨.dnsDomainDelete d.ID, none⟩,
          ⟨.logPrintf (domainDeletedLine d), none⟩, ⟨.connectionClose, none⟩], rfl, ?_, ?_⟩
        · simp [eventsSince, note, deleteDnsDomain_eq, hd]
        · exact Or.inr ⟨Or.inl rfl, none, by simp, by simp [deleteDnsDomain_eq, note, hd]⟩
      · refine ⟨[⟨.logPrintf (zoneDeletedLine d), none⟩, ⟨.dnsDomainDelete d.ID, some e5⟩,
          ⟨.connectionClose, none⟩], rfl, ?_, ?_⟩
        · simp [eventsSince, note, deleteDnsDomain_eq, hd]
        · exact Or.inr ⟨Or.inl rfl, some e5, by simp, by simp [deleteDnsDomain_eq, note, hd]⟩
    · cases hnf : P.isNotFound e4
      · refine ⟨[⟨.connectionClose, none⟩], rfl, ?_, ?_⟩
        · simp [eventsSince, note, hnf]
        · exact Or.inl ⟨e4, rfl, hnf, rfl, by simp [hnf]⟩
      · rcases hd : B.dnsDomainDelete d.ID w4 with ⟨_ | e5, w5⟩
        · refine ⟨[⟨.logPrintf (zoneDeletedLine d), none⟩, ⟨.dnsDomainDelete d.ID, none⟩,
            ⟨.logPrintf (domainDeletedLine d), none⟩, ⟨.connectionClose, none⟩], rfl, ?_, ?_⟩
          · simp [eventsSince, note, deleteDnsDomain_eq, hd, hnf]
          · exact Or.inr ⟨Or.inr ⟨e4, rfl, hnf⟩, none, by simp,
              by simp [deleteDnsDomain_eq, note, hd, hnf]⟩
        · refine ⟨[⟨.logPrintf (zoneDeletedLine d), none⟩, ⟨.dnsDomainDelete d.ID, some e5⟩,
            ⟨.connectionClose, none⟩], rfl, ?_, ?_⟩
          · simp [eventsSince, note, deleteDnsDomain_eq, hd, hnf]
          · exact Or.inr ⟨Or.inr ⟨e4, rfl, hnf⟩, some e5, by simp,
              by simp [deleteDnsDomain_eq, note, hd, hnf]⟩
  · left; simp [deleteDnsZoneCmd, eventsSince]

/-- C6: in every run of the delete operation, a record delete call is
preceded in that run by the zone delete call for the fetched record, answered
with success or with an error classified as not found, and it deletes that
record's identifier; and when the zone delete call is answered with an error
that is not classified as not found, the run issues no record delete and
returns that error (formatted by the client) wrapped with "failed to delete
dns-zone". -/
theorem deleteDnsZoneCmd_order {σ : Type} (P : Pkg) (B : Backend σ) (argv : List String)
    (s : Run σ) :
    (∀ id out, (⟨.dnsDomainDelete id, out⟩ : Event) ∈
        eventsSince s (deleteDnsZoneCmd P B argv s).2 →
      ∃ arg d outz rest, argv = [arg] ∧
        eventsSince s (deleteDnsZoneCmd P B argv s).2 =
          [⟨.newConnection, none⟩, ⟨.newGcpClient, none⟩, ⟨.dnsDomainGet arg, none⟩,
           ⟨.managedZonesDelete d.Gcp.ProjectId (FmtDnsZoneName d.Gcp.DomainPrefix d.ID), outz⟩,
           ⟨.logPrintf (zoneDeletedLine d), none⟩, ⟨.dnsDomainDelete d.ID, out⟩] ++ rest ∧
        id = d.ID ∧ (outz = none ∨ ∃ e, outz = some e ∧ P.isNotFound e = true) ∧
        ∀ ev ∈ rest, ev.call.readOnly = true) ∧
    (∀ p n e, (⟨.managedZonesDelete p n, some e⟩ : Event) ∈
        eventsSince s (deleteDnsZoneCmd P B argv s).2 → P.isNotFound e = false →
      (deleteDnsZoneCmd P B argv s).1 =
          some (Wrapf (P.fmtGoogleApiError e) "failed to delete dns-zone") ∧
        ∀ ev ∈ eventsSince s (deleteDnsZoneCmd P B argv s).2, ∀ id,
          ev.call ≠ .dnsDomainDelete id) := by
  rcases deleteDnsZoneCmd_cases P B argv s with hro | ⟨arg, d, outz, tail, hargv, hev, hcase⟩
  · constructor
    · intro id out hmem
      have := hro _ hmem
      simp [Call.readOnly] at this
    · intro p n e hmem
      have := hro _ hmem
      simp [Call.readOnly] at this
  · rcases hcase with ⟨e, houtz, hnf, htail, hres⟩ | ⟨houtz, out, htail, hres⟩
    · constructor
      · intro id out hmem
        rw [hev, htail] at hmem
        simp at hmem
      · intro p n e' hmem hnf'
        rw [hev, htail, houtz] at hmem
        simp only [List.cons_append, List.nil_append, List.mem_cons, Event.mk.injEq,
          reduceCtorEq, false_and, Call.managedZonesDelete.injEq, Option.some.injEq,
          List.mem_singleton, List.not_mem_nil, or_false, false_or] at hmem
        obtain ⟨-, rfl⟩ := hmem
        refine ⟨hres, ?_⟩
        intro ev hmem id hcall
        rw [hev, htail] at hmem
        simp only [List.cons_append, List.nil_append, List.mem_cons, List.mem_singleton,
          List.not_mem_nil, or_false] at hmem
        rcases hmem with rfl | rfl | rfl | rfl | rfl <;> simp at hcall
    · constructor
      · intro id out' hmem
        have hmem' := hmem
        rw [hev, htail] at hmem'
        have hid : id = d.ID ∧ out' = out := by
          by_cases ho : out = none
          · simp [ho] at hmem'
            simpa [ho] using hmem'
          · simp [ho] at hmem'
            simpa using hmem'
        obtain ⟨rfl, rfl⟩ := hid
        refine ⟨arg, d, outz, (if out' = none then [⟨.logPrintf (domainDeletedLine d), none⟩,
          ⟨.connectionClose, none⟩] else [⟨.connectionClose, none⟩]), hargv, ?_, rfl, houtz, ?_⟩
        · rw [hev, htail]
          simp
        · intro ev hmem
          by_cases ho : out' = none
          · simp only [ho, if_true, List.mem_cons, List.mem_singleton, List.not_mem_nil,
              or_false] at hmem
            rcases hmem with rfl | rfl <;> rfl
          · simp only [ho, if_false, List.mem_singleton] at hmem
            subst hmem
            rfl
      · intro p n e hmem hnf
        exfalso
        rw [hev, htail] at hmem
        have : outz = some e := by
          by_cases ho : out = none
          · simp [ho] at hmem
            exact hmem.2.symm
          · simp [ho] at hmem
            exact hmem.2.symm
        rcases houtz with h | ⟨e', h, hnf'⟩
        · rw [h] at this
          simp at this
        · rw [h] at this
          simp only [Option.some.injEq] at this
          subst this
          rw [hnf] at hnf'
          simp at hnf'

/-- On a world holding the sample record and its zone: when the cloud refuses
the zone delete with an error that is not "not found", the record is not
deleted; with no fault the zone delete comes before the record delete. -/
theorem deleteDnsZoneCmd_order_witness :
    (deleteDnsZoneCmd samplePkg World.backend ["abc123"]
        (provisionedWorld [none, none, none, some (.ext 503 "unavailable")])).1 =
        some (Wrapf (.ext 503 "unavailable") "failed to delete dns-zone") ∧
      (∀ ev ∈ eventsSince (provisionedWorld [none, none, none, some (.ext 503 "unavailable")])
          (deleteDnsZoneCmd samplePkg World.backend ["abc123"]
            (provisionedWorld [none, none, none, some (.ext 503 "unavailable")])).2,
        ∀ id, ev.call ≠ .dnsDomainDelete id) :=
  (deleteDnsZoneCmd_order samplePkg World.backend ["abc123"]
    (provisionedWorld [none, none, none, some (.ext 503 "unavailable")])).2
      "my-project" "my-domain-abc123" (.ext 503 "unavailable") (by decide) (by decide)

/-- C7: `DeleteDnsZone` returns no error exactly when the zone delete of the
cloud succeeds or fails with an error classified as not found; for every other
answer `e` of the cloud it returns the error `fmtGoogleApiError e`. -/
theorem DeleteDnsZone_not_found_ok {σ : Type} (P : Pkg) (B : Backend σ) (d : DNSDomain)
    (s : Run σ) :
    ((DeleteDnsZone P B d s).1 = none ↔
      ((B.managedZonesDelete d.Gcp.ProjectId
          (FmtDnsZoneName d.Gcp.DomainPrefix d.ID) s.world).1 = none ∨
        ∃ e, (B.managedZonesDelete d.Gcp.ProjectId
          (FmtDnsZoneName d.Gcp.DomainPrefix d.ID) s.world).1 = some e ∧
          P.isNotFound e = true)) ∧
    (∀ e, (B.managedZonesDelete d.Gcp.ProjectId
          (FmtDnsZoneName d.Gcp.DomainPrefix d.ID) s.world).1 = some e →
        P.isNotFound e = false →
        (DeleteDnsZone P B d s).1 = some (P.fmtGoogleApiError e)) := by
  rw [DeleteDnsZone_eq]
  rcases hz : B.managedZonesDelete d.Gcp.ProjectId
    (FmtDnsZoneName d.Gcp.DomainPrefix d.ID) s.world with ⟨_ | e, w⟩
  · simp
  · cases hnf : P.isNotFound e
    · simp [hnf]
    · simp [hnf]

/-- An absent zone is no error for `DeleteDnsZone`; an unavailable cloud is. -/
theorem DeleteDnsZone_not_found_ok_witness :
    (DeleteDnsZone samplePkg World.backend sampleRecord (sampleWorld [])).1 = none ∧
      (DeleteDnsZone samplePkg World.backend sampleRecord
        (provisionedWorld [some (.ext 503 "unavailable")])).1 =
          some (.ext 503 "unavailable") :=
  ⟨(DeleteDnsZone_not_found_ok samplePkg World.backend sampleRecord (sampleWorld [])).1.2
      (Or.inr ⟨World.zoneNotFound "my-domain-abc123", by decide, by decide⟩),
   (DeleteDnsZone_not_found_ok samplePkg World.backend sampleRecord
      (provisionedWorld [some (.ext 503 "unavailable")])).2 _ (by decide) (by decide)⟩

/-- C9: in the delete operation, when the lookup of the record fails with `e`,
the run makes that one lookup and then only closes the connection: no zone
delete and no record delete is issued; the result is `e` under two wrappers
that only add a message, so its root cause is that of `e` and whatever
classifies the cause of `e` classifies the cause of the result alike. -/
theorem deleteDnsZoneCmd_lookup_failed {σ : Type} (P : Pkg) (B : Backend σ) (arg : String)
    (s : Run σ) (w1 w2 w3 : σ) (e : Error)
    (hconn : B.newConnection s.world = (none, w1))
    (hgcp : B.newGcpClient w1 = (none, w2))
    (hget : B.dnsDomainGet arg w2 = (.error e, w3)) :
    deleteDnsZoneCmd P B [arg] s =
        (some (Wrapf (Wrap e "failed to get dns-zone") "failed to get dns-domain"),
          ⟨w3, s.events ++ [⟨.newConnection, none⟩, ⟨.newGcpClient, none⟩,
            ⟨.dnsDomainGet arg, some e⟩, ⟨.connectionClose, none⟩]⟩) ∧
      (Wrapf (Wrap e "failed to get dns-zone") "failed to get dns-domain").Cause = e.Cause ∧
      (∀ classify : Error → Bool,
        classify (Wrapf (Wrap e "failed to get dns-zone") "failed to get dns-domain").Cause
          = classify e.Cause) ∧
      (eventsSince s (deleteDnsZoneCmd P B [arg] s).2).countP (fun ev => ev.call.isLookup) = 1 ∧
      (∀ ev ∈ eventsSince s (deleteDnsZoneCmd P B [arg] s).2,
        (∀ p n, ev.call ≠ .managedZonesDelete p n) ∧ (∀ id, ev.call ≠ .dnsDomainDelete id)) := by
  have hc : deleteDnsZoneCmd P B [arg] s =
      (some (Wrapf (Wrap e "failed to get dns-zone") "failed to get dns-domain"),
        ⟨w3, s.events ++ [⟨.newConnection, none⟩, ⟨.newGcpClient, none⟩,
          ⟨.dnsDomainGet arg, some e⟩, ⟨.connectionClose, none⟩]⟩) := by
    simp [deleteDnsZoneCmd, getDnsDomain, issue, issue0, note, errOf, hconn, hgcp, hget]
  refine ⟨hc, rfl, fun _ => rfl, ?_, ?_⟩
  · rw [hc]
    simp [eventsSince, Call.isLookup, List.countP_cons]
  · rw [hc]
    intro ev hev
    simp only [eventsSince, List.drop_left, List.mem_cons, List.mem_singleton, List.not_mem_nil,
      or_false] at hev
    rcases hev with rfl | rfl | rfl | rfl <;> simp

/-- On the empty sample world the delete of "abc123" stops at the lookup with
the control plane's "not found". -/
theorem deleteDnsZoneCmd_lookup_failed_witness :
    deleteDnsZoneCmd samplePkg World.backend ["abc123"] (sampleWorld []) =
      (some (Wrapf (Wrap (World.recordNotFound "abc123") "failed to get dns-zone")
          "failed to get dns-domain"),
        ⟨(sampleWorld []).world,
         [⟨.newConnection, none⟩, ⟨.newGcpClient, none⟩,
          ⟨.dnsDomainGet "abc123", some (World.recordNotFound "abc123")⟩,
          ⟨.connectionClose, none⟩]⟩) :=
  (deleteDnsZoneCmd_lookup_failed samplePkg World.backend "abc123" (sampleWorld [])
    _ _ _ _ rfl rfl rfl).1

theorem GetDnsZone_events {σ : Type} (P : Pkg) (B : Backend σ) (d : DNSDomain) (s : Run σ) :
    (GetDnsZone P B d s).2.events = s.events ++
      [⟨.managedZonesList d.Gcp.ProjectId (FmtDnsName d.Gcp.DomainPrefix d.ID),
        errOf (B.managedZonesList d.Gcp.ProjectId
          (FmtDnsName d.Gcp.DomainPrefix d.ID) s.world).1⟩] := by
  unfold GetDnsZone issue
  simp only []
  generalize B.managedZonesList _ _ s.world = r
  obtain ⟨r1, r2⟩ := r
  cases r1 with
  | error e => rfl
  | ok zs => cases zs <;> rfl

/-- C10: for every record `r`, whatever the backends and the states of the
three calls, `CreateDnsZone` submits a zone `z` to `r`'s project,
`DeleteDnsZone` addresses the zone named `z.Name` in the same project and
`GetDnsZone` lists that project filtered on `z.DnsName`; `z.Name` and
`z.DnsName` are `FmtDnsZoneName` and `FmtDnsName` of `r`'s domain prefix and
identifier, so any record with the same prefix and identifier gives the same
names; and in the reference model a delete that is let through after a
successful create finds the zone and removes it. -/
theorem dnsZone_addressing_stable {σ₁ σ₂ σ₃ : Type} (P₁ P₂ P₃ : Pkg) (B₁ : Backend σ₁)
    (B₂ : Backend σ₂) (B₃ : Backend σ₃) (r : DNSDomain) (host : String)
    (s₁ : Run σ₁) (s₂ : Run σ₂) (s₃ : Run σ₃) :
    ∃ z o₁ o₂ o₃,
      eventsSince s₁ (CreateDnsZone P₁ B₁ r host s₁).2 =
        [⟨.managedZonesCreate r.Gcp.ProjectId z, o₁⟩] ∧
      eventsSince s₂ (DeleteDnsZone P₂ B₂ r s₂).2 =
        [⟨.managedZonesDelete r.Gcp.ProjectId z.Name, o₂⟩] ∧
      eventsSince s₃ (GetDnsZone P₃ B₃ r s₃).2 =
        [⟨.managedZonesList r.Gcp.ProjectId z.DnsName, o₃⟩] ∧
      z.Name = FmtDnsZoneName r.Gcp.DomainPrefix r.ID ∧
      z.DnsName = FmtDnsName r.Gcp.DomainPrefix r.ID ∧
      (∀ r' host', r'.Gcp.DomainPrefix = r.Gcp.DomainPrefix → r'.ID = r.ID →
        (zoneOf r' host').Name = z.Name ∧ (zoneOf r' host').DnsName = z.DnsName) ∧
      (∀ (w w' : Run World) (zc : ManagedZone),
        CreateDnsZone P₁ World.backend r host w = (.ok zc, w') → w'.world.faults = [] →
        ∃ w'', DeleteDnsZone P₂ World.backend r w' = (none, w'') ∧
          eventsSince w' w'' = [⟨.managedZonesDelete r.Gcp.ProjectId z.Name, none⟩] ∧
          ∀ x ∈ w''.world.zones, ¬ (x.1 = r.Gcp.ProjectId ∧ x.2.Name = z.Name)) := by
  refine ⟨zoneOf r host, _,
    (B₂.managedZonesDelete r.Gcp.ProjectId (FmtDnsZoneName r.Gcp.DomainPrefix r.ID) s₂.world).1,
    _, eventsSince_append _ _ _ (CreateDnsZone_events P₁ B₁ r host s₁),
    ?_, eventsSince_append _ _ _ (GetDnsZone_events P₃ B₃ r s₃), rfl, rfl, ?_, ?_⟩
  · apply eventsSince_append
    rw [DeleteDnsZone_eq]
    rfl
  · intro r' host' h1 h2
    simp [zoneOf, h1, h2]
  · intro w w' zc hc hf
    obtain ⟨hraw, -⟩ := CreateDnsZone_ok _ _ _ _ _ _ _ hc
    obtain ⟨-, hz, -, -⟩ := World.managedZonesCreate_ok _ _ _ _ _ hraw
    have hpres : ∃ x ∈ w'.world.zones, x.1 = r.Gcp.ProjectId ∧
        x.2.Name = FmtDnsZoneName r.Gcp.DomainPrefix r.ID :=
      ⟨(r.Gcp.ProjectId, zoneOf r host), by simp [hz], rfl, rfl⟩
    have hdel := World.managedZonesDelete_present _ _ _ hf hpres
    have hdel' : World.backend.managedZonesDelete r.Gcp.ProjectId
        (FmtDnsZoneName r.Gcp.DomainPrefix r.ID) w'.world = _ := hdel
    refine ⟨_, by rw [DeleteDnsZone_eq, hdel'], ?_, ?_⟩
    · simp [eventsSince, zoneOf]
    · intro x hx
      simp only [List.mem_filter] at hx
      have h2 := hx.2
      simp only [decide_not, Bool.not_eq_eq_eq_not, Bool.not_true, decide_eq_false_iff_not] at h2
      exact h2

/-- A later record with the sample prefix and identifier addresses the zone
"my-domain-abc123" with DNS name "my-domain.abc123.". -/
theorem dnsZone_addressing_stable_witness :
    (zoneOf ⟨"abc123", "", "", ⟨"my-domain", "other-project", "other-network"⟩⟩ "").Name =
        "my-domain-abc123" ∧
      (zoneOf ⟨"abc123", "", "", ⟨"my-domain", "other-project", "other-network"⟩⟩ "").DnsName =
        "my-domain.abc123." := by
  obtain ⟨z, -, -, -, -, -, -, hn, hd, h, -⟩ :=
    dnsZone_addressing_stable samplePkg samplePkg samplePkg World.backend World.backend
      World.backend sampleRecord "my-network-project" (sampleWorld []) (sampleWorld [])
      (sampleWorld [])
  have h' := h ⟨"abc123", "", "", ⟨"my-domain", "other-project", "other-network"⟩⟩ "" rfl rfl
  rw [hn, hd] at h'
  exact h'

/-- A run of the delete operation either fails having made read-only calls
only or gets as far as fetching a record. -/
theorem deleteDnsZoneCmd_reach {σ : Type} (P : Pkg) (B : Backend σ) (argv : List String)
    (s : Run σ) :
    ((deleteDnsZoneCmd P B argv s).1 ≠ none ∧
      ∀ ev ∈ eventsSince s (deleteDnsZoneCmd P B argv s).2, ev.call.readOnly = true) ∨
    (∃ arg d w1 w2 w3, argv = [arg] ∧ B.newConnection s.world = (none, w1) ∧
      B.newGcpClient w1 = (none, w2) ∧ B.dnsDomainGet arg w2 = (.ok d, w3)) := by
  rcases argv with _ | ⟨arg, _ | ⟨b, t⟩⟩
  · left; simp [deleteDnsZoneCmd, eventsSince]
  · rcases hconn : B.newConnection s.world with ⟨_ | e1, w1⟩
    swap
    · left
      simp [deleteDnsZoneCmd, issue0, hconn, eventsSince, Call.readOnly]
    rcases hgcp : B.newGcpClient w1 with ⟨_ | e2, w2⟩
    swap
    · left
      simp [deleteDnsZoneCmd, issue0, hconn, hgcp, eventsSince, note, Call.readOnly]
    rcases hget : B.dnsDomainGet arg w2 with ⟨e3 | d, w3⟩
    · left
      simp [deleteDnsZoneCmd, getDnsDomain, issue, issue0, hconn, hgcp, hget, eventsSince, note,
        errOf, Call.readOnly]
    right
    exact ⟨arg, d, w1, w2, w3, rfl, rfl, hgcp, hget⟩
  · left; simp [deleteDnsZoneCmd, eventsSince]

/-- The delete operation, from the fetched record `d` on, when the cloud
answers the zone delete with an error that is not "not found". -/
theorem deleteDnsZoneCmd_fetched_err {σ : Type} (P : Pkg) (B : Backend σ) (arg : String)
    (s : Run σ) (w1 w2 w3 w4 : σ) (d : DNSDomain) (e : Error)
    (hconn : B.newConnection s.world = (none, w1))
    (hgcp : B.newGcpClient w1 = (none, w2))
    (hget : B.dnsDomainGet arg w2 = (.ok d, w3))
    (hz : B.managedZonesDelete d.Gcp.ProjectId (FmtDnsZoneName d.Gcp.DomainPrefix d.ID) w3
      = (some e, w4))
    (hnf : P.isNotFound e = false) :
    deleteDnsZoneCmd P B [arg] s =
      (some (Wrapf (P.fmtGoogleApiError e) "failed to delete dns-zone"),
        ⟨w4, s.events ++ [⟨.newConnection, none⟩, ⟨.newGcpClient, none⟩,
          ⟨.dnsDomainGet arg, none⟩,
          ⟨.managedZonesDelete d.Gcp.ProjectId (FmtDnsZoneName d.Gcp.DomainPrefix d.ID), some e⟩,
          ⟨.connectionClose, none⟩]⟩) := by
  rw [deleteDnsZoneCmd_fetched P B arg s w1 w2 w3 d hconn hgcp hget, DeleteDnsZone_eq]
  simp [hz, hnf, note]

/-- The delete operation, from the fetched record `d` on, in terms of the
answers of the cloud and of the control plane. -/
theorem deleteDnsZoneCmd_fetched_eq {σ : Type} (P : Pkg) (B : Backend σ) (arg : String)
    (s : Run σ) (w1 w2 w3 w4 : σ) (d : DNSDomain) (outz : Option Error)
    (hconn : B.newConnection s.world = (none, w1))
    (hgcp : B.newGcpClient w1 = (none, w2))
    (hget : B.dnsDomainGet arg w2 = (.ok d, w3))
    (hz : B.managedZonesDelete d.Gcp.ProjectId (FmtDnsZoneName d.Gcp.DomainPrefix d.ID) w3
      = (outz, w4))
    (hok : outz = none ∨ ∃ e, outz = some e ∧ P.isNotFound e = true) :
    deleteDnsZoneCmd P B [arg] s =
      ((B.dnsDomainDelete d.ID w4).1.map
          (fun e => Wrapf (Wrap e "failed to delete dns-domain") "failed to delete dns-domain"),
        ⟨(B.dnsDomainDelete d.ID w4).2,
          s.events ++ [⟨.newConnection, none⟩, ⟨.newGcpClient, none⟩, ⟨.dnsDomainGet arg, none⟩,
            ⟨.managedZonesDelete d.Gcp.ProjectId (FmtDnsZoneName d.Gcp.DomainPrefix d.ID), outz⟩,
            ⟨.logPrintf (zoneDeletedLine d), none⟩,
            ⟨.dnsDomainDelete d.ID, (B.dnsDomainDelete d.ID w4).1⟩] ++
            (if (B.dnsDomainDelete d.ID w4).1 = none then
              [⟨.logPrintf (domainDeletedLine d), none⟩, ⟨.connectionClose, none⟩]
             else [⟨.connectionClose, none⟩])⟩) := by
  rw [deleteDnsZoneCmd_fetched P B arg s w1 w2 w3 d hconn hgcp hget, DeleteDnsZone_eq]
  simp only [hz]
  rcases hok with rfl | ⟨e, rfl, hnf⟩
  · simp only [deleteDnsDomain_eq, note]
    rcases B.dnsDomainDelete d.ID w4 with ⟨_ | e5, w5⟩ <;> simp
  · simp only [hnf, if_true, deleteDnsDomain_eq, note]
    rcases B.dnsDomainDelete d.ID w4 with ⟨_ | e5, w5⟩ <;> simp

/-- C8: two delete runs in a row on the same argument, in the reference model
with a client that classifies the cloud's "does not exist" answer as not
found.  In the second run a zone delete answered "not found" never ends the
run with "failed to delete dns-zone": the run goes on to the record delete.
If the first run removed the zone and its record delete failed, and nothing is
made to fail in the second run, the second run gets "not found" from the
cloud, deletes the record and returns no error.  If the first run returned no
error, the second run, with nothing made to fail, ends at the lookup with the
control plane's "not found" and makes no cloud call. -/
theorem deleteDnsZoneCmd_twice (P : Pkg)
    (hnf : ∀ name, P.isNotFound (World.zoneNotFound name) = true)
    (arg : String) (s s1 : Run World) (res1 : Option Error)
    (hrun1 : deleteDnsZoneCmd P World.backend [arg] s = (res1, s1)) :
    (∀ p n e, (⟨.managedZonesDelete p n, some e⟩ : Event) ∈
        eventsSince s1 (deleteDnsZoneCmd P World.backend [arg] s1).2 → P.isNotFound e = true →
      (∀ x, (deleteDnsZoneCmd P World.backend [arg] s1).1 ≠
          some (Wrapf x "failed to delete dns-zone")) ∧
        ∃ id out, (⟨.dnsDomainDelete id, out⟩ : Event) ∈
          eventsSince s1 (deleteDnsZoneCmd P World.backend [arg] s1).2) ∧
    (∀ p n id e, (⟨.managedZonesDelete p n, none⟩ : Event) ∈ eventsSince s s1 →
      (⟨.dnsDomainDelete id, some e⟩ : Event) ∈ eventsSince s s1 → s1.world.faults = [] →
      ∃ d, d.ID = id ∧ d.Gcp.ProjectId = p ∧ FmtDnsZoneName d.Gcp.DomainPrefix d.ID = n ∧
        deleteDnsZoneCmd P World.backend [arg] s1 =
          (none, ⟨{ s1.world with records := (s1.world.records.filter (fun r => ¬ r.ID = id)) },
            s1.events ++ [⟨.newConnection, none⟩, ⟨.newGcpClient, none⟩,
              ⟨.dnsDomainGet arg, none⟩,
              ⟨.managedZonesDelete p n, some (World.zoneNotFound n)⟩,
              ⟨.logPrintf (zoneDeletedLine d), none⟩, ⟨.dnsDomainDelete id, none⟩,
              ⟨.logPrintf (domainDeletedLine d), none⟩, ⟨.connectionClose, none⟩]⟩) ∧
        ∀ r ∈ (deleteDnsZoneCmd P World.backend [arg] s1).2.world.records, r.ID ≠ id) ∧
    (res1 = none → s1.world.faults = [] →
      deleteDnsZoneCmd P World.backend [arg] s1 =
        (some (Wrapf (Wrap (World.recordNotFound arg) "failed to get dns-zone")
            "failed to get dns-domain"),
          ⟨s1.world, s1.events ++ [⟨.newConnection, none⟩, ⟨.newGcpClient, none⟩,
            ⟨.dnsDomainGet arg, some (World.recordNotFound arg)⟩,
            ⟨.connectionClose, none⟩]⟩)) := by
  refine ⟨?_, ?_, ?_⟩
  · -- the second run never fails on the zone's absence
    intro p n e hmem he
    rcases deleteDnsZoneCmd_cases P World.backend [arg] s1 with
      hro | ⟨arg', d, outz, tail, -, hev, hcase⟩
    · have := hro _ hmem
      simp [Call.readOnly] at this
    · rcases hcase with ⟨e', houtz, hnf', htail, -⟩ | ⟨-, out, htail, hres⟩
      · exfalso
        rw [hev, htail, houtz] at hmem
        simp only [List.cons_append, List.nil_append, List.mem_cons, Event.mk.injEq,
          reduceCtorEq, false_and, Call.managedZonesDelete.injEq, Option.some.injEq,
          List.mem_singleton, List.not_mem_nil, or_false, false_or] at hmem
        obtain ⟨-, rfl⟩ := hmem
        rw [he] at hnf'
        simp at hnf'
      · refine ⟨?_, d.ID, out, ?_⟩
        · intro x hx
          rw [hres] at hx
          cases out with
          | none => simp at hx
          | some e5 =>
            simp only [Option.map_some', Option.some.injEq, Wrapf, Error.wrap.injEq] at hx
            exact absurd hx.2 (by decide)
        · rw [hev, htail]
          simp
  · -- the first run removed the zone and failed to delete the record
    intro p n id e hmem1 hmem2 hf
    rcases deleteDnsZoneCmd_reach P World.backend [arg] s with
      ⟨-, hro⟩ | ⟨arg', d, w1, w2, w3, hargv, hconn, hgcp, hget⟩
    · rw [hrun1] at hro
      have := hro _ hmem1
      simp [Call.readOnly] at this
    simp only [List.cons.injEq, and_true] at hargv
    subst hargv
    rcases hz : World.backend.managedZonesDelete d.Gcp.ProjectId
      (FmtDnsZoneName d.Gcp.DomainPrefix d.ID) w3 with ⟨_ | e4, w4⟩
    swap
    · -- the cloud answered the first run with an error: the zone was not removed
      exfalso
      cases hnf4 : P.isNotFound e4
      · have h1 := deleteDnsZoneCmd_fetched_err P World.backend arg s w1 w2 w3 w4 d e4
          hconn hgcp hget hz hnf4
        rw [hrun1] at h1
        simp only [Prod.mk.injEq] at h1
        obtain ⟨-, rfl⟩ := h1
        simp [eventsSince] at hmem1
      · have h1 := deleteDnsZoneCmd_fetched_eq P World.backend arg s w1 w2 w3 w4 d (some e4)
          hconn hgcp hget hz (Or.inr ⟨e4, rfl, hnf4⟩)
        rw [hrun1] at h1
        simp only [Prod.mk.injEq] at h1
        obtain ⟨-, rfl⟩ := h1
        simp only [eventsSince, List.drop_left] at hmem1
        split at hmem1 <;> simp at hmem1
    have h1 := deleteDnsZoneCmd_fetched_eq P World.backend arg s w1 w2 w3 w4 d none
      hconn hgcp hget hz (Or.inl rfl)
    rw [hrun1] at h1
    simp only [Prod.mk.injEq] at h1
    obtain ⟨-, hs1⟩ := h1
    rcases hd : World.backend.dnsDomainDelete d.ID w4 with ⟨_ | e5, w5⟩
    · exfalso
      rw [hd] at hs1
      subst hs1
      simp [eventsSince] at hmem2
    rw [hd] at hs1
    subst hs1
    simp [eventsSince] at hmem1 hmem2
    obtain ⟨rfl, rfl⟩ := hmem1
    obtain ⟨rfl, rfl⟩ := hmem2
    -- the world after the first run
    obtain ⟨hg1, hg2, -, hfind⟩ := World.dnsDomainGet_ok _ _ _ _ hget
    obtain ⟨hz1, -, hz3⟩ := World.managedZonesDelete_none _ _ _ _ hz
    obtain ⟨hd1, hd2, -⟩ := World.dnsDomainDelete_some _ _ _ _ hd
    simp only [] at hf
    have hfind5 : w5.records.find? (fun r => r.ID = arg) = some d := by
      rw [hd1, hz1, hg1]; exact hfind
    have hdmem : d ∈ w5.records := List.mem_of_find?_eq_some hfind5
    have habs : ∀ z ∈ w5.zones, ¬ (z.1 = d.Gcp.ProjectId ∧
        z.2.Name = FmtDnsZoneName d.Gcp.DomainPrefix d.ID) := by
      intro z hzmem
      rw [hd2, hz3, List.mem_filter] at hzmem
      have h2 := hzmem.2
      simp only [decide_not, Bool.not_eq_eq_eq_not, Bool.not_true,
        decide_eq_false_iff_not] at h2
      exact h2
    -- the second run
    have hc2 : World.backend.newConnection w5 = (none, w5) := World.plain_nil w5 hf
    have hg2' : World.backend.newGcpClient w5 = (none, w5) := World.plain_nil w5 hf
    have hget2 : World.backend.dnsDomainGet arg w5 = (.ok d, w5) :=
      World.dnsDomainGet_found arg d w5 hf hfind5
    have hz2 : World.backend.managedZonesDelete d.Gcp.ProjectId
        (FmtDnsZoneName d.Gcp.DomainPrefix d.ID) w5 =
        (some (World.zoneNotFound (FmtDnsZoneName d.Gcp.DomainPrefix d.ID)), w5) :=
      World.managedZonesDelete_absent _ _ w5 hf habs
    have hd2' : World.backend.dnsDomainDelete d.ID w5 =
        (none, { w5 with records := (w5.records.filter (fun r => ¬ r.ID = d.ID)) }) :=
      World.dnsDomainDelete_present d.ID w5 hf ⟨d, hdmem, rfl⟩
    have h2 : ∀ evs, deleteDnsZoneCmd P World.backend [arg] ⟨w5, evs⟩ = _ := fun evs =>
      deleteDnsZoneCmd_fetched_eq P World.backend arg
        ⟨w5, evs⟩ w5 w5 w5 w5 d _ hc2 hg2' hget2 hz2 (Or.inr ⟨_, rfl, hnf _⟩)
    simp only [hd2'] at h2
    refine ⟨d, rfl, rfl, rfl, ?_, ?_⟩
    · rw [h2]
      simp
    · rw [h2]
      intro r hr
      simp only [List.mem_filter] at hr
      simpa using hr.2
  · -- the first run succeeded
    intro hres hf
    subst hres
    rcases deleteDnsZoneCmd_reach P World.backend [arg] s with
      ⟨hne, -⟩ | ⟨arg', d, w1, w2, w3, hargv, hconn, hgcp, hget⟩
    · rw [hrun1] at hne
      exact absurd rfl hne
    simp only [List.cons.injEq, and_true] at hargv
    subst hargv
    obtain ⟨hg1, -, -, hfind⟩ := World.dnsDomainGet_ok _ _ _ _ hget
    have hid : d.ID = arg := by
      have := List.find?_some hfind
      simpa using this
    rcases hz : World.backend.managedZonesDelete d.Gcp.ProjectId
      (FmtDnsZoneName d.Gcp.DomainPrefix d.ID) w3 with ⟨outz, w4⟩
    have hok : outz = none ∨ ∃ e, outz = some e ∧ P.isNotFound e = true := by
      cases outz with
      | none => exact Or.inl rfl
      | some e4 =>
        cases hnf4 : P.isNotFound e4
        · exfalso
          have h1 := deleteDnsZoneCmd_fetched_err P World.backend arg s w1 w2 w3 w4 d e4
            hconn hgcp hget hz hnf4
          rw [hrun1] at h1
          simp at h1
        · exact Or.inr ⟨e4, rfl, hnf4⟩
    have h1 := deleteDnsZoneCmd_fetched_eq P World.backend arg s w1 w2 w3 w4 d outz
      hconn hgcp hget hz hok
    rw [hrun1] at h1
    simp only [Prod.mk.injEq] at h1
    obtain ⟨hr1, hs1⟩ := h1
    rcases hd : World.backend.dnsDomainDelete d.ID w4 with ⟨_ | e5, w5⟩
    swap
    · rw [hd] at hr1
      simp at hr1
    rw [hd] at hs1
    subst hs1
    simp only [] at hf
    obtain ⟨hd1, -, -⟩ := World.dnsDomainDelete_none _ _ _ hd
    have habs : ∀ r ∈ w5.records, r.ID ≠ arg := by
      intro r hr
      rw [hd1, List.mem_filter] at hr
      rw [← hid]
      simpa using hr.2
    have hc2 : World.backend.newConnection w5 = (none, w5) := World.plain_nil w5 hf
    have hg2' : World.backend.newGcpClient w5 = (none, w5) := World.plain_nil w5 hf
    have hget2 : World.backend.dnsDomainGet arg w5 = (.error (World.recordNotFound arg), w5) :=
      World.dnsDomainGet_absent arg w5 hf habs
    simp [deleteDnsZoneCmd, getDnsDomain, issue, issue0, note, errOf, hc2, hg2', hget2]

/-- After a first delete run that removed the zone and failed on the record,
the second run returns no error; after a first run that succeeded, the second
run ends with the control plane's "not found". -/
theorem deleteDnsZoneCmd_twice_witness :
    (deleteDnsZoneCmd samplePkg World.backend ["abc123"]
        (deleteDnsZoneCmd samplePkg World.backend ["abc123"] recordDeleteRefusedWorld).2).1
        = none ∧
      (deleteDnsZoneCmd samplePkg World.backend ["abc123"]
        (deleteDnsZoneCmd samplePkg World.backend ["abc123"] (provisionedWorld [])).2).1
        = some (Wrapf (Wrap (World.recordNotFound "abc123") "failed to get dns-zone")
            "failed to get dns-domain") := by
  constructor
  · obtain ⟨-, h, -⟩ := deleteDnsZoneCmd_twice samplePkg (fun _ => rfl) "abc123"
      recordDeleteRefusedWorld
      (deleteDnsZoneCmd samplePkg World.backend ["abc123"] recordDeleteRefusedWorld).2
      (deleteDnsZoneCmd samplePkg World.backend ["abc123"] recordDeleteRefusedWorld).1 rfl
    obtain ⟨d, -, -, -, h2, -⟩ := h "my-project" "my-domain-abc123" "abc123" (.ext 500 "boom")
      (by decide) (by decide) rfl
    rw [h2]
  · obtain ⟨-, -, h⟩ := deleteDnsZoneCmd_twice samplePkg (fun _ => rfl) "abc123"
      (provisionedWorld [])
      (deleteDnsZoneCmd samplePkg World.backend ["abc123"] (provisionedWorld [])).2
      (deleteDnsZoneCmd samplePkg World.backend ["abc123"] (provisionedWorld [])).1 rfl
    rw [h rfl rfl]

/-! ## The naming helpers -/

/-- Replacing one character by one character is a map over the characters. -/
theorem replaceAllAux_char (a b : Char) (l : List Char) :
    replaceAllAux [a] [b] 0 l = l.map (fun c => if c = a then b else c) := by
  induction l with
  | nil => rfl
  | cons c cs ih =>
    by_cases h : c = a
    · subst h
      simp [replaceAllAux, List.isPrefixOf, ih]
    · have h' : ¬ a = c := fun e => h e.symm
      simp [replaceAllAux, List.isPrefixOf, ih, h, h']

/-- `ReplaceAll s "." "-"` on the characters. -/
theorem ReplaceAll_dot_dash (s : String) :
    (ReplaceAll s "." "-").data = s.data.map (fun c => if c = '.' then '-' else c) := by
  have h : ("." : String).data ≠ [] := by decide
  unfold ReplaceAll
  rw [if_neg h]
  exact replaceAllAux_char '.' '-' s.data

/-- C16: for all strings, `FmtDnsZoneName` is the domain prefix, a "." and
the identifier with every '.' replaced by '-'; the result has no '.', as many
characters and as many bytes as the two parts and the separator together; and
("my-domain", "abc123") gives "my-domain-abc123". -/
theorem FmtDnsZoneName_spec (domainPrefix id : String) :
    (FmtDnsZoneName domainPrefix id).data =
        (domainPrefix ++ "." ++ id).data.map (fun c => if c = '.' then '-' else c) ∧
      '.' ∉ (FmtDnsZoneName domainPrefix id).data ∧
      (FmtDnsZoneName domainPrefix id).length = domainPrefix.length + 1 + id.length ∧
      len (FmtDnsZoneName domainPrefix id) = len domainPrefix + 1 + len id ∧
      FmtDnsZoneName "my-domain" "abc123" = "my-domain-abc123" := by
  have h : (FmtDnsZoneName domainPrefix id).data =
      (domainPrefix ++ "." ++ id).data.map (fun c => if c = '.' then '-' else c) :=
    ReplaceAll_dot_dash _
  refine ⟨h, ?_, ?_, ?_, by decide⟩
  · rw [h]
    intro hmem
    obtain ⟨c, -, hc⟩ := List.mem_map.1 hmem
    by_cases hdot : c = '.'
    · rw [if_pos hdot] at hc
      exact absurd hc (by decide)
    · rw [if_neg hdot] at hc
      exact hdot hc
  · show (FmtDnsZoneName domainPrefix id).data.length =
      domainPrefix.data.length + 1 + id.data.length
    rw [h, List.length_map]
    simp only [String.data_append, List.length_append]
    rfl
  · unfold len
    rw [h]
    have hsize : ∀ l : List Char,
        ((l.map (fun c => if c = '.' then '-' else c)).map (fun c => c.utf8Size)).sum =
          (l.map (fun c => c.utf8Size)).sum := by
      intro l
      induction l with
      | nil => rfl
      | cons c cs ih =>
        by_cases hdot : c = '.'
        · subst hdot
          simp only [List.map_cons, List.sum_cons, if_true, ih]
          rfl
        · simp only [List.map_cons, List.sum_cons, if_neg hdot, ih]
    rw [hsize]
    simp only [String.data_append, List.map_append, List.sum_append]
    rfl

/-- C17: for all strings, `FmtDnsName` is the domain prefix, a ".", the
identifier and a trailing "."; it ends in '.', and without its last character
and with every '.' replaced by '-' it is `FmtDnsZoneName` of the same
arguments; ("my-domain", "abc123") gives "my-domain.abc123.". -/
theorem FmtDnsName_spec (domainPrefix id : String) :
    FmtDnsName domainPrefix id = domainPrefix ++ "." ++ id ++ "." ∧
      (FmtDnsName domainPrefix id).data.getLast? = some '.' ∧
      ReplaceAll ⟨(FmtDnsName domainPrefix id).data.dropLast⟩ "." "-" =
        FmtDnsZoneName domainPrefix id ∧
      FmtDnsName "my-domain" "abc123" = "my-domain.abc123." := by
  have hd : (FmtDnsName domainPrefix id).data = (domainPrefix ++ "." ++ id).data ++ ['.'] := by
    unfold FmtDnsName
    simp only [String.data_append]
  refine ⟨rfl, ?_, ?_, by decide⟩
  · rw [hd, List.getLast?_concat]
  · have : (⟨(FmtDnsName domainPrefix id).data.dropLast⟩ : String) =
        domainPrefix ++ "." ++ id := by
      rw [hd, List.dropLast_concat]
    rw [this]
    rfl

/-- The create operation, once the control plane has answered with the record
`d`, next submits the zone of `d` built with the network project of the
arguments. -/
theorem createDnsDomainCmd_zone_event {σ : Type} (P : Pkg) (B : Backend σ) (args : Args)
    (s : Run σ) (w1 w2 w3 : σ) (d : DNSDomain)
    (hconn : B.newConnection s.world = (none, w1))
    (hgcp : B.newGcpClient w1 = (none, w2))
    (hadd : B.dnsDomainsAdd (recordInput P args.DomainPrefix args.ProjectId args.NetworkId) w2
      = (.ok d, w3)) :
    ∃ rest,
      eventsSince s (createDnsDomainCmd P B args s).2 =
        [⟨.newConnection, none⟩, ⟨.newGcpClient, none⟩,
         ⟨.dnsDomainsAdd (recordInput P args.DomainPrefix args.ProjectId args.NetworkId), none⟩,
         ⟨.managedZonesCreate d.Gcp.ProjectId (zoneOf d args.NetworkProjectId),
           errOf (B.managedZonesCreate d.Gcp.ProjectId (zoneOf d args.NetworkProjectId) w3).1⟩]
          ++ rest := by
  rw [createDnsDomainCmd_added P B args s w1 w2 w3 d hconn hgcp hadd]
  generalize hs3 : (⟨w3, s.events ++ [⟨.newConnection, none⟩] ++ [⟨.newGcpClient, none⟩] ++
    [⟨.dnsDomainsAdd (recordInput P args.DomainPrefix args.ProjectId args.NetworkId),
      none⟩]⟩ : Run σ) = s3
  have hz := CreateDnsZone_events P B d args.NetworkProjectId s3
  have hw3 : s3.world = w3 := by rw [← hs3]
  have he3 : s3.events = s.events ++ [⟨.newConnection, none⟩, ⟨.newGcpClient, none⟩,
    ⟨.dnsDomainsAdd (recordInput P args.DomainPrefix args.ProjectId args.NetworkId),
      none⟩] := by rw [← hs3]; simp
  rw [hw3] at hz
  generalize CreateDnsZone P B d args.NetworkProjectId s3 = r at hz
  obtain ⟨r1, s4⟩ := r
  simp only [] at hz
  cases r1 with
  | error err =>
    simp only []
    have hd := deleteDnsDomain_events B d.ID s4
    generalize deleteDnsDomain B d.ID s4 = r' at hd
    obtain ⟨r1', s5⟩ := r'
    simp only [] at hd
    refine ⟨[⟨.dnsDomainDelete d.ID, (B.dnsDomainDelete d.ID s4.world).1⟩,
      ⟨.connectionClose, none⟩], ?_⟩
    apply eventsSince_append
    cases r1' <;> simp [note, hd, hz, he3]
  | ok z =>
    simp only []
    obtain ⟨l, hl, -⟩ := describeDnsZoneCmd_events B [d.ID] s4
    generalize describeDnsZoneCmd B [d.ID] s4 = r' at hl
    obtain ⟨r1', s5⟩ := r'
    simp only [] at hl
    refine ⟨l ++ [⟨.connectionClose, none⟩], ?_⟩
    apply eventsSince_append
    cases r1' <;> simp [note, hl, hz, he3]

/-- The network locator determines the project it was built from. -/
theorem FmtNetworkResourceId_project (p h n : String)
    (e : FmtNetworkResourceId p n = FmtNetworkResourceId h n) : p = h := by
  have e' := congrArg String.data e
  simp only [FmtNetworkResourceId, String.data_append, List.append_assoc] at e'
  have e'' := List.append_cancel_left e'
  have e3 := List.append_cancel_right e''
  exact String.ext e3

/-- C18: for every record `d` and network project `h`, `CreateDnsZone` submits
to `d`'s project a zone that is private and references exactly one network,
whose locator is `FmtNetworkResourceId h` of `d`'s network, that is the fixed
address, `h`, "/global/networks/" and the network; the locator is that of no
other project than `h`; and the create command passes its network project
argument as `h`. -/
theorem CreateDnsZone_private_network {σ : Type} (P : Pkg) (B : Backend σ) (d : DNSDomain)
    (h : String) (s : Run σ) :
    ∃ z out,
      eventsSince s (CreateDnsZone P B d h s).2 = [⟨.managedZonesCreate d.Gcp.ProjectId z, out⟩] ∧
      z.Visibility = "private" ∧
      z.Networks = [FmtNetworkResourceId h d.Gcp.NetworkId] ∧
      FmtNetworkResourceId h d.Gcp.NetworkId =
        "https://compute.googleapis.com/compute/v1/projects/" ++ h ++ "/global/networks/" ++
          d.Gcp.NetworkId ∧
      (∀ p, FmtNetworkResourceId p d.Gcp.NetworkId = FmtNetworkResourceId h d.Gcp.NetworkId →
        p = h) ∧
      (∀ (args : Args) (s0 : Run σ) (w1 w2 w3 : σ) (d' : DNSDomain),
        B.newConnection s0.world = (none, w1) → B.newGcpClient w1 = (none, w2) →
        B.dnsDomainsAdd (recordInput P args.DomainPrefix args.ProjectId args.NetworkId) w2
          = (.ok d', w3) →
        ∃ z' out' rest,
          eventsSince s0 (createDnsDomainCmd P B args s0).2 =
            [⟨.newConnection, none⟩, ⟨.newGcpClient, none⟩,
             ⟨.dnsDomainsAdd (recordInput P args.DomainPrefix args.ProjectId args.NetworkId),
               none⟩,
             ⟨.managedZonesCreate d'.Gcp.ProjectId z', out'⟩] ++ rest ∧
          z'.Visibility = "private" ∧
          z'.Networks = [FmtNetworkResourceId args.NetworkProjectId d'.Gcp.NetworkId]) := by
  refine ⟨zoneOf d h, _, eventsSince_append _ _ _ (CreateDnsZone_events P B d h s), rfl, rfl, rfl,
    fun p e => FmtNetworkResourceId_project p h _ e, ?_⟩
  intro args s0 w1 w2 w3 d' hconn hgcp hadd
  obtain ⟨rest, hrest⟩ := createDnsDomainCmd_zone_event P B args s0 w1 w2 w3 d' hconn hgcp hadd
  exact ⟨zoneOf d' args.NetworkProjectId, _, rest, hrest, rfl, rfl⟩

/-- On the sample world the zone of the create command is private and
references the network of the network project, not of the zone's project. -/
theorem CreateDnsZone_private_network_witness :
    ∃ z' out' rest,
      eventsSince (sampleWorld []) (createDnsDomainCmd samplePkg World.backend sampleArgs
          (sampleWorld [])).2 =
        [⟨.newConnection, none⟩, ⟨.newGcpClient, none⟩,
         ⟨.dnsDomainsAdd (recordInput samplePkg "my-domain" "my-project" "my-network"), none⟩,
         ⟨.managedZonesCreate "my-project" z', out'⟩] ++ rest ∧
      z'.Visibility = "private" ∧
      z'.Networks = ["https://compute.googleapis.com/compute/v1/projects/" ++
        "my-network-project/global/networks/my-network"] := by
  obtain ⟨-, -, -, -, -, -, -, h⟩ :=
    CreateDnsZone_private_network samplePkg World.backend sampleRecord "my-network-project"
      (sampleWorld [])
  obtain ⟨z', out', rest, h1, h2, h3⟩ := h sampleArgs (sampleWorld []) _ _ _ _ rfl rfl rfl
  exact ⟨z', out', rest, h1, h2, by rw [h3]; decide⟩

/-! ## Random numbers -/

theorem wrap64_of_range (x : Int) (h0 : -9223372036854775808 ≤ x)
    (h1 : x < 9223372036854775808) : wrap64 x = x := by
  unfold wrap64
  omega

/-- For a bound that fits 64 bits, `randIntN` returns a value from zero up to,
and not including, the bound. -/
theorem randIntN_lt (raw : Nat) (maxN : Int) (h1 : 1 ≤ maxN) (h2 : maxN < 9223372036854775808) :
    ∃ r, randIntN (.ok raw) maxN = .ok r ∧ 0 ≤ r ∧ r < maxN := by
  have hw : wrap64 maxN = maxN := wrap64_of_range maxN (by omega) h2
  have hr0 : 0 ≤ (raw : Int) % maxN := Int.emod_nonneg _ (by omega)
  have hr1 : (raw : Int) % maxN < maxN := Int.emod_lt_of_pos _ (by omega)
  refine ⟨(raw : Int) % maxN, ?_, hr0, hr1⟩
  unfold randIntN randInt
  rw [hw, if_neg (by omega)]
  by_cases hm : maxN = 1
  · rw [if_pos hm]
    simp only []
    rw [wrap64_of_range _ (by omega) (by omega)]
    congr 1
    omega
  · rw [if_neg hm]
    simp only []
    rw [wrap64_of_range _ (by omega) (by omega)]

/-- C20, the code at the bound 1 and at the bound 250 of the jitter: with the
bound 1 `randIntN` returns 0 whatever the reader supplies, never 1; with the
bound 250 it never returns 250 and returns 0 when the reader supplies 0 or
500: its values are those of `[0, N)`, not of `(0, N]`. -/
theorem randIntN_zero_based :
    (∀ raw : Nat, randIntN (.ok raw) 1 = .ok 0) ∧
      (∀ raw : Nat, randIntN (.ok raw) 250 ≠ .ok 250) ∧
      randIntN (.ok 0) 250 = .ok 0 ∧ randIntN (.ok 500) 250 = .ok 0 ∧
      randIntN (.ok 249) 250 = .ok 249 := by
  refine ⟨?_, ?_, rfl, rfl, rfl⟩
  · intro raw
    obtain ⟨r, hr, h0, h1⟩ := randIntN_lt raw 1 (by omega) (by omega)
    rw [hr]
    congr 1
    omega
  · intro raw h
    obtain ⟨r, hr, h0, h1⟩ := randIntN_lt raw 250 (by omega) (by omega)
    rw [hr] at h
    simp only [Except.ok.injEq] at h
    omega

/-! ## The filter of `GetEnabledVersions` -/

theorem splitAux_dash_head (l cur : List Char) :
    (splitAux ['-'] 0 cur l).head? = some (cur ++ l.takeWhile (fun c => c ≠ '-')) := by
  induction l generalizing cur with
  | nil => simp [splitAux]
  | cons c cs ih =>
    by_cases h : c = '-'
    · subst h
      simp [splitAux, List.isPrefixOf]
    · have h' : ¬ '-' = c := fun e => h e.symm
      simp [splitAux, List.isPrefixOf, h, h', ih]

/-- The first part of a channel split at "-" is its text before the first '-'. -/
theorem Split_dash_first (channel : String) :
    (match Split channel "-" with
      | part :: _ => part
      | [] => "") = channelGroupOf channel := by
  have hsep : ("-" : String).data ≠ [] := by decide
  have hh := splitAux_dash_head channel.data []
  unfold Split
  rw [if_neg hsep]
  show (match (splitAux ['-'] 0 [] channel.data).map String.mk with
      | part :: _ => part
      | [] => "") = channelGroupOf channel
  cases hs : splitAux ['-'] 0 [] channel.data with
  | nil => rw [hs] at hh; simp at hh
  | cons a as =>
    rw [hs] at hh
    simp only [List.head?_cons, Option.some.injEq, List.nil_append] at hh
    simp only [List.map_cons, channelGroupOf, hh]

/-- `GetEnabledVersions` reads the pages with `searchFilter`. -/
theorem GetEnabledVersions_eq {σ : Type} (fuel : Nat) (client : VersionsClient σ)
    (channel channelGroup gcpMarketplaceEnabled additionalFilters : String)
    (s : VersionsRun σ) :
    GetEnabledVersions fuel client channel channelGroup gcpMarketplaceEnabled
        additionalFilters s =
      match versionsPages client
          (searchFilter channel channelGroup gcpMarketplaceEnabled additionalFilters)
          100 fuel 1 [] "" s with
      | (some (.ok (versions, defaultVersion)), s1) =>
        (some (.ok (client.sortSlice versions, defaultVersion)), s1)
      | (r, s1) => (r, s1) := rfl

/-- Every request of the page loop carries the filter, and the loop sends a
request unless it may not read any page. -/
theorem versionsPages_requests {σ : Type} (client : VersionsClient σ) (filter : String)
    (size : Int) (fuel : Nat) (page : Int) (versions : List String) (defaultVersion : String)
    (s : VersionsRun σ) :
    ∃ l, (versionsPages client filter size fuel page versions defaultVersion s).2.requests =
        s.requests ++ l ∧ (∀ r ∈ l, r.Search = filter) ∧ (1 ≤ fuel → l ≠ []) := by
  induction fuel generalizing page versions defaultVersion s with
  | zero => exact ⟨[], by simp [versionsPages], by simp, by simp⟩
  | succ n ih =>
    unfold versionsPages
    rcases hl : client.list ⟨filter, page, size⟩ s.world with ⟨e | response, w⟩
    · exact ⟨[⟨filter, page, size⟩], rfl, by simp, by simp⟩
    · simp only []
      split
      · exact ⟨[⟨filter, page, size⟩], rfl, by simp, by simp⟩
      · obtain ⟨l, h1, h2, -⟩ := ih (page + 1) _ _ ⟨w, s.requests ++ [⟨filter, page, size⟩]⟩
        refine ⟨⟨filter, page, size⟩ :: l, ?_, ?_, by simp⟩
        · rw [h1]
          simp
        · intro r hr
          rcases List.mem_cons.1 hr with rfl | hr
          · rfl
          · exact h2 r hr

theorem searchFilter_channel (channel channelGroup gcp additional : String)
    (hc : channel ≠ "") (hg : channelGroupOf channel ≠ "") :
    searchFilter channel channelGroup gcp additional =
      filterHead gcp ++ channelGroupClause (channelGroupOf channel) ++ filterTail additional := by
  unfold searchFilter
  simp only [if_pos hc, Split_dash_first, if_pos hg, filterHead, filterTail,
    channelGroupClause]
  by_cases ha : additional = "" <;> by_cases hm : gcp = "" <;>
    simp only [ha, hm, ne_eq, not_true_eq_false, not_false_eq_true, if_true, if_false,
      eq_self_iff_true, String.append_assoc, String.append_empty]

theorem searchFilter_channel_empty_group (channel channelGroup gcp additional : String)
    (hc : channel ≠ "") (hg : channelGroupOf channel = "") :
    searchFilter channel channelGroup gcp additional = filterHead gcp ++ filterTail additional := by
  unfold searchFilter
  simp only [if_pos hc, Split_dash_first, hg, filterHead, filterTail]
  by_cases ha : additional = "" <;> by_cases hm : gcp = "" <;>
    simp only [ha, hm, ne_eq, not_true_eq_false, not_false_eq_true, if_true, if_false,
      eq_self_iff_true, String.append_assoc, String.append_empty]

theorem searchFilter_group (channelGroup gcp additional : String) (hg : channelGroup ≠ "") :
    searchFilter "" channelGroup gcp additional =
      filterHead gcp ++ channelGroupClause channelGroup ++ filterTail additional := by
  unfold searchFilter
  simp only [ne_eq, not_true_eq_false, if_false, if_pos hg, filterHead, filterTail,
    channelGroupClause]
  by_cases ha : additional = "" <;> by_cases hm : gcp = "" <;>
    simp only [ha, hm, ne_eq, not_true_eq_false, not_false_eq_true, if_true, if_false,
      eq_self_iff_true, String.append_assoc, String.append_empty]

theorem searchFilter_none (gcp additional : String) :
    searchFilter "" "" gcp additional = filterHead gcp ++ filterTail additional := by
  unfold searchFilter
  simp only [ne_eq, not_true_eq_false, if_false, filterHead, filterTail]
  by_cases ha : additional = "" <;> by_cases hm : gcp = "" <;>
    simp only [ha, hm, ne_eq, not_true_eq_false, not_false_eq_true, if_true, if_false,
      eq_self_iff_true, String.append_assoc, String.append_empty]

theorem filterHead_enabled (gcp : String) :
    ("enabled = 'true'" : String).data <+: (filterHead gcp).data := by
  unfold filterHead
  split
  · simp only [String.data_append, List.append_assoc]
    exact List.prefix_append _ _
  · exact List.prefix_refl _

/-- C19, as stated, fails for a channel that begins with '-': for the channel
"-4.19" and the channel group "stable" the one request sent searches with
"enabled = 'true'" alone, which restricts no channel group. -/
theorem GetEnabledVersions_channel_counterexample :
    (GetEnabledVersions 1 sampleVersions "-4.19" "stable" "" "" ⟨(), []⟩).2.requests =
        [⟨"enabled = 'true'", 1, 100⟩] ∧
      channelGroupOf "-4.19" = "" ∧
      ¬ Contains "enabled = 'true'" "channel_group" := by
  decide

/-- C19, amended: every list request of `GetEnabledVersions` searches with one
filter `F`, which starts with "enabled = 'true'".  For a non-empty channel
whose text before the first '-' is not empty, `F` restricts `channel_group` to
that text, whatever the channel group argument is; for a non-empty channel
whose text before the first '-' is empty, `F` has no channel group clause and
the channel group argument is not used either; the channel group argument is
used only when the channel is empty. -/
theorem GetEnabledVersions_filter {σ : Type} (fuel : Nat) (client : VersionsClient σ)
    (channel channelGroup gcpMarketplaceEnabled additionalFilters : String)
    (s : VersionsRun σ) :
    ∃ F l,
      (GetEnabledVersions fuel client channel channelGroup gcpMarketplaceEnabled
        additionalFilters s).2.requests = s.requests ++ l ∧
      (1 ≤ fuel → l ≠ []) ∧
      (∀ r ∈ l, r.Search = F) ∧
      ("enabled = 'true'" : String).data <+: F.data ∧
      (channel ≠ "" → channelGroupOf channel ≠ "" →
        F = filterHead gcpMarketplaceEnabled ++ channelGroupClause (channelGroupOf channel) ++
          filterTail additionalFilters) ∧
      (channel ≠ "" → channelGroupOf channel = "" →
        F = filterHead gcpMarketplaceEnabled ++ filterTail additionalFilters) ∧
      (channel = "" → channelGroup ≠ "" →
        F = filterHead gcpMarketplaceEnabled ++ channelGroupClause channelGroup ++
          filterTail additionalFilters) ∧
      (channel = "" → channelGroup = "" →
        F = filterHead gcpMarketplaceEnabled ++ filterTail additionalFilters) := by
  obtain ⟨l, h1, h2, h3⟩ := versionsPages_requests client
    (searchFilter channel channelGroup gcpMarketplaceEnabled additionalFilters) 100 fuel 1 [] "" s
  have hreq : (GetEnabledVersions fuel client channel channelGroup gcpMarketplaceEnabled
      additionalFilters s).2.requests = s.requests ++ l := by
    rw [GetEnabledVersions_eq, ← h1]
    generalize versionsPages client _ 100 fuel 1 [] "" s = r
    obtain ⟨_ | ⟨e | ⟨vs, dv⟩⟩, s1⟩ := r <;> rfl
  have e1 : channel ≠ "" → channelGroupOf channel ≠ "" → _ :=
    searchFilter_channel channel channelGroup gcpMarketplaceEnabled additionalFilters
  have e2 : channel ≠ "" → channelGroupOf channel = "" → _ :=
    searchFilter_channel_empty_group channel channelGroup gcpMarketplaceEnabled
      additionalFilters
  refine ⟨_, l, hreq, h3, h2, ?_, e1, e2, ?_, ?_⟩
  · have hp := filterHead_enabled gcpMarketplaceEnabled
    by_cases hc : channel = ""
    · by_cases hg : channelGroup = ""
      · subst hc hg
        rw [searchFilter_none, String.data_append]
        exact hp.trans (List.prefix_append _ _)
      · subst hc
        rw [searchFilter_group _ _ _ hg, String.data_append, String.data_append,
          List.append_assoc]
        exact hp.trans (List.prefix_append _ _)
    · by_cases hg : channelGroupOf channel = ""
      · rw [e2 hc hg, String.data_append]
        exact hp.trans (List.prefix_append _ _)
      · rw [e1 hc hg, String.data_append, String.data_append, List.append_assoc]
        exact hp.trans (List.prefix_append _ _)
  · intro hc hg
    subst hc
    exact searchFilter_group _ _ _ hg
  · intro hc hg
    subst hc hg
    exact searchFilter_none _ _

/-- For the channel "stable-4.19" and the channel group "candidate" every
request restricts the channel group to "stable". -/
theorem GetEnabledVersions_filter_witness :
    ∀ r ∈ (GetEnabledVersions 1 sampleVersions "stable-4.19" "candidate" "" ""
        ⟨(), []⟩).2.requests,
      r.Search = "enabled = 'true' AND channel_group = 'stable'" := by
  obtain ⟨F, l, h1, -, h3, -, h4, -⟩ :=
    GetEnabledVersions_filter 1 sampleVersions "stable-4.19" "candidate" "" "" ⟨(), []⟩
  have hF := h4 (by decide) (by decide)
  intro r hr
  rw [h1] at hr
  rw [h3 r (by simpa using hr), hF]
  decide

/-! ## The retrier -/

theorem randIntN_250 (raw : Except Error Nat) (j : Int) (h : randIntN raw 250 = .ok j) :
    0 ≤ j ∧ j < 250 := by
  cases raw with
  | error e => simp [randIntN, randInt, wrap64] at h
  | ok r =>
    obtain ⟨r', hr, h0, h1⟩ := randIntN_lt r 250 (by omega) (by omega)
    rw [hr] at h
    simp only [Except.ok.injEq] at h
    subst h
    exact ⟨h0, h1⟩

theorem two_pow_bounds (n : Nat) (hn : n ≤ 33) :
    (1 : Int) ≤ 2 ^ n ∧ (2 : Int) ^ n ≤ 8589934592 := by
  constructor
  · exact one_le_pow₀ (by norm_num)
  · have h : (2 : Int) ^ n ≤ 2 ^ 33 := pow_le_pow_right₀ (by norm_num) hn
    norm_num at h
    exact h

theorem two_pow_large (n : Nat) (hn : 34 ≤ n) : (17179869184 : Int) ≤ 2 ^ n := by
  have h : (2 : Int) ^ 34 ≤ 2 ^ n := pow_le_pow_right₀ (by norm_num) hn
  norm_num at h
  exact h

/-- After `n` sleeps the loop has been running for at least `2 ^ n - 1`
seconds, so with a deadline that fits 64 bits there are at most 33 of them. -/
theorem sleeps_le (n : Nat) (now deadline : Int) (h1 : (2 ^ n - 1) * Second ≤ now)
    (h2 : now ≤ deadline) (hd : deadline < 9223372036854775808) : n ≤ 33 := by
  by_contra hn
  have h := two_pow_large n (by omega)
  generalize (2 : Int) ^ n = P at h h1
  unfold Second at h1
  omega

/-- The loop, entered after `n` sleeps with `backoffSeconds = 2 ^ n` no later
than the deadline, ends within `34 - n` turns, and what it does is a run with
exact backoffs: no 64-bit operation of the loop overflows. -/
theorem retryLoop_ran {σ : Type} (env : Retrier σ) (deadline : Int) (log : Bool)
    (hd : deadline < 9223372036854775808) :
    ∀ (fuel n : Nat) (now : Int) (op : σ), (2 ^ n - 1) * Second ≤ now → now ≤ deadline →
      34 ≤ fuel + n →
      ∃ exit fin rounds,
        retryLoop env deadline log fuel n (2 ^ n) now op = some (exit, fin, rounds) ∧
        Ran env deadline log n now op exit fin rounds ∧ rounds.length + n ≤ 34 := by
  intro fuel
  induction fuel with
  | zero =>
    intro n now op h1 h2 h3
    have := sleeps_le n now deadline h1 h2 hd
    omega
  | succ fuel ih =>
    intro n now op h1 h2 h3
    have hn := sleeps_le n now deadline h1 h2 hd
    obtain ⟨hP1, hP2⟩ := two_pow_bounds n hn
    have hsucc : (2 : Int) ^ (n + 1) = 2 ^ n * 2 := pow_succ 2 n
    simp only [retryLoop]
    by_cases hr : (env.f now op).1.retry = false
    · rw [if_pos hr]
      exact ⟨_, _, _, rfl, Ran.stop n now op hr, by simp; omega⟩
    rw [if_neg hr]
    have hr' : (env.f now op).1.retry = true := by simpa using hr
    by_cases hdl : deadline ≤ now + ((env.f now op).1.took : Int)
    · rw [if_pos hdl]
      exact ⟨_, _, _, rfl, Ran.elapsed n now op hr' hdl, by simp; omega⟩
    rw [if_neg hdl]
    cases hj : randIntN (env.reader n) 250 with
    | error msg =>
      exact ⟨_, _, _, rfl, Ran.panic n now op msg hr' (by omega) hj, by simp; omega⟩
    | ok j =>
      obtain ⟨hj0, hj1⟩ := randIntN_250 _ _ hj
      have e1 : wrap64 (wrap64 j * Millisecond) = j * Millisecond := by
        unfold wrap64 Millisecond; omega
      have e2 : wrap64 (j * Millisecond + wrap64 (wrap64 (2 ^ n) * Second)) =
          2 ^ n * Second + j * Millisecond := by
        generalize (2 : Int) ^ n = P at hP1 hP2
        unfold wrap64 Millisecond Second; omega
      have e3 : max (2 ^ n * Second + j * Millisecond) 0 = 2 ^ n * Second + j * Millisecond := by
        generalize (2 : Int) ^ n = P at hP1 hP2
        unfold Millisecond Second; omega
      have e4 : wrap64 (2 ^ n * 2) = 2 ^ (n + 1) := by
        rw [hsucc]
        generalize (2 : Int) ^ n = P at hP1 hP2
        unfold wrap64; omega
      simp only [e1, e2, e3, e4]
      by_cases hc : deadline < now + ((env.f now op).1.took : Int) +
          (2 ^ n * Second + j * Millisecond) ∨
          (deadline = now + ((env.f now op).1.took : Int) + (2 ^ n * Second + j * Millisecond) ∧
            env.tie n = true)
      · rw [if_pos hc]
        exact ⟨_, _, _, rfl, Ran.cross n now op j hr' (by omega) hj hc, by simp; omega⟩
      rw [if_neg hc]
      have hle : now + ((env.f now op).1.took : Int) + (2 ^ n * Second + j * Millisecond)
          ≤ deadline := by
        by_contra hlt
        exact hc (Or.inl (by omega))
      have hinv : (2 ^ (n + 1) - 1) * Second ≤
          now + ((env.f now op).1.took : Int) + (2 ^ n * Second + j * Millisecond) := by
        rw [hsucc]
        generalize (2 : Int) ^ n = P at hP1 hP2 h1
        unfold Millisecond Second at *
        omega
      obtain ⟨exit, fin, rounds, hl, hran, hlen⟩ :=
        ih (n + 1) _ (env.f now op).2 hinv hle (by omega)
      rw [hl]
      exact ⟨exit, fin, _, rfl, Ran.next n now op j exit fin rounds hr' (by omega) hj hc hran,
        by simp; omega⟩

theorem retryDeadline_range (timeoutSeconds : Int) :
    0 ≤ retryDeadline timeoutSeconds ∧ retryDeadline timeoutSeconds < 9223372036854775808 := by
  unfold retryDeadline wrap64
  omega

theorem retryDeadline_eq (timeoutSeconds : Int) (h1 : -9223372036 ≤ timeoutSeconds)
    (h2 : timeoutSeconds ≤ 9223372036) :
    retryDeadline timeoutSeconds = max (timeoutSeconds * Second) 0 := by
  have e1 : wrap64 timeoutSeconds = timeoutSeconds :=
    wrap64_of_range _ (by omega) (by omega)
  have e2 : wrap64 (timeoutSeconds * Second) = timeoutSeconds * Second :=
    wrap64_of_range _ (by unfold Second; omega) (by unfold Second; omega)
  unfold retryDeadline
  rw [e1, e2]

/-- With enough turns allowed, `RetryWithBackoffandTimeout` ends, within 34
turns, and what it does is a run with exact backoffs. -/
theorem RetryWithBackoffandTimeout_ran {σ : Type} (fuel : Nat) (env : Retrier σ)
    (timeoutSeconds : Int) (log : Bool) (op : σ) (hf : 34 ≤ fuel) :
    ∃ exit fin rounds,
      RetryWithBackoffandTimeout fuel env timeoutSeconds log op = some (exit, fin, rounds) ∧
      Ran env (retryDeadline timeoutSeconds) log 0 0 op exit fin rounds ∧
      rounds.length ≤ 34 := by
  obtain ⟨h0, h1⟩ := retryDeadline_range timeoutSeconds
  obtain ⟨exit, fin, rounds, hl, hran, hlen⟩ :=
    retryLoop_ran env (retryDeadline timeoutSeconds) log h1 fuel 0 0 op
      (by simp) h0 (by omega)
  exact ⟨exit, fin, rounds, hl, hran, by omega⟩

theorem getElem?_last {α : Type} (l : List α) (i : Nat) (r : α) (h1 : l[i]? = some r)
    (h2 : l[i + 1]? = none) : l.length = i + 1 ∧ l.getLast? = some r := by
  have hlt : i < l.length := (List.getElem?_eq_some.1 h1).1
  have hle : l.length ≤ i + 1 := List.getElem?_eq_none_iff.1 h2
  have hlen : l.length = i + 1 := by omega
  refine ⟨hlen, ?_⟩
  rw [List.getLast?_eq_getElem?, hlen]
  simpa using h1

theorem getLast?_index {α : Type} (l : List α) (r : α) (h : l.getLast? = some r) :
    ∃ i, l[i]? = some r ∧ l[i + 1]? = none ∧ l.length = i + 1 := by
  rw [List.getLast?_eq_getElem?] at h
  have hlt : l.length - 1 < l.length := (List.getElem?_eq_some.1 h).1
  refine ⟨l.length - 1, h, ?_, by omega⟩
  apply List.getElem?_eq_none_iff.2
  omega

/-- The turns of a run are the successive invocations of the operation. -/
theorem Ran_invoked {σ : Type} {env : Retrier σ} {deadline : Int} {log : Bool} {n : Nat}
    {now : Int} {op : σ} {exit : Exit} {fin : Int} {rounds : List Round}
    (h : Ran env deadline log n now op exit fin rounds) : Invoked env now op rounds := by
  induction h with
  | stop n now op h => exact ⟨rfl, rfl, rfl⟩
  | elapsed n now op h hd => exact ⟨rfl, rfl, rfl⟩
  | panic n now op msg h hd hr => exact ⟨rfl, rfl, rfl⟩
  | cross n now op j h hd hr hc => exact ⟨rfl, rfl, rfl, trivial⟩
  | next n now op j exit fin rounds h hd hr hc hrest ih =>
    obtain ⟨hj0, hj1⟩ := randIntN_250 _ _ hr
    have hP : (0 : Int) ≤ 2 ^ n := by positivity
    have hdur : max (2 ^ n * Second + j * Millisecond) 0 = 2 ^ n * Second + j * Millisecond := by
      generalize (2 : Int) ^ n = P at hP
      unfold Second Millisecond
      omega
    refine ⟨rfl, rfl, rfl, ?_⟩
    show Invoked env (now + ((env.f now op).1.took : Int) +
      max (2 ^ n * Second + j * Millisecond) 0) (env.f now op).2 rounds
    rw [hdur]
    exact ih

/-- A run has a first turn, which starts when the loop is entered. -/
theorem Ran_first {σ : Type} {env : Retrier σ} {deadline : Int} {log : Bool} {n : Nat}
    {now : Int} {op : σ} {exit : Exit} {fin : Int} {rounds : List Round}
    (h : Ran env deadline log n now op exit fin rounds) :
    ∃ r, rounds[0]? = some r ∧ r.start = now := by
  cases h <;> exact ⟨_, List.getElem?_cons_zero, rfl⟩

/-- Every turn of a run is a turn of the loop as `TurnSpec` describes it. -/
theorem Ran_turn {σ : Type} {env : Retrier σ} {deadline : Int} {log : Bool} {n : Nat}
    {now : Int} {op : σ} {exit : Exit} {fin : Int} {rounds : List Round}
    (h : Ran env deadline log n now op exit fin rounds) :
    ∀ i r, rounds[i]? = some r →
      TurnSpec env deadline log exit fin (n + i) r rounds[i + 1]? := by
  induction h with
  | stop n now op h =>
    intro i r hi
    cases i with
    | succ k => simp at hi
    | zero =>
      simp only [List.getElem?_cons_zero, Option.some.injEq] at hi
      subst hi
      exact ⟨fun _ => ⟨rfl, rfl, rfl, rfl, rfl⟩,
        fun hr => absurd (h.symm.trans hr) (by decide),
        fun hr => absurd (h.symm.trans hr) (by decide)⟩
  | elapsed n now op h hd =>
    intro i r hi
    cases i with
    | succ k => simp at hi
    | zero =>
      simp only [List.getElem?_cons_zero, Option.some.injEq] at hi
      subst hi
      exact ⟨fun hno => absurd (hno.symm.trans h) (by decide),
        fun _ _ => ⟨rfl, rfl, rfl, rfl, rfl⟩,
        fun _ hlt => absurd hd (not_le.2 hlt)⟩
  | panic n now op msg h hd hr =>
    intro i r hi
    cases i with
    | succ k => simp at hi
    | zero =>
      simp only [List.getElem?_cons_zero, Option.some.injEq] at hi
      subst hi
      refine ⟨fun hno => absurd (hno.symm.trans h) (by decide),
        fun _ hge => absurd hge (not_le.2 hd), fun _ _ => ⟨rfl, ?_, ?_⟩⟩
      · intro msg' hm
        have hm' : randIntN (env.reader n) 250 = .error msg' := hm
        rw [hr] at hm'
        cases hm'
        exact ⟨rfl, rfl, rfl, rfl⟩
      · intro j hj
        have hj' : randIntN (env.reader n) 250 = .ok j := hj
        rw [hr] at hj'
        cases hj'
  | cross n now op j h hd hr hc =>
    obtain ⟨hj0, hj1⟩ := randIntN_250 _ _ hr
    intro i r hi
    cases i with
    | succ k => simp at hi
    | zero =>
      simp only [List.getElem?_cons_zero, Option.some.injEq] at hi
      subst hi
      refine ⟨fun hno => absurd (hno.symm.trans h) (by decide),
        fun _ hge => absurd hge (not_le.2 hd), fun _ _ => ⟨rfl, ?_, ?_⟩⟩
      · intro msg hm
        have hm' : randIntN (env.reader n) 250 = .error msg := hm
        rw [hr] at hm'
        cases hm'
      · intro j' hj
        have hj' : randIntN (env.reader n) 250 = .ok j' := hj
        rw [hr] at hj'
        cases hj'
        exact ⟨hj0, hj1, rfl, fun _ => ⟨rfl, rfl, rfl⟩, fun hnc => absurd hc hnc⟩
  | next n now op j exit fin rounds h hd hr hc hrest ih =>
    obtain ⟨hj0, hj1⟩ := randIntN_250 _ _ hr
    obtain ⟨r1, hr1, hs1⟩ := Ran_first hrest
    intro i r hi
    cases i with
    | succ k =>
      simp only [List.getElem?_cons_succ] at hi
      have he : n + 1 + k = n + (k + 1) := by omega
      have hk := ih k r hi
      rw [he] at hk
      rw [List.getElem?_cons_succ]
      exact hk
    | zero =>
      simp only [List.getElem?_cons_zero, Option.some.injEq] at hi
      subst hi
      refine ⟨fun hno => absurd (hno.symm.trans h) (by decide),
        fun _ hge => absurd hge (not_le.2 hd), fun _ _ => ⟨rfl, ?_, ?_⟩⟩
      · intro msg hm
        have hm' : randIntN (env.reader n) 250 = .error msg := hm
        rw [hr] at hm'
        cases hm'
      · intro j' hj
        have hj' : randIntN (env.reader n) 250 = .ok j' := hj
        rw [hr] at hj'
        cases hj'
        exact ⟨hj0, hj1, rfl, fun hc' => absurd hc' hc,
          fun _ => ⟨r1, by rw [List.getElem?_cons_succ]; exact hr1, hs1⟩⟩

/-- A turn that is followed by another asked for a retry before the deadline,
drew its jitter and slept its whole backoff, which ended no later than the
deadline, and the next turn started when the backoff ended. -/
theorem TurnSpec_followed {σ : Type} {env : Retrier σ} {deadline : Int} {log : Bool}
    {exit : Exit} {fin : Int} {k : Nat} {r r' : Round}
    (h : TurnSpec env deadline log exit fin k r (some r')) :
    r.attempt.retry = true ∧ r.start + (r.attempt.took : Int) < deadline ∧
      r.logged = retryLine log (2 ^ k) ∧
      ∃ j, randIntN (env.reader k) 250 = .ok j ∧ 0 ≤ j ∧ j < 250 ∧
        r.sleep = some ⟨2 ^ k, j, 2 ^ k * Second + j * Millisecond,
          r.start + (r.attempt.took : Int)⟩ ∧
        r'.start = r.start + (r.attempt.took : Int) + (2 ^ k * Second + j * Millisecond) ∧
        r.start + (r.attempt.took : Int) + (2 ^ k * Second + j * Millisecond) ≤ deadline := by
  obtain ⟨h1, h2, h3⟩ := h
  cases hr : r.attempt.retry with
  | false => exact absurd (h1 hr).1 (by simp)
  | true =>
    by_cases hd : deadline ≤ r.start + (r.attempt.took : Int)
    · exact absurd (h2 hr hd).1 (by simp)
    · have hlt : r.start + (r.attempt.took : Int) < deadline := lt_of_not_le hd
      obtain ⟨hl, he, ho⟩ := h3 hr hlt
      cases hj : randIntN (env.reader k) 250 with
      | error msg => exact absurd (he msg hj).1 (by simp)
      | ok j =>
        obtain ⟨j0, j1, hs, hc, hn⟩ := ho j hj
        by_cases hcross : deadline < r.start + (r.attempt.took : Int) +
            (2 ^ k * Second + j * Millisecond) ∨
            (deadline = r.start + (r.attempt.took : Int) + (2 ^ k * Second + j * Millisecond) ∧
              env.tie k = true)
        · exact absurd (hc hcross).1 (by simp)
        · obtain ⟨r'', hr'', hst⟩ := hn hcross
          simp only [Option.some.injEq] at hr''
          subst hr''
          refine ⟨rfl, hlt, hl, j, rfl, j0, j1, hs, hst, ?_⟩
          by_contra hgt
          exact hcross (Or.inl (lt_of_not_le hgt))

/-- The last turn of a call: how the call ends. -/
theorem TurnSpec_last {σ : Type} {env : Retrier σ} {deadline : Int} {log : Bool}
    {exit : Exit} {fin : Int} {k : Nat} {r : Round}
    (h : TurnSpec env deadline log exit fin k r none) :
    (r.attempt.retry = false ∧ exit = .returned r.attempt.callErr ∧
      fin = r.start + (r.attempt.took : Int) ∧ r.sleep = none ∧ r.logged = none) ∨
    (r.attempt.retry = true ∧ deadline ≤ r.start + (r.attempt.took : Int) ∧
      exit = .returned (some TimeoutError) ∧ fin = r.start + (r.attempt.took : Int) ∧
      r.sleep = none ∧ r.logged = none) ∨
    (r.attempt.retry = true ∧ r.start + (r.attempt.took : Int) < deadline ∧
      ∃ msg, randIntN (env.reader k) 250 = .error msg ∧ exit = .panicked msg ∧
        fin = r.start + (r.attempt.took : Int) ∧ r.sleep = none) ∨
    (r.attempt.retry = true ∧ r.start + (r.attempt.took : Int) < deadline ∧
      ∃ j, randIntN (env.reader k) 250 = .ok j ∧ 0 ≤ j ∧ j < 250 ∧
        r.sleep = some ⟨2 ^ k, j, 2 ^ k * Second + j * Millisecond,
          r.start + (r.attempt.took : Int)⟩ ∧
        deadline ≤ r.start + (r.attempt.took : Int) + (2 ^ k * Second + j * Millisecond) ∧
        exit = .returned (some TimeoutError) ∧ fin = deadline) := by
  obtain ⟨h1, h2, h3⟩ := h
  cases hr : r.attempt.retry with
  | false =>
    obtain ⟨-, a, b, c, d⟩ := h1 hr
    exact Or.inl ⟨rfl, a, b, c, d⟩
  | true =>
    right
    by_cases hd : deadline ≤ r.start + (r.attempt.took : Int)
    · obtain ⟨-, a, b, c, d⟩ := h2 hr hd
      exact Or.inl ⟨rfl, hd, a, b, c, d⟩
    · right
      have hlt : r.start + (r.attempt.took : Int) < deadline := lt_of_not_le hd
      obtain ⟨hl, he, ho⟩ := h3 hr hlt
      cases hj : randIntN (env.reader k) 250 with
      | error msg =>
        obtain ⟨-, a, b, c⟩ := he msg hj
        exact Or.inl ⟨rfl, hlt, msg, rfl, a, b, c⟩
      | ok j =>
        right
        obtain ⟨j0, j1, hs, hc, hn⟩ := ho j hj
        by_cases hcross : deadline < r.start + (r.attempt.took : Int) +
            (2 ^ k * Second + j * Millisecond) ∨
            (deadline = r.start + (r.attempt.took : Int) + (2 ^ k * Second + j * Millisecond) ∧
              env.tie k = true)
        · obtain ⟨-, a, b⟩ := hc hcross
          refine ⟨rfl, hlt, j, rfl, j0, j1, hs, ?_, a, b⟩
          rcases hcross with hlt' | ⟨heq, -⟩
          · exact le_of_lt hlt'
          · exact le_of_eq heq
        · obtain ⟨r'', hr'', -⟩ := hn hcross
          simp at hr''

/-- In a run every turn but the last asked for a retry and was followed by a
sleep; the run has a last turn, and when that one did not ask for a retry, the
run returned its error at the end of the invocation, with no sleep. -/
theorem Ran_attempts {σ : Type} {env : Retrier σ} {deadline : Int} {log : Bool} {n : Nat}
    {now : Int} {op : σ} {exit : Exit} {fin : Int} {rounds : List Round}
    (h : Ran env deadline log n now op exit fin rounds) :
    rounds ≠ [] ∧
      (∀ r ∈ rounds.dropLast, r.attempt.retry = true ∧ r.sleep ≠ none) ∧
      (∀ r, rounds.getLast? = some r → r.attempt.retry = false →
        exit = .returned r.attempt.callErr ∧ fin = r.start + r.attempt.took ∧
          r.sleep = none) := by
  induction h with
  | stop n now op h =>
    refine ⟨by simp, by simp, ?_⟩
    intro r hr _
    simp only [List.getLast?_singleton, Option.some.injEq] at hr
    subst hr
    exact ⟨rfl, rfl, rfl⟩
  | elapsed n now op h hd =>
    refine ⟨by simp, by simp, ?_⟩
    intro r hr hno
    simp only [List.getLast?_singleton, Option.some.injEq] at hr
    subst hr
    simp only [h] at hno
    exact absurd hno (by decide)
  | panic n now op msg h hd hr =>
    refine ⟨by simp, by simp, ?_⟩
    intro r hr' hno
    simp only [List.getLast?_singleton, Option.some.injEq] at hr'
    subst hr'
    simp only [h] at hno
    exact absurd hno (by decide)
  | cross n now op j h hd hr hc =>
    refine ⟨by simp, by simp, ?_⟩
    intro r hr' hno
    simp only [List.getLast?_singleton, Option.some.injEq] at hr'
    subst hr'
    simp only [h] at hno
    exact absurd hno (by decide)
  | next n now op j exit fin rounds h hd hr hc hrest ih =>
    obtain ⟨hne, hall, hlast⟩ := ih
    cases rounds with
    | nil => exact absurd rfl hne
    | cons b l =>
      refine ⟨by simp, ?_, ?_⟩
      · intro r hr'
        rw [List.dropLast_cons_of_ne_nil hne] at hr'
        rcases List.mem_cons.1 hr' with rfl | hr'
        · exact ⟨h, by simp⟩
        · exact hall r hr'
      · intro r hr' hno
        rw [List.getLast?_cons_cons] at hr'
        exact hlast r hr' hno

/-- Every turn of successive invocations carries what `f` gave at some time in
some state. -/
theorem Invoked_attempt {σ : Type} (env : Retrier σ) (rounds : List Round) :
    ∀ (now : Int) (op : σ), Invoked env now op rounds →
      ∀ r ∈ rounds, ∃ t s, r.attempt = (env.f t s).1 := by
  induction rounds with
  | nil => intro _ _ _ r hr; exact absurd hr (List.not_mem_nil _)
  | cons a rest ih =>
    intro now op h r hr
    obtain ⟨-, hatt, hrest⟩ := h
    rcases List.mem_cons.1 hr with rfl | hr
    · exact ⟨now, op, hatt⟩
    · cases hs : a.sleep with
      | none =>
        rw [hs] at hrest
        have hnil : rest = [] := hrest
        rw [hnil] at hr
        exact absurd hr (List.not_mem_nil _)
      | some sl =>
        rw [hs] at hrest
        exact ih _ _ hrest.2 r hr

/-- With enough turns allowed, `RetryWithBackoffandTimeout` ends, within 34
turns; its turns are the successive invocations of `f`, at least one, and each
is a turn of the loop as `TurnSpec` describes it. -/
theorem RetryWithBackoffandTimeout_turns {σ : Type} (fuel : Nat) (env : Retrier σ)
    (timeoutSeconds : Int) (log : Bool) (op : σ) (hf : 34 ≤ fuel) :
    ∃ exit fin rounds,
      RetryWithBackoffandTimeout fuel env timeoutSeconds log op = some (exit, fin, rounds) ∧
      Ran env (retryDeadline timeoutSeconds) log 0 0 op exit fin rounds ∧
      rounds.length ≤ 34 ∧ rounds ≠ [] ∧ Invoked env 0 op rounds ∧
      ∀ i r, rounds[i]? = some r →
        TurnSpec env (retryDeadline timeoutSeconds) log exit fin i r rounds[i + 1]? := by
  obtain ⟨exit, fin, rounds, hrun, hran, hlen⟩ :=
    RetryWithBackoffandTimeout_ran fuel env timeoutSeconds log op hf
  refine ⟨exit, fin, rounds, hrun, hran, hlen, (Ran_attempts hran).1, Ran_invoked hran, ?_⟩
  intro i r hi
  have h := Ran_turn hran i r hi
  rw [Nat.zero_add] at h
  exact h

/-- C11: for every operation, timeout and logger, `RetryWithBackoffandTimeout`
(given room for 34 turns, which always suffices) ends, and its turns are the
successive invocations of `f`, at least one.  If the `k`-th invocation (`k`
counted from 1) does not ask for a retry, it is the last: the result is its
error, given when that invocation ends, after exactly `k` invocations, with no
sleep after it; so every invocation before the last asked for a retry.  A call
whose last invocation asked for a retry does not return an error of `f`: it
returns `TimeoutError`, the deadline having been reached, or the random reader
failed.  In particular when the first invocation does not ask for a retry the
result is its error after that one invocation, with no log line and no sleep,
whatever the timeout is.  Every turn of the call is a turn of the
loop as `TurnSpec` describes it, which fixes the call altogether. -/
theorem RetryWithBackoffandTimeout_no_retry {σ : Type} (fuel : Nat) (env : Retrier σ)
    (timeoutSeconds : Int) (log : Bool) (op : σ) (hf : 34 ≤ fuel) :
    ∃ exit fin rounds,
      RetryWithBackoffandTimeout fuel env timeoutSeconds log op = some (exit, fin, rounds) ∧
      rounds ≠ [] ∧ Invoked env 0 op rounds ∧
      (∀ k r, rounds[k]? = some r → r.attempt.retry = false →
        rounds.length = k + 1 ∧ exit = .returned r.attempt.callErr ∧
          fin = r.start + (r.attempt.took : Int) ∧ r.sleep = none ∧ r.logged = none) ∧
      (∀ k r, rounds[k]? = some r → k + 1 < rounds.length → r.attempt.retry = true) ∧
      (∀ last, rounds.getLast? = some last → last.attempt.retry = true →
        (exit = .returned (some TimeoutError) ∧ retryDeadline timeoutSeconds ≤ fin) ∨
          ∃ msg, exit = .panicked msg) ∧
      ((env.f 0 op).1.retry = false →
        exit = .returned (env.f 0 op).1.callErr ∧ fin = (env.f 0 op).1.took ∧
          rounds = [⟨0, (env.f 0 op).1, none, none⟩]) ∧
      (∀ i r, rounds[i]? = some r →
        TurnSpec env (retryDeadline timeoutSeconds) log exit fin i r rounds[i + 1]?) := by
  obtain ⟨exit, fin, rounds, hrun, hran, -, -, -, hturn⟩ :=
    RetryWithBackoffandTimeout_turns fuel env timeoutSeconds log op hf
  have hstop : ∀ k r, rounds[k]? = some r → r.attempt.retry = false →
      rounds.length = k + 1 ∧ exit = .returned r.attempt.callErr ∧
        fin = r.start + (r.attempt.took : Int) ∧ r.sleep = none ∧ r.logged = none := by
    intro k r hk hno
    obtain ⟨hnext, a, b, c, d⟩ := (hturn k r hk).1 hno
    exact ⟨(getElem?_last rounds k r hk hnext).1, a, b, c, d⟩
  refine ⟨exit, fin, rounds, hrun, (Ran_attempts hran).1, Ran_invoked hran, hstop, ?_, ?_, ?_,
    hturn⟩
  · intro k r hk hlt
    cases hr : r.attempt.retry with
    | true => rfl
    | false =>
      have := (hstop k r hk hr).1
      omega
  · intro last hlast hretry
    obtain ⟨i, hi, hnone, -⟩ := getLast?_index rounds last hlast
    have hspec := hturn i last hi
    rw [hnone] at hspec
    rcases TurnSpec_last hspec with h | h | h | h
    · rw [h.1] at hretry
      exact absurd hretry (by decide)
    · exact Or.inl ⟨h.2.2.1, by rw [h.2.2.2.1]; exact h.2.1⟩
    · obtain ⟨-, -, msg, -, he, -⟩ := h
      exact Or.inr ⟨msg, he⟩
    · obtain ⟨-, -, j, -, -, -, -, -, he, hfin⟩ := h
      exact Or.inl ⟨he, le_of_eq hfin.symm⟩
  · intro hno
    obtain ⟨k, rfl⟩ : ∃ k, fuel = k + 1 := ⟨fuel - 1, by omega⟩
    have hdirect : RetryWithBackoffandTimeout (k + 1) env timeoutSeconds log op =
        some (.returned (env.f 0 op).1.callErr, 0 + ((env.f 0 op).1.took : Int),
          [⟨0, (env.f 0 op).1, none, none⟩]) := by
      simp only [RetryWithBackoffandTimeout, retryLoop]
      rw [if_pos hno]
    rw [hdirect] at hrun
    simp only [Option.some.injEq, Prod.mk.injEq] at hrun
    obtain ⟨h1, h2, h3⟩ := hrun
    exact ⟨h1.symm, by rw [← h2]; simp, h3.symm⟩

/-- The operation that asks for a retry twice and then reports "gone", run
with a timeout of ten seconds, returns "gone" after three invocations, at the
end of the third, which started when the sleeps of 1.1 and 2.1 seconds were
over. -/
theorem RetryWithBackoffandTimeout_no_retry_witness :
    ∃ rounds,
      RetryWithBackoffandTimeout 34 thirdTimeRetrier 10 true 0 =
        some (.returned (some (.made (.new "gone"))), 3200000000, rounds) ∧
      rounds.length = 3 ∧ rounds.map (fun r => r.start) = [0, 1100000000, 3200000000] := by
  obtain ⟨exit, fin, rounds, hrun, -, -, hstop, -⟩ :=
    RetryWithBackoffandTimeout_no_retry 34 thirdTimeRetrier 10 true 0 (by decide)
  have hdec : (RetryWithBackoffandTimeout 34 thirdTimeRetrier 10 true 0).map
      (fun r => (r.2.2[2]?, r.2.2.map (fun x => x.start))) =
      some (some ⟨3200000000, ⟨false, some (.made (.new "gone")), 0⟩, none, none⟩,
        [0, 1100000000, 3200000000]) := by decide
  rw [hrun] at hdec
  simp only [Option.map_some', Option.some.injEq, Prod.mk.injEq] at hdec
  obtain ⟨hl, hst⟩ := hdec
  obtain ⟨hlen, he, hfin, -, -⟩ := hstop 2 _ hl rfl
  rw [he, hfin] at hrun
  exact ⟨rounds, hrun, hlen, hst⟩

/-- In a run entered after `n` sleeps, the sleep of turn `i` is made from
`backoffSeconds = 2 ^ (n + i)` and a jitter below 250, lasts exactly that many
seconds plus the jitter in milliseconds, and starts when the invocation of the
turn ends; and every turn but the last has a sleep. -/
theorem Ran_sleeps {σ : Type} {env : Retrier σ} {deadline : Int} {log : Bool} {n : Nat}
    {now : Int} {op : σ} {exit : Exit} {fin : Int} {rounds : List Round}
    (h : Ran env deadline log n now op exit fin rounds) :
    (∀ i r sl, rounds[i]? = some r → r.sleep = some sl →
      sl.backoffSeconds = 2 ^ (n + i) ∧
        sl.duration = 2 ^ (n + i) * Second + sl.jitter * Millisecond ∧
        0 ≤ sl.jitter ∧ sl.jitter < 250 ∧ sl.start = r.start + (r.attempt.took : Int) ∧
        r.logged = retryLine log (2 ^ (n + i)) ∧
        randIntN (env.reader (n + i)) 250 = .ok sl.jitter) ∧
    (∀ i r, rounds[i]? = some r → i + 1 < rounds.length → r.sleep ≠ none) := by
  induction h with
  | stop n now op h =>
    constructor
    · intro i r sl hi hs
      cases i with
      | zero =>
        simp only [List.getElem?_cons_zero, Option.some.injEq] at hi
        subst hi
        simp at hs
      | succ k => simp at hi
    · intro i r _ hlen
      simp at hlen
  | elapsed n now op h hd =>
    constructor
    · intro i r sl hi hs
      cases i with
      | zero =>
        simp only [List.getElem?_cons_zero, Option.some.injEq] at hi
        subst hi
        simp at hs
      | succ k => simp at hi
    · intro i r _ hlen
      simp at hlen
  | panic n now op msg h hd hr =>
    constructor
    · intro i r sl hi hs
      cases i with
      | zero =>
        simp only [List.getElem?_cons_zero, Option.some.injEq] at hi
        subst hi
        simp at hs
      | succ k => simp at hi
    · intro i r _ hlen
      simp at hlen
  | cross n now op j h hd hr hc =>
    obtain ⟨hj0, hj1⟩ := randIntN_250 _ _ hr
    constructor
    · intro i r sl hi hs
      cases i with
      | zero =>
        simp only [List.getElem?_cons_zero, Option.some.injEq] at hi
        subst hi
        simp only [Option.some.injEq] at hs
        subst hs
        exact ⟨rfl, rfl, hj0, hj1, rfl, rfl, hr⟩
      | succ k => simp at hi
    · intro i r _ hlen
      simp at hlen
  | next n now op j exit fin rounds h hd hr hc hrest ih =>
    obtain ⟨hj0, hj1⟩ := randIntN_250 _ _ hr
    obtain ⟨ih1, ih2⟩ := ih
    constructor
    · intro i r sl hi hs
      cases i with
      | zero =>
        simp only [List.getElem?_cons_zero, Option.some.injEq] at hi
        subst hi
        simp only [Option.some.injEq] at hs
        subst hs
        exact ⟨rfl, rfl, hj0, hj1, rfl, rfl, hr⟩
      | succ k =>
        simp only [List.getElem?_cons_succ] at hi
        have he : n + 1 + k = n + (k + 1) := by omega
        have := ih1 k r sl hi hs
        rw [he] at this
        exact this
    · intro i r hi hlen
      cases i with
      | zero =>
        simp only [List.getElem?_cons_zero, Option.some.injEq] at hi
        subst hi
        simp
      | succ k =>
        simp only [List.getElem?_cons_succ] at hi
        simp only [List.length_cons] at hlen
        exact ih2 k r hi (by omega)

/-- C13: in every call of `RetryWithBackoffandTimeout` (given room for 34
turns, which always suffices) the turns are the successive invocations of `f`,
and with `D` the time the timeout timer fires: an invocation that asks for a
retry and ends before `D` is followed, when the jitter `j` is drawn, by the
backoff timer of the turn, the `n`-th counted from 1, which is made at the end
of the invocation from `backoffSeconds = 2 ^ (n - 1)` and lasts exactly
`2 ^ (n - 1)` seconds plus `j` milliseconds, `0 ≤ j < 250`, with no cap and no
overflow, the line logged naming that number of seconds; when that timer ends
before `D`, `f` is invoked again; and whenever a turn is followed by another,
the delay from the end of its invocation to the start of the next is exactly
that duration.  So the number of seconds doubles from each sleep to the next
and never decreases.  Every turn of the call is a turn of the
loop as `TurnSpec` describes it, which fixes the call altogether. -/
theorem RetryWithBackoffandTimeout_backoff {σ : Type} (fuel : Nat) (env : Retrier σ)
    (timeoutSeconds : Int) (log : Bool) (op : σ) (hf : 34 ≤ fuel) :
    ∃ exit fin rounds,
      RetryWithBackoffandTimeout fuel env timeoutSeconds log op = some (exit, fin, rounds) ∧
      rounds ≠ [] ∧ Invoked env 0 op rounds ∧
      (∀ i r j, rounds[i]? = some r → r.attempt.retry = true →
        r.start + (r.attempt.took : Int) < retryDeadline timeoutSeconds →
        randIntN (env.reader i) 250 = .ok j →
        r.sleep = some ⟨2 ^ i, j, 2 ^ i * Second + j * Millisecond,
            r.start + (r.attempt.took : Int)⟩ ∧
          0 ≤ j ∧ j < 250 ∧ r.logged = retryLine log (2 ^ i) ∧
          (r.start + (r.attempt.took : Int) + (2 ^ i * Second + j * Millisecond) <
              retryDeadline timeoutSeconds →
            ∃ r', rounds[i + 1]? = some r')) ∧
      (∀ i r r', rounds[i]? = some r → rounds[i + 1]? = some r' →
        ∃ sl, r.sleep = some sl ∧ sl.backoffSeconds = 2 ^ i ∧
          0 ≤ sl.jitter ∧ sl.jitter < 250 ∧
          randIntN (env.reader i) 250 = .ok sl.jitter ∧
          sl.duration = 2 ^ i * Second + sl.jitter * Millisecond ∧
          r'.start - (r.start + (r.attempt.took : Int)) = sl.duration) ∧
      (∀ i r, rounds[i]? = some r → i + 1 < rounds.length → r.sleep ≠ none) ∧
      (∀ i r sl, rounds[i]? = some r → r.sleep = some sl →
        sl.backoffSeconds = 2 ^ i ∧
          sl.duration = 2 ^ i * Second + sl.jitter * Millisecond ∧
          0 ≤ sl.jitter ∧ sl.jitter < 250 ∧
          r.logged = retryLine log (2 ^ i)) ∧
      (∀ i r r' sl sl', rounds[i]? = some r → rounds[i + 1]? = some r' →
        r.sleep = some sl → r'.sleep = some sl' →
        sl'.backoffSeconds = 2 * sl.backoffSeconds) ∧
      (∀ (i j : Nat) r r' sl sl', i ≤ j → rounds[i]? = some r → rounds[j]? = some r' →
        r.sleep = some sl → r'.sleep = some sl' →
        sl.backoffSeconds ≤ sl'.backoffSeconds) ∧
      (∀ i r, rounds[i]? = some r →
        TurnSpec env (retryDeadline timeoutSeconds) log exit fin i r rounds[i + 1]?) := by
  obtain ⟨exit, fin, rounds, hrun, hran, -, hne, hinv, hturn⟩ :=
    RetryWithBackoffandTimeout_turns fuel env timeoutSeconds log op hf
  obtain ⟨h1, h2⟩ := Ran_sleeps hran
  have h1' : ∀ i r sl, rounds[i]? = some r → r.sleep = some sl →
      sl.backoffSeconds = 2 ^ i ∧
        sl.duration = 2 ^ i * Second + sl.jitter * Millisecond ∧
        0 ≤ sl.jitter ∧ sl.jitter < 250 ∧
        r.logged = retryLine log (2 ^ i) := by
    intro i r sl hi hs
    obtain ⟨a, b, c, d, -, e, -⟩ := h1 i r sl hi hs
    rw [Nat.zero_add] at a b e
    exact ⟨a, b, c, d, e⟩
  refine ⟨exit, fin, rounds, hrun, hne, hinv, ?_, ?_, h2, h1', ?_, ?_, hturn⟩
  · intro i r j hi hretry hlt hj
    obtain ⟨hl, -, ho⟩ := (hturn i r hi).2.2 hretry hlt
    obtain ⟨j0, j1, hs, -, hn⟩ := ho j hj
    refine ⟨hs, j0, j1, hl, ?_⟩
    intro hlt2
    have hnc : ¬ (retryDeadline timeoutSeconds <
          r.start + (r.attempt.took : Int) + (2 ^ i * Second + j * Millisecond) ∨
        (retryDeadline timeoutSeconds =
          r.start + (r.attempt.took : Int) + (2 ^ i * Second + j * Millisecond) ∧
            env.tie i = true)) := by
      intro h
      rcases h with h | ⟨h, -⟩
      · exact absurd h (not_lt.2 (le_of_lt hlt2))
      · exact absurd h (ne_of_gt hlt2)
    obtain ⟨r', hr', -⟩ := hn hnc
    exact ⟨r', hr'⟩
  · intro i r r' hi hi'
    have hs := hturn i r hi
    rw [hi'] at hs
    obtain ⟨-, -, -, j, hj, j0, j1, hsl, hst, -⟩ := TurnSpec_followed hs
    refine ⟨_, hsl, rfl, j0, j1, hj, rfl, ?_⟩
    rw [hst]
    show r.start + (r.attempt.took : Int) + (2 ^ i * Second + j * Millisecond) -
      (r.start + (r.attempt.took : Int)) = 2 ^ i * Second + j * Millisecond
    ring
  · intro i r r' sl sl' hi hi' hs hs'
    rw [(h1' i r sl hi hs).1, (h1' (i + 1) r' sl' hi' hs').1, pow_succ]
    ring
  · intro i j r r' sl sl' hij hi hj hs hs'
    rw [(h1' i r sl hi hs).1, (h1' j r' sl' hj hs').1]
    exact pow_le_pow_right₀ (by norm_num) hij

/-- The operation that asks for a retry twice, with a jitter of 100
milliseconds: its second invocation starts 1.1 seconds after the first ended
and its third 2.1 seconds after the second ended, the two sleeps being made
from 1 and 2 seconds. -/
theorem RetryWithBackoffandTimeout_backoff_witness :
    ∃ exit fin rounds,
      RetryWithBackoffandTimeout 34 thirdTimeRetrier 10 true 0 = some (exit, fin, rounds) ∧
      rounds.map (fun r => r.start) = [0, 1100000000, 3200000000] ∧
      rounds.map (fun r => r.sleep.map (fun sl => (sl.backoffSeconds, sl.duration))) =
        [some (1, 1100000000), some (2, 2100000000), none] := by
  obtain ⟨exit, fin, rounds, hrun, -⟩ :=
    RetryWithBackoffandTimeout_backoff 34 thirdTimeRetrier 10 true 0 (by decide)
  refine ⟨exit, fin, rounds, hrun, ?_⟩
  have hdec : (RetryWithBackoffandTimeout 34 thirdTimeRetrier 10 true 0).map
      (fun x => (x.2.2.map (fun r => r.start),
        x.2.2.map (fun r => r.sleep.map (fun sl => (sl.backoffSeconds, sl.duration))))) =
      some ([0, 1100000000, 3200000000],
        [some (1, 1100000000), some (2, 2100000000), none]) := by decide
  rw [hrun] at hdec
  simpa using hdec

/-- In a run entered no later than the deadline: the first turn starts at the
time of entry and every turn starts no later than the deadline; a turn whose
invocation asks for a retry and ends when the deadline has passed is the last
and the run returns `TimeoutError` then; a turn whose sleep would end after
the deadline is the last and the run returns `TimeoutError` at the deadline;
and a turn is followed by another only when its sleep has ended, no later than
the deadline. -/
theorem Ran_deadline {σ : Type} {env : Retrier σ} {deadline : Int} {log : Bool} {n : Nat}
    {now : Int} {op : σ} {exit : Exit} {fin : Int} {rounds : List Round}
    (h : Ran env deadline log n now op exit fin rounds) (hnow : now ≤ deadline) :
    (∀ r, rounds[0]? = some r → r.start = now) ∧
    (∀ r ∈ rounds, r.start ≤ deadline) ∧
    (∀ i r, rounds[i]? = some r → r.attempt.retry = true →
      deadline ≤ r.start + (r.attempt.took : Int) →
      i + 1 = rounds.length ∧ exit = .returned (some TimeoutError) ∧
        fin = r.start + (r.attempt.took : Int) ∧ r.sleep = none) ∧
    (∀ i r sl, rounds[i]? = some r → r.sleep = some sl →
      deadline < sl.start + sl.duration →
      i + 1 = rounds.length ∧ exit = .returned (some TimeoutError) ∧ fin = deadline) ∧
    (∀ i r r', rounds[i]? = some r → rounds[i + 1]? = some r' →
      ∃ sl, r.sleep = some sl ∧ r'.start = sl.start + sl.duration ∧
        sl.start + sl.duration ≤ deadline) := by
  induction h with
  | stop n now op h =>
    refine ⟨?_, ?_, ?_, ?_, ?_⟩
    · intro r hr
      simp only [List.getElem?_cons_zero, Option.some.injEq] at hr
      subst hr; rfl
    · intro r hr
      simp only [List.mem_singleton] at hr
      subst hr; exact hnow
    · intro i r hi hretry
      cases i with
      | zero =>
        simp only [List.getElem?_cons_zero, Option.some.injEq] at hi
        subst hi
        simp only [h] at hretry
        exact absurd hretry (by decide)
      | succ k => simp at hi
    · intro i r sl hi hs
      cases i with
      | zero =>
        simp only [List.getElem?_cons_zero, Option.some.injEq] at hi
        subst hi
        simp at hs
      | succ k => simp at hi
    · intro i r r' _ hi'
      simp at hi'
  | elapsed n now op h hd =>
    refine ⟨?_, ?_, ?_, ?_, ?_⟩
    · intro r hr
      simp only [List.getElem?_cons_zero, Option.some.injEq] at hr
      subst hr; rfl
    · intro r hr
      simp only [List.mem_singleton] at hr
      subst hr; exact hnow
    · intro i r hi _ _
      cases i with
      | zero =>
        simp only [List.getElem?_cons_zero, Option.some.injEq] at hi
        subst hi
        exact ⟨rfl, rfl, rfl, rfl⟩
      | succ k => simp at hi
    · intro i r sl hi hs
      cases i with
      | zero =>
        simp only [List.getElem?_cons_zero, Option.some.injEq] at hi
        subst hi
        simp at hs
      | succ k => simp at hi
    · intro i r r' _ hi'
      simp at hi'
  | panic n now op msg h hd hr =>
    refine ⟨?_, ?_, ?_, ?_, ?_⟩
    · intro r hr
      simp only [List.getElem?_cons_zero, Option.some.injEq] at hr
      subst hr; rfl
    · intro r hr
      simp only [List.mem_singleton] at hr
      subst hr; exact hnow
    · intro i r hi _ hle
      cases i with
      | zero =>
        simp only [List.getElem?_cons_zero, Option.some.injEq] at hi
        subst hi
        simp only [] at hle
        omega
      | succ k => simp at hi
    · intro i r sl hi hs
      cases i with
      | zero =>
        simp only [List.getElem?_cons_zero, Option.some.injEq] at hi
        subst hi
        simp at hs
      | succ k => simp at hi
    · intro i r r' _ hi'
      simp at hi'
  | cross n now op j h hd hr hc =>
    refine ⟨?_, ?_, ?_, ?_, ?_⟩
    · intro r hr
      simp only [List.getElem?_cons_zero, Option.some.injEq] at hr
      subst hr; rfl
    · intro r hr
      simp only [List.mem_singleton] at hr
      subst hr; exact hnow
    · intro i r hi _ hle
      cases i with
      | zero =>
        simp only [List.getElem?_cons_zero, Option.some.injEq] at hi
        subst hi
        simp only [] at hle
        omega
      | succ k => simp at hi
    · intro i r sl hi hs _
      cases i with
      | zero => exact ⟨rfl, rfl, rfl⟩
      | succ k => simp at hi
    · intro i r r' _ hi'
      simp at hi'
  | next n now op j exit fin rounds h hd hr hc hrest ih =>
    have hle : now + ((env.f now op).1.took : Int) + (2 ^ n * Second + j * Millisecond)
        ≤ deadline := by
      by_contra hlt
      exact hc (Or.inl (by omega))
    obtain ⟨ih0, ih1, ih2, ih3, ih4⟩ := ih hle
    refine ⟨?_, ?_, ?_, ?_, ?_⟩
    · intro r hr
      simp only [List.getElem?_cons_zero, Option.some.injEq] at hr
      subst hr; rfl
    · intro r hr
      rcases List.mem_cons.1 hr with rfl | hr
      · exact hnow
      · exact ih1 r hr
    · intro i r hi hretry hdl
      cases i with
      | zero =>
        simp only [List.getElem?_cons_zero, Option.some.injEq] at hi
        subst hi
        simp only [] at hdl
        omega
      | succ k =>
        simp only [List.getElem?_cons_succ] at hi
        obtain ⟨a, b, c, d⟩ := ih2 k r hi hretry hdl
        exact ⟨by simp only [List.length_cons]; omega, b, c, d⟩
    · intro i r sl hi hs hdl
      cases i with
      | zero =>
        simp only [List.getElem?_cons_zero, Option.some.injEq] at hi
        subst hi
        simp only [Option.some.injEq] at hs
        subst hs
        simp only [] at hdl
        omega
      | succ k =>
        simp only [List.getElem?_cons_succ] at hi
        obtain ⟨a, b, c⟩ := ih3 k r sl hi hs hdl
        exact ⟨by simp only [List.length_cons]; omega, b, c⟩
    · intro i r r' hi hi'
      cases i with
      | zero =>
        simp only [List.getElem?_cons_zero, Option.some.injEq] at hi
        subst hi
        simp only [Nat.zero_add, List.getElem?_cons_succ] at hi'
        exact ⟨_, rfl, ih0 r' hi', hle⟩
      | succ k =>
        simp only [List.getElem?_cons_succ] at hi hi'
        exact ih4 k r r' hi hi'

/-- C14: in every call of `RetryWithBackoffandTimeout` (given room for 34
turns, which always suffices) the turns are the successive invocations of `f`,
at least one, and with `D` the time the timeout timer fires: an invocation
that asks for a retry and ends when `D` has passed is the last, and the result
is `TimeoutError`, given then, with no sleep made (the deadline is checked
before sleeping); an invocation that asks for a retry and ends before `D` is
followed, when the jitter is drawn, by a backoff timer made at its end, and if
that timer would end after `D` the sleep is cut at `D`, the turn is the last
and the result is `TimeoutError`, given at `D`; if it ends before `D`, `f` is
invoked again when it ends; if both timers fire together either may happen.
So `f` is invoked again only after an invocation that asked for a retry and a
sleep that ended no later than `D`, every invocation starts no later than `D`,
and a call whose last invocation asked for a retry returns `TimeoutError`, `D`
having been reached, unless the random reader failed.  Every turn of the call is a turn of the
loop as `TurnSpec` describes it, which fixes the call altogether. -/
theorem RetryWithBackoffandTimeout_deadline {σ : Type} (fuel : Nat) (env : Retrier σ)
    (timeoutSeconds : Int) (log : Bool) (op : σ) (hf : 34 ≤ fuel) :
    ∃ exit fin rounds,
      RetryWithBackoffandTimeout fuel env timeoutSeconds log op = some (exit, fin, rounds) ∧
      rounds ≠ [] ∧ Invoked env 0 op rounds ∧
      (∀ i r, rounds[i]? = some r → r.attempt.retry = true →
        retryDeadline timeoutSeconds ≤ r.start + (r.attempt.took : Int) →
        i + 1 = rounds.length ∧ exit = .returned (some TimeoutError) ∧
          fin = r.start + (r.attempt.took : Int) ∧ r.sleep = none) ∧
      (∀ i r j, rounds[i]? = some r → r.attempt.retry = true →
        r.start + (r.attempt.took : Int) < retryDeadline timeoutSeconds →
        randIntN (env.reader i) 250 = .ok j →
        ∃ sl, r.sleep = some sl ∧ sl.start = r.start + (r.attempt.took : Int) ∧
          0 ≤ sl.duration ∧
          (retryDeadline timeoutSeconds < sl.start + sl.duration →
            i + 1 = rounds.length ∧ exit = .returned (some TimeoutError) ∧
              fin = retryDeadline timeoutSeconds) ∧
          (sl.start + sl.duration < retryDeadline timeoutSeconds →
            ∃ r', rounds[i + 1]? = some r' ∧ r'.start = sl.start + sl.duration) ∧
          (sl.start + sl.duration = retryDeadline timeoutSeconds →
            (i + 1 = rounds.length ∧ exit = .returned (some TimeoutError) ∧
                fin = retryDeadline timeoutSeconds) ∨
              ∃ r', rounds[i + 1]? = some r' ∧ r'.start = retryDeadline timeoutSeconds)) ∧
      (∀ i r sl, rounds[i]? = some r → r.sleep = some sl →
        sl.start = r.start + (r.attempt.took : Int) ∧
        (retryDeadline timeoutSeconds < sl.start + sl.duration →
          i + 1 = rounds.length ∧ exit = .returned (some TimeoutError) ∧
            fin = retryDeadline timeoutSeconds)) ∧
      (∀ i r r', rounds[i]? = some r → rounds[i + 1]? = some r' →
        r.attempt.retry = true ∧
        ∃ sl, r.sleep = some sl ∧ r'.start = sl.start + sl.duration ∧
          sl.start + sl.duration ≤ retryDeadline timeoutSeconds) ∧
      (∀ r ∈ rounds, r.start ≤ retryDeadline timeoutSeconds) ∧
      (∀ last, rounds.getLast? = some last → last.attempt.retry = true →
        (exit = .returned (some TimeoutError) ∧ retryDeadline timeoutSeconds ≤ fin ∧
          (fin = retryDeadline timeoutSeconds ∨
            fin = last.start + (last.attempt.took : Int))) ∨
          ∃ msg, exit = .panicked msg) ∧
      (∀ i r, rounds[i]? = some r →
        TurnSpec env (retryDeadline timeoutSeconds) log exit fin i r rounds[i + 1]?) := by
  obtain ⟨exit, fin, rounds, hrun, hran, -, hne, hinv, hturn⟩ :=
    RetryWithBackoffandTimeout_turns fuel env timeoutSeconds log op hf
  obtain ⟨-, h1, h2, h3, h4⟩ := Ran_deadline hran (retryDeadline_range timeoutSeconds).1
  obtain ⟨hs, -⟩ := Ran_sleeps hran
  refine ⟨exit, fin, rounds, hrun, hne, hinv, h2, ?_, ?_, ?_, h1, ?_, hturn⟩
  · intro i r j hi hretry hlt hj
    obtain ⟨-, -, ho⟩ := (hturn i r hi).2.2 hretry hlt
    obtain ⟨j0, j1, hsl, hc, hn⟩ := ho j hj
    have hP : (0 : Int) ≤ 2 ^ i := by positivity
    have hdur : (0 : Int) ≤ 2 ^ i * Second + j * Millisecond := by
      generalize (2 : Int) ^ i = P at hP
      unfold Second Millisecond
      omega
    refine ⟨_, hsl, rfl, hdur, ?_, ?_, ?_⟩
    · intro hgt
      obtain ⟨hnone, he, hfin⟩ := hc (Or.inl hgt)
      exact ⟨(getElem?_last rounds i r hi hnone).1.symm, he, hfin⟩
    · intro hlt2
      have hlt3 : r.start + (r.attempt.took : Int) + (2 ^ i * Second + j * Millisecond) <
          retryDeadline timeoutSeconds := hlt2
      apply hn
      intro h
      rcases h with h | ⟨h, -⟩
      · exact absurd h (not_lt.2 (le_of_lt hlt3))
      · exact absurd h (ne_of_gt hlt3)
    · intro heq
      have heq' : r.start + (r.attempt.took : Int) + (2 ^ i * Second + j * Millisecond) =
          retryDeadline timeoutSeconds := heq
      cases ht : env.tie i with
      | true =>
        obtain ⟨hnone, he, hfin⟩ := hc (Or.inr ⟨heq'.symm, ht⟩)
        exact Or.inl ⟨(getElem?_last rounds i r hi hnone).1.symm, he, hfin⟩
      | false =>
        have hnc : ¬ (retryDeadline timeoutSeconds <
              r.start + (r.attempt.took : Int) + (2 ^ i * Second + j * Millisecond) ∨
            (retryDeadline timeoutSeconds =
              r.start + (r.attempt.took : Int) + (2 ^ i * Second + j * Millisecond) ∧
                env.tie i = true)) := by
          intro h
          rcases h with h | ⟨-, h⟩
          · exact absurd h (not_lt.2 (le_of_eq heq'))
          · rw [ht] at h
            exact absurd h (by decide)
        obtain ⟨r', hr', hst⟩ := hn hnc
        exact Or.inr ⟨r', hr', by rw [hst, heq']⟩
  · intro i r sl hi hsl
    exact ⟨(hs i r sl hi hsl).2.2.2.2.1, h3 i r sl hi hsl⟩
  · intro i r r' hi hi'
    have hsp := hturn i r hi
    rw [hi'] at hsp
    exact ⟨(TurnSpec_followed hsp).1, h4 i r r' hi hi'⟩
  · intro last hlast hretry
    obtain ⟨i, hi, hnone, -⟩ := getLast?_index rounds last hlast
    have hspec := hturn i last hi
    rw [hnone] at hspec
    rcases TurnSpec_last hspec with h | h | h | h
    · rw [h.1] at hretry
      exact absurd hretry (by decide)
    · exact Or.inl ⟨h.2.2.1, by rw [h.2.2.2.1]; exact h.2.1, Or.inr h.2.2.2.1⟩
    · obtain ⟨-, -, msg, -, he, -⟩ := h
      exact Or.inr ⟨msg, he⟩
    · obtain ⟨-, -, j, -, -, -, -, -, he, hfin⟩ := h
      exact Or.inl ⟨he, le_of_eq hfin.symm, Or.inl hfin⟩

/-- The operation that always asks for a retry and takes no time, run with a
timeout of ten seconds: it is invoked at 0, 1, 3 and 7 seconds; the sleep of 8
seconds made after the fourth invocation would end at 15 seconds and is cut at
the deadline, where `TimeoutError` is returned with no fifth invocation. -/
theorem RetryWithBackoffandTimeout_deadline_witness :
    ∃ rounds,
      RetryWithBackoffandTimeout 34 alwaysRetrier 10 false () =
        some (.returned (some TimeoutError), 10000000000, rounds) ∧
      rounds.map (fun r => r.start) = [0, 1000000000, 3000000000, 7000000000] := by
  obtain ⟨exit, fin, rounds, hrun, -, -, -, hsleep, -⟩ :=
    RetryWithBackoffandTimeout_deadline 34 alwaysRetrier 10 false () (by decide)
  have hdec : (RetryWithBackoffandTimeout 34 alwaysRetrier 10 false ()).map
      (fun x => (x.2.2[3]?, x.2.2.map (fun r => r.start))) =
      some (some ⟨7000000000, ⟨true, some (.made (.new "not yet")), 0⟩, none,
          some ⟨8, 0, 8000000000, 7000000000⟩⟩,
        [0, 1000000000, 3000000000, 7000000000]) := by decide
  rw [hrun] at hdec
  simp only [Option.map_some', Option.some.injEq, Prod.mk.injEq] at hdec
  obtain ⟨hl, hst⟩ := hdec
  obtain ⟨sl, hsl, -, -, hcut, -, -⟩ := hsleep 3 _ 0 hl rfl (by decide) rfl
  simp only [Option.some.injEq] at hsl
  subst hsl
  obtain ⟨-, he, hfin⟩ := hcut (by decide)
  have hD : retryDeadline 10 = 10000000000 := by decide
  rw [he, hfin, hD] at hrun
  exact ⟨rounds, hrun, hst⟩

/-- A run of an operation that always asks for a retry, with a reader that
never fails, returns `TimeoutError`, no earlier than the deadline and no later
than the deadline plus the time of its last invocation, which started no later
than the deadline. -/
theorem Ran_always_retry {σ : Type} {env : Retrier σ} {deadline : Int} {log : Bool} {n : Nat}
    {now : Int} {op : σ} {exit : Exit} {fin : Int} {rounds : List Round}
    (h : Ran env deadline log n now op exit fin rounds) (hnow : now ≤ deadline)
    (hretry : ∀ t s, (env.f t s).1.retry = true)
    (hreader : ∀ k, ∃ v, env.reader k = .ok v) :
    exit = .returned (some TimeoutError) ∧
      ∃ last, rounds.getLast? = some last ∧ last.start ≤ deadline ∧ deadline ≤ fin ∧
        fin ≤ deadline + (last.attempt.took : Int) := by
  induction h with
  | stop n now op h =>
    rw [hretry] at h
    exact absurd h (by decide)
  | elapsed n now op h hd =>
    exact ⟨rfl, _, rfl, hnow, hd, by show _ ≤ deadline + ((env.f now op).1.took : Int); omega⟩
  | panic n now op msg h hd hr =>
    obtain ⟨v, hv⟩ := hreader n
    obtain ⟨r', hr', -, -⟩ := randIntN_lt v 250 (by omega) (by omega)
    rw [hv, hr'] at hr
    simp at hr
  | cross n now op j h hd hr hc =>
    exact ⟨rfl, _, rfl, hnow, le_refl _,
      by show _ ≤ deadline + ((env.f now op).1.took : Int); omega⟩
  | next n now op j exit fin rounds h hd hr hc hrest ih =>
    have hle : now + ((env.f now op).1.took : Int) + (2 ^ n * Second + j * Millisecond)
        ≤ deadline := by
      by_contra hlt
      exact hc (Or.inl (by omega))
    obtain ⟨he, last, hlast, h1, h2, h3⟩ := ih hle
    cases rounds with
    | nil => simp at hlast
    | cons b l => exact ⟨he, last, by rw [List.getLast?_cons_cons]; exact hlast, h1, h2, h3⟩

/-- C12, as stated, fails: with a timeout of one second, an operation that
always asks for a retry and takes ten seconds makes the retrier return
`TimeoutError` at the tenth second, later than the timeout plus a backoff of
one second and the largest jitter. -/
theorem RetryWithBackoffandTimeout_bound_counterexample :
    RetryWithBackoffandTimeout 34 slowRetrier 1 false () =
        some (.returned (some TimeoutError), 10000000000,
          [⟨0, ⟨true, none, 10000000000⟩, none, none⟩]) ∧
      retryDeadline 1 = 1 * Second ∧
      1 * Second + (1 * Second + 250 * Millisecond) < 10000000000 := by
  decide

/-- C12, amended: for every timeout and every operation that asks for a retry
on every invocation, with a random reader that does not fail,
`RetryWithBackoffandTimeout` (given room for 34 turns) ends after at least one
and at most 34 successive invocations of `f` and returns `TimeoutError`, no
earlier than the time `D` its timeout timer fires and no later than `D` plus
the time its last invocation takes, that invocation having started no later
than `D`: either the last invocation ends when `D` has passed and the result
is given then, with no sleep, or it ends before `D` and the sleep made after
it is cut at `D`.  Every sleep that is followed by an invocation ended no
later than `D`.  `D` is the 64-bit product of the timeout and a second, or
zero when that is negative: the timeout in seconds when it is between 0 and
9223372036, zero when it is between -9223372036 and -1, and in every case a
time from zero to below `2 ^ 63` nanoseconds.  Every turn of the call is a turn of the
loop as `TurnSpec` describes it, which fixes the call altogether. -/
theorem RetryWithBackoffandTimeout_always_retry {σ : Type} (fuel : Nat) (env : Retrier σ)
    (timeoutSeconds : Int) (log : Bool) (op : σ) (hf : 34 ≤ fuel)
    (hretry : ∀ t s, (env.f t s).1.retry = true)
    (hreader : ∀ k, ∃ v, env.reader k = .ok v) :
    ∃ fin rounds last,
      RetryWithBackoffandTimeout fuel env timeoutSeconds log op =
        some (.returned (some TimeoutError), fin, rounds) ∧
      1 ≤ rounds.length ∧ rounds.length ≤ 34 ∧ Invoked env 0 op rounds ∧
      rounds.getLast? = some last ∧
      last.start ≤ retryDeadline timeoutSeconds ∧
      retryDeadline timeoutSeconds ≤ fin ∧
      fin ≤ retryDeadline timeoutSeconds + (last.attempt.took : Int) ∧
      (last.attempt.took = 0 → fin = retryDeadline timeoutSeconds) ∧
      ((retryDeadline timeoutSeconds ≤ last.start + (last.attempt.took : Int) ∧
          fin = last.start + (last.attempt.took : Int) ∧ last.sleep = none) ∨
        (last.start + (last.attempt.took : Int) < retryDeadline timeoutSeconds ∧
          fin = retryDeadline timeoutSeconds ∧
          ∃ sl, last.sleep = some sl ∧ sl.start = last.start + (last.attempt.took : Int) ∧
            retryDeadline timeoutSeconds ≤ sl.start + sl.duration)) ∧
      (∀ i r r', rounds[i]? = some r → rounds[i + 1]? = some r' →
        ∃ sl, r.sleep = some sl ∧ r'.start = sl.start + sl.duration ∧
          sl.start + sl.duration ≤ retryDeadline timeoutSeconds) ∧
      (∀ r ∈ rounds, r.start ≤ retryDeadline timeoutSeconds) ∧
      retryDeadline timeoutSeconds = max (wrap64 (wrap64 timeoutSeconds * Second)) 0 ∧
      0 ≤ retryDeadline timeoutSeconds ∧
      retryDeadline timeoutSeconds < 9223372036854775808 ∧
      (0 ≤ timeoutSeconds → timeoutSeconds ≤ 9223372036 →
        retryDeadline timeoutSeconds = timeoutSeconds * Second) ∧
      (-9223372036 ≤ timeoutSeconds → timeoutSeconds < 0 →
        retryDeadline timeoutSeconds = 0) ∧
      (-9223372036 ≤ timeoutSeconds → timeoutSeconds ≤ 9223372036 →
        retryDeadline timeoutSeconds = max (timeoutSeconds * Second) 0) ∧
      (∀ i r, rounds[i]? = some r →
        TurnSpec env (retryDeadline timeoutSeconds) log (.returned (some TimeoutError)) fin i r
          rounds[i + 1]?) := by
  obtain ⟨exit, fin, rounds, hrun, hran, hlen, -, hinv, hturn⟩ :=
    RetryWithBackoffandTimeout_turns fuel env timeoutSeconds log op hf
  obtain ⟨he, last, hlast, h1, h2, h3⟩ :=
    Ran_always_retry hran (retryDeadline_range timeoutSeconds).1 hretry hreader
  obtain ⟨-, hstart, -, -, hnext⟩ := Ran_deadline hran (retryDeadline_range timeoutSeconds).1
  subst he
  obtain ⟨i, hi, hnone, -⟩ := getLast?_index rounds last hlast
  have hlastretry : last.attempt.retry = true := by
    obtain ⟨t, s, hts⟩ := Invoked_attempt env rounds 0 op hinv last
      (List.mem_iff_getElem?.2 ⟨i, hi⟩)
    rw [hts]
    exact hretry t s
  refine ⟨fin, rounds, last, hrun, ?_, hlen, hinv, hlast, h1, h2, h3, ?_, ?_, hnext, hstart,
    rfl, (retryDeadline_range timeoutSeconds).1, (retryDeadline_range timeoutSeconds).2,
    ?_, ?_, retryDeadline_eq timeoutSeconds, hturn⟩
  · cases rounds with
    | nil => simp at hlast
    | cons a l => simp
  · intro h0
    rw [h0] at h3
    simp only [Nat.cast_zero, add_zero] at h3
    omega
  · have hspec := hturn i last hi
    rw [hnone] at hspec
    rcases TurnSpec_last hspec with h | h | h | h
    · rw [h.1] at hlastretry
      exact absurd hlastretry (by decide)
    · exact Or.inl ⟨h.2.1, h.2.2.2.1, h.2.2.2.2.1⟩
    · obtain ⟨-, -, msg, -, hex, -⟩ := h
      simp at hex
    · obtain ⟨-, hlt, j, -, -, -, hsl, hle, -, hfin⟩ := h
      exact Or.inr ⟨hlt, hfin, _, hsl, rfl, hle⟩
  · intro ha hb
    rw [retryDeadline_eq timeoutSeconds (by omega) hb]
    apply max_eq_left
    unfold Second
    omega
  · intro ha hb
    rw [retryDeadline_eq timeoutSeconds ha (by omega)]
    apply max_eq_right
    unfold Second
    omega

/-- The operation that always asks for a retry and takes no time returns
`TimeoutError` at the tenth second when run with a timeout of ten seconds,
after four invocations; and with a timeout of 9223372037 seconds, whose
product with a second does not fit 64 bits, at time zero after one
invocation. -/
theorem RetryWithBackoffandTimeout_always_retry_witness :
    (∃ rounds,
      RetryWithBackoffandTimeout 34 alwaysRetrier 10 false () =
        some (.returned (some TimeoutError), 10000000000, rounds) ∧ rounds.length = 4) ∧
    (∃ rounds,
      RetryWithBackoffandTimeout 34 alwaysRetrier 9223372037 false () =
        some (.returned (some TimeoutError), 0, rounds) ∧ rounds.length = 1) := by
  constructor
  · obtain ⟨fin, rounds, last, hrun, -, -, -, hlast, -, -, -, h0, -⟩ :=
      RetryWithBackoffandTimeout_always_retry 34 alwaysRetrier 10 false () (by decide)
        (fun _ _ => rfl) (fun _ => ⟨0, rfl⟩)
    have hdec : (RetryWithBackoffandTimeout 34 alwaysRetrier 10 false ()).map
        (fun x => (x.2.2.getLast?.map (fun r => r.attempt.took), x.2.2.length)) =
        some (some 0, 4) := by decide
    rw [hrun] at hdec
    simp only [Option.map_some', Option.some.injEq, Prod.mk.injEq] at hdec
    obtain ⟨htk, hlen⟩ := hdec
    rw [hlast] at htk
    have htook : last.attempt.took = 0 := by simpa using htk
    have hfin := h0 htook
    have hD : retryDeadline 10 = 10000000000 := by decide
    rw [hD] at hfin
    rw [hfin] at hrun
    exact ⟨rounds, hrun, hlen⟩
  · obtain ⟨fin, rounds, last, hrun, -, -, -, hlast, -, -, -, h0, -⟩ :=
      RetryWithBackoffandTimeout_always_retry 34 alwaysRetrier 9223372037 false () (by decide)
        (fun _ _ => rfl) (fun _ => ⟨0, rfl⟩)
    have hdec : (RetryWithBackoffandTimeout 34 alwaysRetrier 9223372037 false ()).map
        (fun x => (x.2.2.getLast?.map (fun r => r.attempt.took), x.2.2.length)) =
        some (some 0, 1) := by decide
    rw [hrun] at hdec
    simp only [Option.map_some', Option.some.injEq, Prod.mk.injEq] at hdec
    obtain ⟨htk, hlen⟩ := hdec
    rw [hlast] at htk
    have htook : last.attempt.took = 0 := by simpa using htk
    have hfin := h0 htook
    have hD : retryDeadline 9223372037 = 0 := by decide
    rw [hD] at hfin
    rw [hfin] at hrun
    exact ⟨rounds, hrun, hlen⟩

/-- In a run of an operation that never reports `TimeoutError` when it does
not ask for a retry, the result is `TimeoutError` exactly when the last
invocation asked for a retry and the deadline has been reached; and the error
of a last invocation that did not ask for a retry is returned and is not
`TimeoutError`. -/
theorem Ran_exit {σ : Type} {env : Retrier σ} {deadline : Int} {log : Bool} {n : Nat}
    {now : Int} {op : σ} {exit : Exit} {fin : Int} {rounds : List Round}
    (h : Ran env deadline log n now op exit fin rounds)
    (hne : ∀ t s, (env.f t s).1.retry = false → (env.f t s).1.callErr ≠ some TimeoutError) :
    ∃ last, rounds.getLast? = some last ∧
      (exit = .returned (some TimeoutError) ↔
        (last.attempt.retry = true ∧ deadline ≤ fin)) ∧
      (last.attempt.retry = false →
        exit = .returned last.attempt.callErr ∧ exit ≠ .returned (some TimeoutError)) := by
  induction h with
  | stop n now op h =>
    have hne' := hne now op h
    refine ⟨⟨now, (env.f now op).1, none, none⟩, rfl, ?_, ?_⟩
    · constructor
      · intro he
        simp only [Exit.returned.injEq] at he
        exact absurd he hne'
      · intro hr
        simp only [h] at hr
        exact absurd hr.1 (by decide)
    · intro _
      refine ⟨rfl, ?_⟩
      intro he
      simp only [Exit.returned.injEq] at he
      exact hne' he
  | elapsed n now op h hd =>
    refine ⟨⟨now, (env.f now op).1, none, none⟩, rfl, ?_, ?_⟩
    · exact ⟨fun _ => ⟨h, hd⟩, fun _ => rfl⟩
    · intro hno
      simp only [h] at hno
      exact absurd hno (by decide)
  | panic n now op msg h hd hr =>
    refine ⟨⟨now, (env.f now op).1, retryLine log (2 ^ n), none⟩, rfl, ?_, ?_⟩
    · constructor
      · intro he
        simp at he
      · intro hr'
        have := hr'.2
        omega
    · intro hno
      simp only [h] at hno
      exact absurd hno (by decide)
  | cross n now op j h hd hr hc =>
    refine ⟨⟨now, (env.f now op).1, retryLine log (2 ^ n),
      some ⟨2 ^ n, j, 2 ^ n * Second + j * Millisecond, now + (env.f now op).1.took⟩⟩,
      rfl, ?_, ?_⟩
    · exact ⟨fun _ => ⟨h, le_refl _⟩, fun _ => rfl⟩
    · intro hno
      simp only [h] at hno
      exact absurd hno (by decide)
  | next n now op j exit fin rounds h hd hr hc hrest ih =>
    obtain ⟨last, hlast, h1, h2⟩ := ih
    cases rounds with
    | nil => simp at hlast
    | cons b l => exact ⟨last, by rw [List.getLast?_cons_cons]; exact hlast, h1, h2⟩

/-- C15, as stated, fails: an operation that reports the retrier's own
`TimeoutError` without asking for a retry makes the retrier return
`TimeoutError` at once, long before the deadline, from an invocation that did
not ask for a retry. -/
theorem RetryWithBackoffandTimeout_timeout_counterexample :
    RetryWithBackoffandTimeout 34 timeoutReporter 10 false () =
        some (.returned (some TimeoutError), 0,
          [⟨0, ⟨false, some TimeoutError, 0⟩, none, none⟩]) ∧
      (0 : Int) < retryDeadline 10 := by
  decide

/-- C15, amended: for every timeout and every operation that never reports
the value `TimeoutError` itself alongside a no-retry signal (an error of its
own with the same text is another value), `RetryWithBackoffandTimeout` (given
room for 34 turns) ends, its turns being the successive invocations of `f`,
and returns `TimeoutError` exactly when it gave up on the deadline, that is
when its last invocation of `f` asked for a retry and the time the timeout
timer fires has been reached; the result of a last invocation that did not ask
for a retry is that invocation's error and is not `TimeoutError`; and a call
whose last invocation asked for a retry returns `TimeoutError` unless the
random reader failed.  Every turn of the call is a turn of the
loop as `TurnSpec` describes it, which fixes the call altogether. -/
theorem RetryWithBackoffandTimeout_timeout_distinct {σ : Type} (fuel : Nat) (env : Retrier σ)
    (timeoutSeconds : Int) (log : Bool) (op : σ) (hf : 34 ≤ fuel)
    (hne : ∀ t s, (env.f t s).1.retry = false → (env.f t s).1.callErr ≠ some TimeoutError) :
    ∃ exit fin rounds last,
      RetryWithBackoffandTimeout fuel env timeoutSeconds log op = some (exit, fin, rounds) ∧
      Invoked env 0 op rounds ∧
      rounds.getLast? = some last ∧
      (exit = .returned (some TimeoutError) ↔
        (last.attempt.retry = true ∧ retryDeadline timeoutSeconds ≤ fin)) ∧
      (last.attempt.retry = false →
        exit = .returned last.attempt.callErr ∧ exit ≠ .returned (some TimeoutError)) ∧
      (last.attempt.retry = true →
        exit = .returned (some TimeoutError) ∨ ∃ msg, exit = .panicked msg) ∧
      (∀ i r, rounds[i]? = some r →
        TurnSpec env (retryDeadline timeoutSeconds) log exit fin i r rounds[i + 1]?) := by
  obtain ⟨exit, fin, rounds, hrun, hran, -, -, hinv, hturn⟩ :=
    RetryWithBackoffandTimeout_turns fuel env timeoutSeconds log op hf
  obtain ⟨last, hlast, h1, h2⟩ := Ran_exit hran hne
  refine ⟨exit, fin, rounds, last, hrun, hinv, hlast, h1, h2, ?_, hturn⟩
  intro hretry
  obtain ⟨i, hi, hnone, -⟩ := getLast?_index rounds last hlast
  have hspec := hturn i last hi
  rw [hnone] at hspec
  rcases TurnSpec_last hspec with h | h | h | h
  · rw [h.1] at hretry
    exact absurd hretry (by decide)
  · exact Or.inl h.2.2.1
  · obtain ⟨-, -, msg, -, he, -⟩ := h
    exact Or.inr ⟨msg, he⟩
  · obtain ⟨-, -, j, -, -, -, -, -, he, -⟩ := h
    exact Or.inl he

/-- The operation that reports, without asking for a retry, an error of its
own with the text "Timeout occurred": the retrier returns that error, which
has the text of `TimeoutError` and is not `TimeoutError`. -/
theorem RetryWithBackoffandTimeout_timeout_distinct_witness :
    ∃ fin rounds,
      RetryWithBackoffandTimeout 34 sameTextRetrier 10 true () =
        some (.returned (some (.made (.new "Timeout occurred"))), fin, rounds) ∧
      Exit.returned (some (.made (.new "Timeout occurred"))) ≠
        .returned (some TimeoutError) ∧
      ErrorValue.text (.made (.new "Timeout occurred")) = TimeoutError.text := by
  obtain ⟨exit, fin, rounds, last, hrun, -, hlast, -, h2, -⟩ :=
    RetryWithBackoffandTimeout_timeout_distinct 34 sameTextRetrier 10 true () (by decide)
      (by
        intro t s _
        show (some (ErrorValue.made (.new "Timeout occurred")) : Option ErrorValue) ≠
          some TimeoutError
        decide)
  have hdec : (RetryWithBackoffandTimeout 34 sameTextRetrier 10 true ()).map
      (fun x => x.2.2.getLast?.map (fun r => r.attempt)) =
      some (some ⟨false, some (.made (.new "Timeout occurred")), 0⟩) := by decide
  rw [hrun] at hdec
  simp only [Option.map_some', Option.some.injEq] at hdec
  rw [hlast] at hdec
  simp only [Option.map_some', Option.some.injEq] at hdec
  obtain ⟨he, hnot⟩ := h2 (by rw [hdec])
  rw [hdec] at he
  rw [he] at hrun hnot
  exact ⟨fin, rounds, hrun, hnot, by decide⟩

/-! ## Duplicate detection -/

theorem hasDuplicatesLoop_fresh (rest : List String) :
    ∀ visited : StringSet, (∀ x ∈ rest, visited x = false) → rest.Nodup →
      hasDuplicatesLoop visited rest = ("", false) := by
  induction rest with
  | nil => intro _ _ _; rfl
  | cons v rest ih =>
    intro visited hv hn
    have hv0 : visited v = false := hv v (List.mem_cons_self _ _)
    rw [List.nodup_cons] at hn
    simp only [hasDuplicatesLoop, hv0, Bool.false_eq_true, if_false]
    refine ih _ ?_ hn.2
    intro x hx
    have hne : x ≠ v := fun h => hn.1 (h ▸ hx)
    simp only [StringSet.set, hne, if_false]
    exact hv x (List.mem_cons_of_mem _ hx)

theorem hasDuplicatesLoop_repeat (a : List String) (v : String) (b : List String) :
    ∀ visited : StringSet, (∀ x ∈ a, visited x = false) → a.Nodup →
      (visited v = true ∨ v ∈ a) →
      hasDuplicatesLoop visited (a ++ v :: b) = (v, true) := by
  induction a with
  | nil =>
    intro visited _ _ h
    rcases h with h | h
    · simp only [List.nil_append, hasDuplicatesLoop, h, if_true]
    · exact absurd h (List.not_mem_nil _)
  | cons w a ih =>
    intro visited hv hn h
    have hv0 : visited w = false := hv w (List.mem_cons_self _ _)
    rw [List.nodup_cons] at hn
    simp only [List.cons_append, hasDuplicatesLoop, hv0, Bool.false_eq_true, if_false]
    refine ih _ ?_ hn.2 ?_
    · intro x hx
      have hne : x ≠ w := fun h => hn.1 (h ▸ hx)
      simp only [StringSet.set, hne, if_false]
      exact hv x (List.mem_cons_of_mem _ hx)
    · rcases h with h | h
      · left
        have hne : v ≠ w := by
          intro hvw
          rw [hvw, hv0] at h
          exact Bool.false_ne_true h
        simp only [StringSet.set, hne, if_false]
        exact h
      · rcases List.mem_cons.1 h with h | h
        · left; simp [StringSet.set, h]
        · right; exact h


theorem HasDuplicates_nodup (xs : List String) (h : xs.Nodup) :
    HasDuplicates xs = ("", false) :=
  hasDuplicatesLoop_fresh xs makeStringSet (fun _ _ => rfl) h

theorem HasDuplicates_first_repeat (xs : List String) (j : Nat) (v : String)
    (hj : xs[j]? = some v) (hearlier : ∃ i, i < j ∧ xs[i]? = some v)
    (hmin : ∀ k i : Nat, k < j → i < k → xs[i]? ≠ xs[k]?) :
    HasDuplicates xs = (v, true) := by
  obtain ⟨hlt, hv⟩ := List.getElem?_eq_some.1 hj
  have hsplit : xs.take j ++ v :: xs.drop (j + 1) = xs := by
    rw [← hv, ← List.drop_eq_getElem_cons hlt, List.take_append_drop]
  have hnodup : (xs.take j).Nodup := by
    rw [List.nodup_iff_getElem?_ne_getElem?]
    intro i k hik hk
    have hkj : k < j := lt_of_lt_of_le hk (List.length_take_le _ _)
    rw [List.getElem?_take_of_lt (lt_trans hik hkj), List.getElem?_take_of_lt hkj]
    exact hmin k i hkj hik
  have hmem : v ∈ xs.take j := by
    obtain ⟨i, hi, hiv⟩ := hearlier
    rw [List.mem_iff_getElem?]
    exact ⟨i, by rw [List.getElem?_take_of_lt hi]; exact hiv⟩
  have hrun := hasDuplicatesLoop_repeat (xs.take j) v (xs.drop (j + 1)) makeStringSet
    (fun _ _ => rfl) hnodup (Or.inr hmem)
  rw [hsplit] at hrun
  exact hrun

theorem HasDuplicates_cases (xs : List String) :
    (xs.Nodup ∧ HasDuplicates xs = ("", false)) ∨
    ∃ j v, xs[j]? = some v ∧ (∃ i, i < j ∧ xs[i]? = some v) ∧
      (∀ k i : Nat, k < j → i < k → xs[i]? ≠ xs[k]?) ∧ HasDuplicates xs = (v, true) := by
  classical
  by_cases hn : xs.Nodup
  · exact Or.inl ⟨hn, HasDuplicates_nodup xs hn⟩
  · right
    have hex : ∃ j, ∃ i, i < j ∧ j < xs.length ∧ xs[i]? = xs[j]? := by
      by_contra hno
      apply hn
      rw [List.nodup_iff_getElem?_ne_getElem?]
      intro i j hij hj heq
      exact hno ⟨j, i, hij, hj, heq⟩
    obtain ⟨i, hij, hj, heq⟩ := Nat.find_spec hex
    have hmin : ∀ k i : Nat, k < Nat.find hex → i < k → xs[i]? ≠ xs[k]? := by
      intro k i hk hik heq
      exact Nat.find_min hex hk ⟨i, hik, lt_trans hk hj, heq⟩
    have hjv : xs[Nat.find hex]? = some (xs[Nat.find hex]) := List.getElem?_eq_getElem hj
    have hearlier : ∃ i, i < Nat.find hex ∧ xs[i]? = some (xs[Nat.find hex]) :=
      ⟨i, hij, by rw [heq]; exact hjv⟩
    exact ⟨Nat.find hex, xs[Nat.find hex], hjv, hearlier, hmin,
      HasDuplicates_first_repeat xs _ _ hjv hearlier hmin⟩

/-- C21: `HasDuplicates xs` returns `(v, true)` exactly when `v` is the element
at the smallest index `j` whose element also stands at an earlier index; it
returns some `(v, true)` exactly when two different positions of `xs` hold the
same string, and `("", false)` exactly when none do, in particular for the
empty list and for every list of pairwise distinct strings. -/
theorem HasDuplicates_spec (xs : List String) :
    (∀ v, HasDuplicates xs = (v, true) ↔
      ∃ j, xs[j]? = some v ∧ (∃ i, i < j ∧ xs[i]? = some v) ∧
        ∀ k i : Nat, k < j → i < k → xs[i]? ≠ xs[k]?) ∧
    ((∃ v, HasDuplicates xs = (v, true)) ↔
      ∃ i j, i < j ∧ j < xs.length ∧ xs[i]? = xs[j]?) ∧
    (HasDuplicates xs = ("", false) ↔
      ¬ ∃ i j, i < j ∧ j < xs.length ∧ xs[i]? = xs[j]?) ∧
    (xs.Nodup → HasDuplicates xs = ("", false)) ∧
    HasDuplicates [] = ("", false) := by
  have hdup : ∀ (j : Nat) (v : String), xs[j]? = some v → (∃ i, i < j ∧ xs[i]? = some v) →
      ∃ i k, i < k ∧ k < xs.length ∧ xs[i]? = xs[k]? := by
    intro j v hj ⟨i, hij, hi⟩
    exact ⟨i, j, hij, (List.getElem?_eq_some.1 hj).1, by rw [hi, hj]⟩
  have hnd : xs.Nodup → ¬ ∃ i j, i < j ∧ j < xs.length ∧ xs[i]? = xs[j]? := by
    intro hn ⟨i, j, hij, hj, heq⟩
    exact (List.nodup_iff_getElem?_ne_getElem?.1 hn) i j hij hj heq
  refine ⟨?_, ?_, ?_, HasDuplicates_nodup xs, rfl⟩
  · intro v
    constructor
    · intro hrun
      rcases HasDuplicates_cases xs with ⟨-, h0⟩ | ⟨j, w, hj, he, hmin, hw⟩
      · rw [h0] at hrun
        exact absurd (congrArg Prod.snd hrun) Bool.false_ne_true
      · rw [hw] at hrun
        have hwv : w = v := congrArg Prod.fst hrun
        rw [hwv] at hj he
        exact ⟨j, hj, he, hmin⟩
    · intro ⟨j, hj, he, hmin⟩
      exact HasDuplicates_first_repeat xs j v hj he hmin
  · constructor
    · intro ⟨v, hrun⟩
      rcases HasDuplicates_cases xs with ⟨-, h0⟩ | ⟨j, w, hj, he, -, -⟩
      · rw [h0] at hrun
        exact absurd (congrArg Prod.snd hrun) Bool.false_ne_true
      · exact hdup j w hj he
    · intro hex
      rcases HasDuplicates_cases xs with ⟨hn, -⟩ | ⟨j, w, -, -, -, hw⟩
      · exact absurd hex (hnd hn)
      · exact ⟨w, hw⟩
  · constructor
    · intro hrun hex
      rcases HasDuplicates_cases xs with ⟨hn, -⟩ | ⟨j, w, -, -, -, hw⟩
      · exact hnd hn hex
      · rw [hw] at hrun
        exact absurd (congrArg Prod.snd hrun).symm Bool.false_ne_true
    · intro hno
      rcases HasDuplicates_cases xs with ⟨-, h0⟩ | ⟨j, w, hj, he, -, -⟩
      · exact h0
      · exact absurd (hdup j w hj he) hno

/-- In `["a", "b", "b", "a"]` the first repeat is the `"b"` at index 2. -/
theorem HasDuplicates_spec_witness :
    HasDuplicates ["a", "b", "b", "a"] = ("b", true) :=
  ((HasDuplicates_spec ["a", "b", "b", "a"]).1 "b").2
    ⟨2, rfl, ⟨1, by decide, rfl⟩, by
      intro k i hk hik
      obtain ⟨rfl, rfl⟩ : k = 1 ∧ i = 0 := by omega
      decide⟩

end Ocm

